import Mathlib

/-!
Reversi (`reversi.c`): move legality, piece flipping and the game loop.

Shallow embedding of `reversi.c`.

* The array `int plansza[8][8]` is a function `Plansza := Int → Int → Int`;
  `plansza[y][x]` is `plansza y x` and a store `plansza[y][x] = v` is `ustaw`.
* Every `while` loop of the source is `dopoki warunek cialo n s`: the loop state
  `s` collects the local variables the loop changes, `warunek` is the loop
  condition, `cialo` the loop body.  The bound `n` is the distance from the
  start of the scan to the board edge the loop condition tests, so the loop
  condition is false when `n` is used up and the bound is never the reason
  for stopping (`skan_spec`, `dopoki_stabilny`).
* `pokaz_mozliwe_ruchy` returns the cells `(i, j)` for which the source calls
  `printf`, in the order of the calls; `pokaz_mozliwe_ruchy_wyjscie` is the same
  function as the characters written (`pokaz_mozliwe_ruchy_wyjscie_eq`).
* A C `char` is a Lean `Char`; standard input and output are lists of characters,
  and `obieg` is one iteration of the loop of `main` on the state `Stan`.
* The functions with the suffix `_kontr` repeat the board functions with every array
  access checked against the bounds and every scan loop limited in its iterations.
-/

namespace Reversi

/-- The board `int plansza[8][8]`; `plansza y x` is the C expression `plansza[y][x]`. -/
abbrev Plansza := Int → Int → Int

/-- The store `plansza[y][x] = v`. -/
def ustaw (plansza : Plansza) (y x v : Int) : Plansza :=
  fun i j => if i = y ∧ j = x then v else plansza i j

/-- The loop `while (warunek s) s = cialo s;` on the loop state `s`, running at most
`n` iterations. -/
def dopoki {σ : Type} (warunek : σ → Bool) (cialo : σ → σ) : Nat → σ → σ
  | 0, s => s
  | n + 1, s => if warunek s then dopoki warunek cialo n (cialo s) else s

/-- Source `inicjalizuj_plansze`: two nested `for` loops store `-1` in every cell, then the
four centre pieces are stored. -/
def inicjalizuj_plansze (plansza : Plansza) : Plansza :=
  let plansza := (List.range 8).foldl
    (fun (plansza : Plansza) (i : Nat) =>
      (List.range 8).foldl (fun (plansza : Plansza) (j : Nat) => ustaw plansza i j (-1)) plansza)
    plansza
  let plansza := ustaw plansza 4 3 0
  let plansza := ustaw plansza 3 4 0
  let plansza := ustaw plansza 3 3 1
  let plansza := ustaw plansza 4 4 1
  plansza

/-! ## The eight legality checks `sprawdz_X` -/

/-- Source `sprawdz_pion_w_dol`. -/
def sprawdz_pion_w_dol (wiersz kolumna gracz : Int) (plansza : Plansza) : Bool :=
  let przeciwnik := 1 - gracz
  let y := wiersz
  let y := y + 1
  if y < 8 ∧ plansza y kolumna = przeciwnik then
    let y := dopoki (fun y => decide (y < 8 ∧ plansza y kolumna = przeciwnik))
      (fun y => y + 1) (8 - y).toNat y
    if y < 8 ∧ plansza y kolumna = gracz then true else false
  else false

/-- Source `sprawdz_pion_w_gore`. -/
def sprawdz_pion_w_gore (wiersz kolumna gracz : Int) (plansza : Plansza) : Bool :=
  let przeciwnik := 1 - gracz
  let y := wiersz
  let y := y - 1
  if y ≥ 0 ∧ plansza y kolumna = przeciwnik then
    let y := dopoki (fun y => decide (y ≥ 0 ∧ plansza y kolumna = przeciwnik))
      (fun y => y - 1) (y + 1).toNat y
    if y ≥ 0 ∧ plansza y kolumna = gracz then true else false
  else false

/-- Source `sprawdz_poziom_w_prawo`. -/
def sprawdz_poziom_w_prawo (wiersz kolumna gracz : Int) (plansza : Plansza) : Bool :=
  let przeciwnik := 1 - gracz
  let x := kolumna
  let x := x + 1
  if x < 8 ∧ plansza wiersz x = przeciwnik then
    let x := dopoki (fun x => decide (x < 8 ∧ plansza wiersz x = przeciwnik))
      (fun x => x + 1) (8 - x).toNat x
    if x < 8 ∧ plansza wiersz x = gracz then true else false
  else false

/-- Source `sprawdz_poziom_w_lewo`. -/
def sprawdz_poziom_w_lewo (wiersz kolumna gracz : Int) (plansza : Plansza) : Bool :=
  let przeciwnik := 1 - gracz
  let x := kolumna
  let x := x - 1
  if x ≥ 0 ∧ plansza wiersz x = przeciwnik then
    let x := dopoki (fun x => decide (x ≥ 0 ∧ plansza wiersz x = przeciwnik))
      (fun x => x - 1) (x + 1).toNat x
    if x ≥ 0 ∧ plansza wiersz x = gracz then true else false
  else false

/-- Source `sprawdz_skos_w_prawo_w_gore`; the loop state is `(x, y)`. -/
def sprawdz_skos_w_prawo_w_gore (wiersz kolumna gracz : Int) (plansza : Plansza) : Bool :=
  let przeciwnik := 1 - gracz
  let x := kolumna
  let y := wiersz
  let x := x + 1
  let y := y - 1
  if x < 8 ∧ y ≥ 0 ∧ plansza y x = przeciwnik then
    let s := dopoki (fun s => decide (s.1 < 8 ∧ s.2 ≥ 0 ∧ plansza s.2 s.1 = przeciwnik))
      (fun s => (s.1 + 1, s.2 - 1)) (8 - x).toNat (x, y)
    if s.1 < 8 ∧ s.2 ≥ 0 ∧ plansza s.2 s.1 = gracz then true else false
  else false

/-- Source `sprawdz_skos_w_lewo_w_gore`; the loop state is `(x, y)`. -/
def sprawdz_skos_w_lewo_w_gore (wiersz kolumna gracz : Int) (plansza : Plansza) : Bool :=
  let przeciwnik := 1 - gracz
  let x := kolumna
  let y := wiersz
  let x := x - 1
  let y := y - 1
  if x ≥ 0 ∧ y ≥ 0 ∧ plansza y x = przeciwnik then
    let s := dopoki (fun s => decide (s.2 ≥ 0 ∧ s.1 ≥ 0 ∧ plansza s.2 s.1 = przeciwnik))
      (fun s => (s.1 - 1, s.2 - 1)) (x + 1).toNat (x, y)
    if s.2 ≥ 0 ∧ s.1 ≥ 0 ∧ plansza s.2 s.1 = gracz then true else false
  else false

/-- Source `sprawdz_skos_w_lewo_w_dol`; the loop state is `(x, y)`. -/
def sprawdz_skos_w_lewo_w_dol (wiersz kolumna gracz : Int) (plansza : Plansza) : Bool :=
  let przeciwnik := 1 - gracz
  let x := kolumna
  let y := wiersz
  let x := x - 1
  let y := y + 1
  if x ≥ 0 ∧ y < 8 ∧ plansza y x = przeciwnik then
    let s := dopoki (fun s => decide (s.1 ≥ 0 ∧ s.2 < 8 ∧ plansza s.2 s.1 = przeciwnik))
      (fun s => (s.1 - 1, s.2 + 1)) (x + 1).toNat (x, y)
    if s.1 ≥ 0 ∧ s.2 < 8 ∧ plansza s.2 s.1 = gracz then true else false
  else false

/-- Source `sprawdz_skos_w_prawo_w_dol`; the loop state is `(x, y)`. -/
def sprawdz_skos_w_prawo_w_dol (wiersz kolumna gracz : Int) (plansza : Plansza) : Bool :=
  let przeciwnik := 1 - gracz
  let x := kolumna
  let y := wiersz
  let x := x + 1
  let y := y + 1
  if x < 8 ∧ y < 8 ∧ plansza y x = przeciwnik then
    let s := dopoki (fun s => decide (s.1 < 8 ∧ s.2 < 8 ∧ plansza s.2 s.1 = przeciwnik))
      (fun s => (s.1 + 1, s.2 + 1)) (8 - x).toNat (x, y)
    if s.2 < 8 ∧ s.1 < 8 ∧ plansza s.2 s.1 = gracz then true else false
  else false

/-! ## The eight flips `zmien_X`

The loop state is the scan variable(s) together with the board the loop writes. -/

/-- Source `zmien_pion_w_gore`; the loop state is `(y, plansza)`. -/
def zmien_pion_w_gore (wiersz kolumna gracz : Int) (plansza : Plansza) : Plansza :=
  let przeciwnik := 1 - gracz
  let y := wiersz
  let y := y - 1
  (dopoki (fun s : Int × Plansza => decide (s.1 ≥ 0 ∧ s.2 s.1 kolumna = przeciwnik))
    (fun s => (s.1 - 1, ustaw s.2 s.1 kolumna gracz)) (y + 1).toNat (y, plansza)).2

/-- Source `zmien_pion_w_dol`; the loop state is `(y, plansza)`. -/
def zmien_pion_w_dol (wiersz kolumna gracz : Int) (plansza : Plansza) : Plansza :=
  let przeciwnik := 1 - gracz
  let y := wiersz
  let y := y + 1
  (dopoki (fun s : Int × Plansza => decide (s.1 < 8 ∧ s.2 s.1 kolumna = przeciwnik))
    (fun s => (s.1 + 1, ustaw s.2 s.1 kolumna gracz)) (8 - y).toNat (y, plansza)).2

/-- Source `zmien_poziom_w_prawo`; the loop state is `(x, plansza)`. -/
def zmien_poziom_w_prawo (wiersz kolumna gracz : Int) (plansza : Plansza) : Plansza :=
  let przeciwnik := 1 - gracz
  let x := kolumna
  let x := x + 1
  (dopoki (fun s : Int × Plansza => decide (s.1 < 8 ∧ s.2 wiersz s.1 = przeciwnik))
    (fun s => (s.1 + 1, ustaw s.2 wiersz s.1 gracz)) (8 - x).toNat (x, plansza)).2

/-- Source `zmien_poziom_w_lewo`; the loop state is `(x, plansza)`. -/
def zmien_poziom_w_lewo (wiersz kolumna gracz : Int) (plansza : Plansza) : Plansza :=
  let przeciwnik := 1 - gracz
  let x := kolumna
  let x := x - 1
  (dopoki (fun s : Int × Plansza => decide (s.1 ≥ 0 ∧ s.2 wiersz s.1 = przeciwnik))
    (fun s => (s.1 - 1, ustaw s.2 wiersz s.1 gracz)) (x + 1).toNat (x, plansza)).2

/-- Source `zmien_skos_w_lewo_w_gore`; the loop state is `(x, y, plansza)`. -/
def zmien_skos_w_lewo_w_gore (wiersz kolumna gracz : Int) (plansza : Plansza) : Plansza :=
  let przeciwnik := 1 - gracz
  let x := kolumna
  let y := wiersz
  let y := y - 1
  let x := x - 1
  (dopoki
    (fun s : Int × Int × Plansza => decide (s.1 ≥ 0 ∧ s.2.1 ≥ 0 ∧ s.2.2 s.2.1 s.1 = przeciwnik))
    (fun s => (s.1 - 1, s.2.1 - 1, ustaw s.2.2 s.2.1 s.1 gracz)) (x + 1).toNat
    (x, y, plansza)).2.2

/-- Source `zmien_skos_w_lewo_w_dol`; the loop state is `(x, y, plansza)`. -/
def zmien_skos_w_lewo_w_dol (wiersz kolumna gracz : Int) (plansza : Plansza) : Plansza :=
  let przeciwnik := 1 - gracz
  let x := kolumna
  let y := wiersz
  let y := y + 1
  let x := x - 1
  (dopoki
    (fun s : Int × Int × Plansza => decide (s.1 ≥ 0 ∧ s.2.1 < 8 ∧ s.2.2 s.2.1 s.1 = przeciwnik))
    (fun s => (s.1 - 1, s.2.1 + 1, ustaw s.2.2 s.2.1 s.1 gracz)) (x + 1).toNat
    (x, y, plansza)).2.2

/-- Source `zmien_skos_w_prawo_w_gore`; the loop state is `(x, y, plansza)`. -/
def zmien_skos_w_prawo_w_gore (wiersz kolumna gracz : Int) (plansza : Plansza) : Plansza :=
  let przeciwnik := 1 - gracz
  let x := kolumna
  let y := wiersz
  let y := y - 1
  let x := x + 1
  (dopoki
    (fun s : Int × Int × Plansza => decide (s.1 < 8 ∧ s.2.1 ≥ 0 ∧ s.2.2 s.2.1 s.1 = przeciwnik))
    (fun s => (s.1 + 1, s.2.1 - 1, ustaw s.2.2 s.2.1 s.1 gracz)) (8 - x).toNat
    (x, y, plansza)).2.2

/-- Source `zmien_skos_w_prawo_w_dol`; the loop state is `(x, y, plansza)`. -/
def zmien_skos_w_prawo_w_dol (wiersz kolumna gracz : Int) (plansza : Plansza) : Plansza :=
  let przeciwnik := 1 - gracz
  let x := kolumna
  let y := wiersz
  let y := y + 1
  let x := x + 1
  (dopoki
    (fun s : Int × Int × Plansza => decide (s.1 < 8 ∧ s.2.1 < 8 ∧ s.2.2 s.2.1 s.1 = przeciwnik))
    (fun s => (s.1 + 1, s.2.1 + 1, ustaw s.2.2 s.2.1 s.1 gracz)) (8 - x).toNat
    (x, y, plansza)).2.2

/-! ## Enumeration and move execution -/

/-- Source `pokaz_mozliwe_ruchy`: the cells `(i, j)` for which `printf(" %c%d", ...)` is
called, in call order (outer loop over the column `j`, inner loop over the row `i`). -/
def pokaz_mozliwe_ruchy (plansza : Plansza) (gracz : Int) : List (Int × Int) :=
  (List.range 8).foldl
    (fun wyjscie (j : Nat) =>
      (List.range 8).foldl
        (fun wyjscie (i : Nat) =>
          if plansza i j = -1 then
            if sprawdz_pion_w_gore i j gracz plansza ||
                sprawdz_pion_w_dol i j gracz plansza ||
                sprawdz_poziom_w_lewo i j gracz plansza ||
                sprawdz_poziom_w_prawo i j gracz plansza ||
                sprawdz_skos_w_lewo_w_dol i j gracz plansza ||
                sprawdz_skos_w_lewo_w_gore i j gracz plansza ||
                sprawdz_skos_w_prawo_w_dol i j gracz plansza ||
                sprawdz_skos_w_prawo_w_gore i j gracz plansza then
              wyjscie ++ [((i : Int), (j : Int))]
            else wyjscie
          else wyjscie)
        wyjscie)
    []

/-- Source `wykonaj_ruch`. -/
def wykonaj_ruch (wiersz kolumna gracz : Int) (plansza : Plansza) : Plansza :=
  let plansza := ustaw plansza wiersz kolumna gracz
  let plansza := if sprawdz_pion_w_gore wiersz kolumna gracz plansza
    then zmien_pion_w_gore wiersz kolumna gracz plansza else plansza
  let plansza := if sprawdz_pion_w_dol wiersz kolumna gracz plansza
    then zmien_pion_w_dol wiersz kolumna gracz plansza else plansza
  let plansza := if sprawdz_poziom_w_prawo wiersz kolumna gracz plansza
    then zmien_poziom_w_prawo wiersz kolumna gracz plansza else plansza
  let plansza := if sprawdz_poziom_w_lewo wiersz kolumna gracz plansza
    then zmien_poziom_w_lewo wiersz kolumna gracz plansza else plansza
  let plansza := if sprawdz_skos_w_lewo_w_gore wiersz kolumna gracz plansza
    then zmien_skos_w_lewo_w_gore wiersz kolumna gracz plansza else plansza
  let plansza := if sprawdz_skos_w_prawo_w_gore wiersz kolumna gracz plansza
    then zmien_skos_w_prawo_w_gore wiersz kolumna gracz plansza else plansza
  let plansza := if sprawdz_skos_w_lewo_w_dol wiersz kolumna gracz plansza
    then zmien_skos_w_lewo_w_dol wiersz kolumna gracz plansza else plansza
  let plansza := if sprawdz_skos_w_prawo_w_dol wiersz kolumna gracz plansza
    then zmien_skos_w_prawo_w_dol wiersz kolumna gracz plansza else plansza
  plansza

/-! ## Directions

The eight function pairs of the source, indexed by a direction, with the
(row, column) step each of them takes. -/

/-- The eight scan directions, named after the suffix `X` of `sprawdz_X` / `zmien_X`. -/
inductive Kierunek
  | pion_w_gore
  | pion_w_dol
  | poziom_w_prawo
  | poziom_w_lewo
  | skos_w_prawo_w_gore
  | skos_w_lewo_w_gore
  | skos_w_lewo_w_dol
  | skos_w_prawo_w_dol
  deriving DecidableEq

/-- Row step of a direction. -/
def Kierunek.dy : Kierunek → Int
  | .pion_w_gore => -1
  | .pion_w_dol => 1
  | .poziom_w_prawo => 0
  | .poziom_w_lewo => 0
  | .skos_w_prawo_w_gore => -1
  | .skos_w_lewo_w_gore => -1
  | .skos_w_lewo_w_dol => 1
  | .skos_w_prawo_w_dol => 1

/-- Column step of a direction. -/
def Kierunek.dx : Kierunek → Int
  | .pion_w_gore => 0
  | .pion_w_dol => 0
  | .poziom_w_prawo => 1
  | .poziom_w_lewo => -1
  | .skos_w_prawo_w_gore => 1
  | .skos_w_lewo_w_gore => -1
  | .skos_w_lewo_w_dol => -1
  | .skos_w_prawo_w_dol => 1

/-- The source function `sprawdz_X` for direction `X`. -/
def sprawdz (d : Kierunek) (wiersz kolumna gracz : Int) (plansza : Plansza) : Bool :=
  match d with
  | .pion_w_gore => sprawdz_pion_w_gore wiersz kolumna gracz plansza
  | .pion_w_dol => sprawdz_pion_w_dol wiersz kolumna gracz plansza
  | .poziom_w_prawo => sprawdz_poziom_w_prawo wiersz kolumna gracz plansza
  | .poziom_w_lewo => sprawdz_poziom_w_lewo wiersz kolumna gracz plansza
  | .skos_w_prawo_w_gore => sprawdz_skos_w_prawo_w_gore wiersz kolumna gracz plansza
  | .skos_w_lewo_w_gore => sprawdz_skos_w_lewo_w_gore wiersz kolumna gracz plansza
  | .skos_w_lewo_w_dol => sprawdz_skos_w_lewo_w_dol wiersz kolumna gracz plansza
  | .skos_w_prawo_w_dol => sprawdz_skos_w_prawo_w_dol wiersz kolumna gracz plansza

/-- The source function `zmien_X` for direction `X`. -/
def zmien (d : Kierunek) (wiersz kolumna gracz : Int) (plansza : Plansza) : Plansza :=
  match d with
  | .pion_w_gore => zmien_pion_w_gore wiersz kolumna gracz plansza
  | .pion_w_dol => zmien_pion_w_dol wiersz kolumna gracz plansza
  | .poziom_w_prawo => zmien_poziom_w_prawo wiersz kolumna gracz plansza
  | .poziom_w_lewo => zmien_poziom_w_lewo wiersz kolumna gracz plansza
  | .skos_w_prawo_w_gore => zmien_skos_w_prawo_w_gore wiersz kolumna gracz plansza
  | .skos_w_lewo_w_gore => zmien_skos_w_lewo_w_gore wiersz kolumna gracz plansza
  | .skos_w_lewo_w_dol => zmien_skos_w_lewo_w_dol wiersz kolumna gracz plansza
  | .skos_w_prawo_w_dol => zmien_skos_w_prawo_w_dol wiersz kolumna gracz plansza

/-- The directions in the order in which `wykonaj_ruch` handles them. -/
def kolejnosc_ruchu : List Kierunek :=
  [.pion_w_gore, .pion_w_dol, .poziom_w_prawo, .poziom_w_lewo, .skos_w_lewo_w_gore,
    .skos_w_prawo_w_gore, .skos_w_lewo_w_dol, .skos_w_prawo_w_dol]

/-- A cell `(y, x)` lies on the 8x8 board. -/
def naPlanszy (y x : Int) : Prop := 0 ≤ y ∧ y < 8 ∧ 0 ≤ x ∧ x < 8

instance (y x : Int) : Decidable (naPlanszy y x) := by
  unfold naPlanszy; infer_instance

/-- Row of the `t`-th cell from `wiersz` in direction `d`. -/
def py (d : Kierunek) (wiersz : Int) (t : Nat) : Int := wiersz + t * d.dy

/-- Column of the `t`-th cell from `kolumna` in direction `d`. -/
def px (d : Kierunek) (kolumna : Int) (t : Nat) : Int := kolumna + t * d.dx

/-- Cell `t` of the ray from `(wiersz, kolumna)` in direction `d` is on the board and
holds the value `v`. -/
def maNaPromieniu (plansza : Plansza) (d : Kierunek) (wiersz kolumna : Int) (t : Nat)
    (v : Int) : Prop :=
  naPlanszy (py d wiersz t) (px d kolumna t) ∧ plansza (py d wiersz t) (px d kolumna t) = v

instance (plansza : Plansza) (d : Kierunek) (wiersz kolumna : Int) (t : Nat) (v : Int) :
    Decidable (maNaPromieniu plansza d wiersz kolumna t v) := by
  unfold maNaPromieniu; infer_instance

/-- The flanking condition of the rules: cells `1..k` of the ray from `(wiersz, kolumna)`
in direction `d` are on the board and hold the opponent `1 - gracz`, and cell `k + 1` is on
the board and holds `gracz`. -/
def Flankuje (plansza : Plansza) (d : Kierunek) (wiersz kolumna gracz : Int) (k : Nat) :
    Prop :=
  1 ≤ k ∧ (∀ j : Nat, 1 ≤ j → j ≤ k → maNaPromieniu plansza d wiersz kolumna j (1 - gracz)) ∧
    maNaPromieniu plansza d wiersz kolumna (k + 1) gracz

/-- Every cell of the board holds `-1` (Empty), `0` (Black) or `1` (White). -/
def Poprawna (plansza : Plansza) : Prop :=
  ∀ y x : Int, naPlanszy y x → plansza y x = -1 ∨ plansza y x = 0 ∨ plansza y x = 1

/-- Number of board cells holding the value `v`. -/
def policz (plansza : Plansza) (v : Int) : Nat :=
  ((List.range 8).map fun i : Nat =>
    ((List.range 8).filter fun j : Nat => decide (plansza i j = v)).length).sum

/-- The centre position of the rules, written out as a table. -/
def plansza_startowa : Plansza := fun y x =>
  if (y = 3 ∧ x = 3) ∨ (y = 4 ∧ x = 4) then 1
  else if (y = 3 ∧ x = 4) ∨ (y = 4 ∧ x = 3) then 0
  else -1


/-! ## The scans in terms of the ray index -/

/-- The iteration bound given to the loop of `sprawdz_X` and `zmien_X` for direction `d`: the
distance from the first scanned cell to the board edge that the loop condition tests. -/
def paliwo (d : Kierunek) (wiersz kolumna : Int) : Nat :=
  match d with
  | .pion_w_gore => (wiersz - 1 + 1).toNat
  | .pion_w_dol => (8 - (wiersz + 1)).toNat
  | .poziom_w_prawo => (8 - (kolumna + 1)).toNat
  | .poziom_w_lewo => (kolumna - 1 + 1).toNat
  | .skos_w_prawo_w_gore => (8 - (kolumna + 1)).toNat
  | .skos_w_lewo_w_gore => (kolumna - 1 + 1).toNat
  | .skos_w_lewo_w_dol => (kolumna - 1 + 1).toNat
  | .skos_w_prawo_w_dol => (8 - (kolumna + 1)).toNat

/-- The scan shared by `sprawdz_X` and `zmien_X`, on the index `t` of the ray cell: starting
at `t = 1`, advance while cell `t` is on the board and holds the opponent. -/
def skan (plansza : Plansza) (d : Kierunek) (wiersz kolumna gracz : Int) (n : Nat) : Nat :=
  dopoki (fun t => decide (maNaPromieniu plansza d wiersz kolumna t (1 - gracz)))
    (fun t => t + 1) n 1

/-- The board with cells `1..n` of the ray from `(wiersz, kolumna)` in direction `d` set to
`gracz`. -/
def pomaluj (plansza : Plansza) (d : Kierunek) (wiersz kolumna gracz : Int) : Nat → Plansza
  | 0 => plansza
  | n + 1 =>
    ustaw (pomaluj plansza d wiersz kolumna gracz n) (py d wiersz (n + 1)) (px d kolumna (n + 1))
      gracz

/-- Closed form of `sprawdz_X` in terms of the ray index (see `sprawdz_kan`). -/
def wynik_sprawdz (plansza : Plansza) (d : Kierunek) (wiersz kolumna gracz : Int) : Bool :=
  decide (maNaPromieniu plansza d wiersz kolumna 1 (1 - gracz)) &&
    decide (maNaPromieniu plansza d wiersz kolumna
      (skan plansza d wiersz kolumna gracz (paliwo d wiersz kolumna)) gracz)

/-- Closed form of `zmien_X` in terms of the ray index (see `zmien_kan`). -/
def wynik_zmien (plansza : Plansza) (d : Kierunek) (wiersz kolumna gracz : Int) : Plansza :=
  pomaluj plansza d wiersz kolumna gracz
    (skan plansza d wiersz kolumna gracz (paliwo d wiersz kolumna) - 1)

/-- Length of the maximal run of opponent cells adjacent to `(wiersz, kolumna)` in
direction `d`. -/
def seria (plansza : Plansza) (d : Kierunek) (wiersz kolumna gracz : Int) : Nat :=
  skan plansza d wiersz kolumna gracz (paliwo d wiersz kolumna) - 1

/-! ## Specification vocabulary -/

/-- The flanking condition for a step `(dr, dc)`: for some `k ≥ 1` the cells
`(wiersz + j*dr, kolumna + j*dc)`, `j = 1..k`, are on the board and hold `1 - gracz`, and the
cell with `j = k + 1` is on the board and holds `gracz`. -/
def Oskrzydla (plansza : Plansza) (wiersz kolumna gracz dr dc : Int) : Prop :=
  ∃ k : Nat, 1 ≤ k ∧
    (∀ j : Nat, 1 ≤ j → j ≤ k →
      naPlanszy (wiersz + j * dr) (kolumna + j * dc) ∧
        plansza (wiersz + j * dr) (kolumna + j * dc) = 1 - gracz) ∧
    naPlanszy (wiersz + (k + 1 : Nat) * dr) (kolumna + (k + 1 : Nat) * dc) ∧
      plansza (wiersz + (k + 1 : Nat) * dr) (kolumna + (k + 1 : Nat) * dc) = gracz

/-- An opponent run of length `k` from the cell next to `(wiersz, kolumna)` along the step
`(dr, dc)` that is followed by the board edge or by an Empty cell. -/
def Urwana (plansza : Plansza) (wiersz kolumna gracz dr dc : Int) : Prop :=
  ∃ k : Nat,
    (∀ j : Nat, 1 ≤ j → j ≤ k →
      naPlanszy (wiersz + j * dr) (kolumna + j * dc) ∧
        plansza (wiersz + j * dr) (kolumna + j * dc) = 1 - gracz) ∧
    (¬ naPlanszy (wiersz + (k + 1 : Nat) * dr) (kolumna + (k + 1 : Nat) * dc) ∨
      plansza (wiersz + (k + 1 : Nat) * dr) (kolumna + (k + 1 : Nat) * dc) = -1)

/-- One step of `wykonaj_ruch`: `if (sprawdz_X(...)) zmien_X(...);` for direction `d`. -/
def krok_ruchu (wiersz kolumna gracz : Int) (plansza : Plansza) (d : Kierunek) : Plansza :=
  if sprawdz d wiersz kolumna gracz plansza then zmien d wiersz kolumna gracz plansza
  else plansza

/-- Cell `(i, j)` lies in a run flanked, on the board `plansza`, by a move of `gracz` to
`(wiersz, kolumna)` in direction `d`. -/
def Zbite (plansza : Plansza) (d : Kierunek) (wiersz kolumna gracz : Int) (i j : Int) : Prop :=
  ∃ n t : Nat, Flankuje plansza d wiersz kolumna gracz n ∧ 1 ≤ t ∧ t ≤ n ∧
    i = py d wiersz t ∧ j = px d kolumna t

/-- Invariant of `wykonaj_ruch` after the directions in `M` have been handled. -/
def PoKierunkach (p0 : Plansza) (w k g : Int) (M : Kierunek → Prop) (p : Plansza) : Prop :=
  ∀ i j : Int, ((i = w ∧ j = k) → p i j = g) ∧
    (∀ d, M d → Zbite p0 d w k g i j → p i j = g) ∧
    (¬(i = w ∧ j = k) → (∀ d, M d → ¬ Zbite p0 d w k g i j) → p i j = p0 i j)

/-- A sequence of calls `wykonaj_ruch(wiersz, kolumna, gracz, plansza)`, one per entry
`(wiersz, kolumna, gracz)` of `ruchy`, on the same array. -/
def rozegraj (ruchy : List (Int × Int × Int)) (plansza : Plansza) : Plansza :=
  ruchy.foldl (fun plansza m => wykonaj_ruch m.1 m.2.1 m.2.2 plansza) plansza

/-- An entry `(wiersz, kolumna, gracz)` with in-range coordinates and `gracz` in `{0, 1}`. -/
def RuchWZakresie (m : Int × Int × Int) : Prop :=
  (0 ≤ m.1 ∧ m.1 < 8) ∧ (0 ≤ m.2.1 ∧ m.2.1 < 8) ∧ (m.2.2 = 0 ∨ m.2.2 = 1)

/-- The test `pokaz_mozliwe_ruchy` applies to the cell `(i, j)` before printing it. -/
def do_wypisania (plansza : Plansza) (gracz : Int) (j i : Nat) : Bool :=
  decide (plansza i j = -1) &&
    (sprawdz_pion_w_gore i j gracz plansza ||
      sprawdz_pion_w_dol i j gracz plansza ||
      sprawdz_poziom_w_lewo i j gracz plansza ||
      sprawdz_poziom_w_prawo i j gracz plansza ||
      sprawdz_skos_w_lewo_w_dol i j gracz plansza ||
      sprawdz_skos_w_lewo_w_gore i j gracz plansza ||
      sprawdz_skos_w_prawo_w_dol i j gracz plansza ||
      sprawdz_skos_w_prawo_w_gore i j gracz plansza)

/-! ## Coordinate conversion -/

/-- Source `numer_kolumny`; a C `char` is a Lean `Char`, whose code is the C value for the
ASCII characters of the protocol. -/
def numer_kolumny (kolumna : Char) : Int :=
  match kolumna with
  | 'a' => 0
  | 'b' => 1
  | 'c' => 2
  | 'd' => 3
  | 'e' => 4
  | 'f' => 5
  | 'g' => 6
  | 'h' => 7
  | _ => -1

/-- Source `numer_wiersza`: `wiersz - '0' - 1` in `int` arithmetic. -/
def numer_wiersza (wiersz : Char) : Int :=
  (wiersz.toNat : Int) - ('0'.toNat : Int) - 1

/-- Source `symbol_kolumny`. -/
def symbol_kolumny (kolumna : Int) : Char :=
  match kolumna with
  | 0 => 'a'
  | 1 => 'b'
  | 2 => 'c'
  | 3 => 'd'
  | 4 => 'e'
  | 5 => 'f'
  | 6 => 'g'
  | 7 => 'h'
  | _ => ' '

/-! ## The game loop of `main` -/

/-- The characters written by `printf(" %c%d", c, d)`. -/
def printf_pole (c : Char) (d : Int) : List Char :=
  [' ', c] ++ (toString d).toList

/-- Source `pokaz_mozliwe_ruchy`, as the characters it appends to the standard output
`wyjscie`. -/
def pokaz_mozliwe_ruchy_wyjscie (plansza : Plansza) (gracz : Int) (wyjscie : List Char) :
    List Char :=
  (List.range 8).foldl
    (fun wyjscie (j : Nat) =>
      (List.range 8).foldl
        (fun wyjscie (i : Nat) =>
          if plansza i j = -1 then
            if sprawdz_pion_w_gore i j gracz plansza ||
                sprawdz_pion_w_dol i j gracz plansza ||
                sprawdz_poziom_w_lewo i j gracz plansza ||
                sprawdz_poziom_w_prawo i j gracz plansza ||
                sprawdz_skos_w_lewo_w_dol i j gracz plansza ||
                sprawdz_skos_w_lewo_w_gore i j gracz plansza ||
                sprawdz_skos_w_prawo_w_dol i j gracz plansza ||
                sprawdz_skos_w_prawo_w_gore i j gracz plansza then
              wyjscie ++ printf_pole (symbol_kolumny j) (i + 1)
            else wyjscie
          else wyjscie)
        wyjscie)
    wyjscie

/-- State of `main` at the head of its `while` loop: the variables `gra_trwa`, `tura` and
`plansza`, the unread standard input and the standard output written so far. -/
structure Stan where
  gra_trwa : Bool
  tura : Int
  plansza : Plansza
  wejscie : List Char
  wyjscie : List Char

/-- Library `getchar()`: the code of the next input character and the rest of the input, or
`EOF = -1` at the end of the input. -/
def getchar (wejscie : List Char) : Int × List Char :=
  match wejscie with
  | [] => (-1, [])
  | c :: reszta => ((c.toNat : Int), reszta)

/-- The cast `(char) x` of a value returned by `getchar`; the identity on character codes. -/
def na_char (x : Int) : Char := Char.ofNat x.toNat

/-- The array `char gracze[] = {'C', 'B'}` of `main`. -/
def gracze : List Char := ['C', 'B']

/-- The `switch (kolumna_ascii)` of `main`: the new values of `gra_trwa` and `plansza` and the
input left unread, for the first character code `kolumna_ascii` of the command and the
input `wejscie` after it. -/
def polecenie (gra_trwa : Bool) (tura : Int) (plansza : Plansza) (kolumna_ascii : Int)
    (wejscie : List Char) : Bool × Plansza × List Char :=
  if kolumna_ascii = ('-'.toNat : Int) then (gra_trwa, plansza, wejscie)
  else if kolumna_ascii = ('='.toNat : Int) then (false, plansza, wejscie)
  else
    let kolumna := numer_kolumny (na_char kolumna_ascii)
    let wiersz_ascii := (getchar wejscie).1
    let wejscie := (getchar wejscie).2
    let wiersz := numer_wiersza (na_char wiersz_ascii)
    (gra_trwa, wykonaj_ruch wiersz kolumna tura plansza, wejscie)

/-- One iteration of the `while (gra_trwa)` loop of `main`: the prompt is written, a command
is read and carried out, the end of the line is read and the turn passes on. -/
def obieg (s : Stan) : Stan :=
  let wyjscie := s.wyjscie ++ [gracze.getD s.tura.toNat ' ']
  let wyjscie := pokaz_mozliwe_ruchy_wyjscie s.plansza s.tura wyjscie
  let wyjscie := wyjscie ++ ['\n']
  let kolumna_ascii := (getchar s.wejscie).1
  let wejscie := (getchar s.wejscie).2
  let po := polecenie s.gra_trwa s.tura s.plansza kolumna_ascii wejscie
  let wejscie := (getchar po.2.2).2
  let tura := 1 - s.tura
  { gra_trwa := po.1, tura := tura, plansza := po.2.1, wejscie := wejscie,
    wyjscie := wyjscie }

/-- The state in which `main` enters its loop, for the initial content `plansza` of the
array and the standard input `wejscie`. -/
def stan_poczatkowy (plansza : Plansza) (wejscie : List Char) : Stan :=
  { gra_trwa := true, tura := 0, plansza := inicjalizuj_plansze plansza, wejscie := wejscie,
    wyjscie := [] }

/-- Source `main`, run for at most `n` iterations of its loop. -/
def main (n : Nat) (plansza : Plansza) (wejscie : List Char) : Stan :=
  dopoki (fun s => s.gra_trwa) obieg n (stan_poczatkowy plansza wejscie)

/-! ## Check before placement -/

/-- Following the spec's words for check-before-placement: first all eight `sprawdz_X` are
evaluated on the unmodified input board, then `gracz` is written to the target cell, then
`zmien_X` runs for exactly the directions that tested true (in the direction order of
`wykonaj_ruch`). -/
def wykonaj_ruch_sprawdz_przed (wiersz kolumna gracz : Int) (plansza : Plansza) : Plansza :=
  let w_gore := sprawdz_pion_w_gore wiersz kolumna gracz plansza
  let w_dol := sprawdz_pion_w_dol wiersz kolumna gracz plansza
  let w_prawo := sprawdz_poziom_w_prawo wiersz kolumna gracz plansza
  let w_lewo := sprawdz_poziom_w_lewo wiersz kolumna gracz plansza
  let lewo_w_gore := sprawdz_skos_w_lewo_w_gore wiersz kolumna gracz plansza
  let prawo_w_gore := sprawdz_skos_w_prawo_w_gore wiersz kolumna gracz plansza
  let lewo_w_dol := sprawdz_skos_w_lewo_w_dol wiersz kolumna gracz plansza
  let prawo_w_dol := sprawdz_skos_w_prawo_w_dol wiersz kolumna gracz plansza
  let plansza := ustaw plansza wiersz kolumna gracz
  let plansza := if w_gore then zmien_pion_w_gore wiersz kolumna gracz plansza else plansza
  let plansza := if w_dol then zmien_pion_w_dol wiersz kolumna gracz plansza else plansza
  let plansza := if w_prawo then zmien_poziom_w_prawo wiersz kolumna gracz plansza else plansza
  let plansza := if w_lewo then zmien_poziom_w_lewo wiersz kolumna gracz plansza else plansza
  let plansza :=
    if lewo_w_gore then zmien_skos_w_lewo_w_gore wiersz kolumna gracz plansza else plansza
  let plansza :=
    if prawo_w_gore then zmien_skos_w_prawo_w_gore wiersz kolumna gracz plansza else plansza
  let plansza :=
    if lewo_w_dol then zmien_skos_w_lewo_w_dol wiersz kolumna gracz plansza else plansza
  let plansza :=
    if prawo_w_dol then zmien_skos_w_prawo_w_dol wiersz kolumna gracz plansza else plansza
  plansza

/-! ## Checked array accesses

The functions below repeat the source functions with every array access checked against
the bounds of `int plansza[8][8]` and every scan loop limited to `limit` iterations.  The
result is `none` when an index outside `[0, 7]` is used or a loop needs more than `limit`
iterations. -/

/-- The read `plansza[y][x]` with the array bounds checked: `none` when an index is outside
`[0, 7]`. -/
def czytaj (plansza : Plansza) (y x : Int) : Option Int :=
  if naPlanszy y x then some (plansza y x) else none

/-- The store `plansza[y][x] = v` with the array bounds checked. -/
def zapisz (plansza : Plansza) (y x v : Int) : Option Plansza :=
  if naPlanszy y x then some (ustaw plansza y x v) else none

/-- The comparison `plansza[y][x] == v` with the read checked. -/
def por (plansza : Plansza) (y x v : Int) : Option Bool :=
  (czytaj plansza y x).map fun z => decide (z = v)

/-- The C operator `a && b`: `b` is evaluated only when `a` holds. -/
def i_wtedy (a : Bool) (b : Option Bool) : Option Bool :=
  if a then b else some false

/-- The C operator `a || b`: `b` is evaluated only when `a` does not hold. -/
def lub_wtedy (a b : Option Bool) : Option Bool :=
  a.bind fun x => if x then some true else b

/-- The loop `while (warunek s) s = cialo s;` with checked accesses and a limit of `n`
iterations: `none` when an access fails or when the condition still holds after `n`
iterations. -/
def dopoki_kontr {σ : Type} (warunek : σ → Option Bool) (cialo : σ → Option σ) :
    Nat → σ → Option σ
  | 0, s => (warunek s).bind fun b => if b then none else some s
  | n + 1, s =>
    (warunek s).bind fun b =>
      if b then (cialo s).bind (dopoki_kontr warunek cialo n) else some s

/-- Source `sprawdz_pion_w_gore` with checked array accesses and at most `limit` iterations of
its loop. -/
def sprawdz_pion_w_gore_kontr (limit : Nat) (wiersz kolumna gracz : Int) (plansza : Plansza) :
    Option Bool := do
  let przeciwnik := 1 - gracz
  let y := wiersz
  let y := y - 1
  if ← i_wtedy (decide (y ≥ 0)) (por plansza y kolumna przeciwnik) then
    let y ← dopoki_kontr
      (fun y => i_wtedy (decide (y ≥ 0)) (por plansza y kolumna przeciwnik))
      (fun y => some (y - 1)) limit y
    if ← i_wtedy (decide (y ≥ 0)) (por plansza y kolumna gracz) then
      return true
    return false
  else
    return false

/-- Source `zmien_pion_w_gore` with checked array accesses and at most `limit` iterations of its
loop. -/
def zmien_pion_w_gore_kontr (limit : Nat) (wiersz kolumna gracz : Int) (plansza : Plansza) :
    Option Plansza := do
  let przeciwnik := 1 - gracz
  let y := wiersz
  let y := y - 1
  let s ← dopoki_kontr
    (fun s : Int × Plansza => i_wtedy (decide (s.1 ≥ 0)) (por s.2 s.1 kolumna przeciwnik))
    (fun s => do
      let plansza ← zapisz s.2 s.1 kolumna gracz
      return (s.1 - 1, plansza))
    limit (y, plansza)
  return s.2

/-- Source `sprawdz_pion_w_dol` with checked array accesses and at most `limit` iterations of
its loop. -/
def sprawdz_pion_w_dol_kontr (limit : Nat) (wiersz kolumna gracz : Int) (plansza : Plansza) :
    Option Bool := do
  let przeciwnik := 1 - gracz
  let y := wiersz
  let y := y + 1
  if ← i_wtedy (decide (y < 8)) (por plansza y kolumna przeciwnik) then
    let y ← dopoki_kontr
      (fun y => i_wtedy (decide (y < 8)) (por plansza y kolumna przeciwnik))
      (fun y => some (y + 1)) limit y
    if ← i_wtedy (decide (y < 8)) (por plansza y kolumna gracz) then
      return true
    return false
  else
    return false

/-- Source `zmien_pion_w_dol` with checked array accesses and at most `limit` iterations of its
loop. -/
def zmien_pion_w_dol_kontr (limit : Nat) (wiersz kolumna gracz : Int) (plansza : Plansza) :
    Option Plansza := do
  let przeciwnik := 1 - gracz
  let y := wiersz
  let y := y + 1
  let s ← dopoki_kontr
    (fun s : Int × Plansza => i_wtedy (decide (s.1 < 8)) (por s.2 s.1 kolumna przeciwnik))
    (fun s => do
      let plansza ← zapisz s.2 s.1 kolumna gracz
      return (s.1 + 1, plansza))
    limit (y, plansza)
  return s.2

/-- Source `sprawdz_poziom_w_prawo` with checked array accesses and at most `limit` iterations of
its loop. -/
def sprawdz_poziom_w_prawo_kontr (limit : Nat) (wiersz kolumna gracz : Int) (plansza : Plansza) :
    Option Bool := do
  let przeciwnik := 1 - gracz
  let x := kolumna
  let x := x + 1
  if ← i_wtedy (decide (x < 8)) (por plansza wiersz x przeciwnik) then
    let x ← dopoki_kontr
      (fun x => i_wtedy (decide (x < 8)) (por plansza wiersz x przeciwnik))
      (fun x => some (x + 1)) limit x
    if ← i_wtedy (decide (x < 8)) (por plansza wiersz x gracz) then
      return true
    return false
  else
    return false

/-- Source `zmien_poziom_w_prawo` with checked array accesses and at most `limit` iterations of its
loop. -/
def zmien_poziom_w_prawo_kontr (limit : Nat) (wiersz kolumna gracz : Int) (plansza : Plansza) :
    Option Plansza := do
  let przeciwnik := 1 - gracz
  let x := kolumna
  let x := x + 1
  let s ← dopoki_kontr
    (fun s : Int × Plansza => i_wtedy (decide (s.1 < 8)) (por s.2 wiersz s.1 przeciwnik))
    (fun s => do
      let plansza ← zapisz s.2 wiersz s.1 gracz
      return (s.1 + 1, plansza))
    limit (x, plansza)
  return s.2

/-- Source `sprawdz_poziom_w_lewo` with checked array accesses and at most `limit` iterations of
its loop. -/
def sprawdz_poziom_w_lewo_kontr (limit : Nat) (wiersz kolumna gracz : Int) (plansza : Plansza) :
    Option Bool := do
  let przeciwnik := 1 - gracz
  let x := kolumna
  let x := x - 1
  if ← i_wtedy (decide (x ≥ 0)) (por plansza wiersz x przeciwnik) then
    let x ← dopoki_kontr
      (fun x => i_wtedy (decide (x ≥ 0)) (por plansza wiersz x przeciwnik))
      (fun x => some (x - 1)) limit x
    if ← i_wtedy (decide (x ≥ 0)) (por plansza wiersz x gracz) then
      return true
    return false
  else
    return false

/-- Source `zmien_poziom_w_lewo` with checked array accesses and at most `limit` iterations of its
loop. -/
def zmien_poziom_w_lewo_kontr (limit : Nat) (wiersz kolumna gracz : Int) (plansza : Plansza) :
    Option Plansza := do
  let przeciwnik := 1 - gracz
  let x := kolumna
  let x := x - 1
  let s ← dopoki_kontr
    (fun s : Int × Plansza => i_wtedy (decide (s.1 ≥ 0)) (por s.2 wiersz s.1 przeciwnik))
    (fun s => do
      let plansza ← zapisz s.2 wiersz s.1 gracz
      return (s.1 - 1, plansza))
    limit (x, plansza)
  return s.2

/-- Source `sprawdz_skos_w_prawo_w_gore` with checked array accesses and at most `limit` iterations of
its loop. -/
def sprawdz_skos_w_prawo_w_gore_kontr (limit : Nat) (wiersz kolumna gracz : Int) (plansza : Plansza) :
    Option Bool := do
  let przeciwnik := 1 - gracz
  let x := kolumna
  let y := wiersz
  let x := x + 1
  let y := y - 1
  if ← i_wtedy (decide (x < 8 ∧ y ≥ 0)) (por plansza y x przeciwnik) then
    let s ← dopoki_kontr
      (fun s : Int × Int => i_wtedy (decide (s.1 < 8 ∧ s.2 ≥ 0)) (por plansza s.2 s.1 przeciwnik))
      (fun s => some (s.1 + 1, s.2 - 1)) limit (x, y)
    if ← i_wtedy (decide (s.1 < 8 ∧ s.2 ≥ 0)) (por plansza s.2 s.1 gracz) then
      return true
    return false
  else
    return false

/-- Source `zmien_skos_w_prawo_w_gore` with checked array accesses and at most `limit` iterations of its
loop. -/
def zmien_skos_w_prawo_w_gore_kontr (limit : Nat) (wiersz kolumna gracz : Int) (plansza : Plansza) :
    Option Plansza := do
  let przeciwnik := 1 - gracz
  let x := kolumna
  let y := wiersz
  let y := y - 1
  let x := x + 1
  let s ← dopoki_kontr
    (fun s : Int × Int × Plansza =>
      i_wtedy (decide (s.1 < 8 ∧ s.2.1 ≥ 0)) (por s.2.2 s.2.1 s.1 przeciwnik))
    (fun s => do
      let plansza ← zapisz s.2.2 s.2.1 s.1 gracz
      return (s.1 + 1, s.2.1 - 1, plansza))
    limit (x, y, plansza)
  return s.2.2

/-- Source `sprawdz_skos_w_lewo_w_gore` with checked array accesses and at most `limit` iterations of
its loop. -/
def sprawdz_skos_w_lewo_w_gore_kontr (limit : Nat) (wiersz kolumna gracz : Int) (plansza : Plansza) :
    Option Bool := do
  let przeciwnik := 1 - gracz
  let x := kolumna
  let y := wiersz
  let x := x - 1
  let y := y - 1
  if ← i_wtedy (decide (x ≥ 0 ∧ y ≥ 0)) (por plansza y x przeciwnik) then
    let s ← dopoki_kontr
      (fun s : Int × Int => i_wtedy (decide (s.2 ≥ 0 ∧ s.1 ≥ 0)) (por plansza s.2 s.1 przeciwnik))
      (fun s => some (s.1 - 1, s.2 - 1)) limit (x, y)
    if ← i_wtedy (decide (s.2 ≥ 0 ∧ s.1 ≥ 0)) (por plansza s.2 s.1 gracz) then
      return true
    return false
  else
    return false

/-- Source `zmien_skos_w_lewo_w_gore` with checked array accesses and at most `limit` iterations of its
loop. -/
def zmien_skos_w_lewo_w_gore_kontr (limit : Nat) (wiersz kolumna gracz : Int) (plansza : Plansza) :
    Option Plansza := do
  let przeciwnik := 1 - gracz
  let x := kolumna
  let y := wiersz
  let y := y - 1
  let x := x - 1
  let s ← dopoki_kontr
    (fun s : Int × Int × Plansza =>
      i_wtedy (decide (s.1 ≥ 0 ∧ s.2.1 ≥ 0)) (por s.2.2 s.2.1 s.1 przeciwnik))
    (fun s => do
      let plansza ← zapisz s.2.2 s.2.1 s.1 gracz
      return (s.1 - 1, s.2.1 - 1, plansza))
    limit (x, y, plansza)
  return s.2.2

/-- Source `sprawdz_skos_w_lewo_w_dol` with checked array accesses and at most `limit` iterations of
its loop. -/
def sprawdz_skos_w_lewo_w_dol_kontr (limit : Nat) (wiersz kolumna gracz : Int) (plansza : Plansza) :
    Option Bool := do
  let przeciwnik := 1 - gracz
  let x := kolumna
  let y := wiersz
  let x := x - 1
  let y := y + 1
  if ← i_wtedy (decide (x ≥ 0 ∧ y < 8)) (por plansza y x przeciwnik) then
    let s ← dopoki_kontr
      (fun s : Int × Int => i_wtedy (decide (s.1 ≥ 0 ∧ s.2 < 8)) (por plansza s.2 s.1 przeciwnik))
      (fun s => some (s.1 - 1, s.2 + 1)) limit (x, y)
    if ← i_wtedy (decide (s.1 ≥ 0 ∧ s.2 < 8)) (por plansza s.2 s.1 gracz) then
      return true
    return false
  else
    return false

/-- Source `zmien_skos_w_lewo_w_dol` with checked array accesses and at most `limit` iterations of its
loop. -/
def zmien_skos_w_lewo_w_dol_kontr (limit : Nat) (wiersz kolumna gracz : Int) (plansza : Plansza) :
    Option Plansza := do
  let przeciwnik := 1 - gracz
  let x := kolumna
  let y := wiersz
  let y := y + 1
  let x := x - 1
  let s ← dopoki_kontr
    (fun s : Int × Int × Plansza =>
      i_wtedy (decide (s.1 ≥ 0 ∧ s.2.1 < 8)) (por s.2.2 s.2.1 s.1 przeciwnik))
    (fun s => do
      let plansza ← zapisz s.2.2 s.2.1 s.1 gracz
      return (s.1 - 1, s.2.1 + 1, plansza))
    limit (x, y, plansza)
  return s.2.2

/-- Source `sprawdz_skos_w_prawo_w_dol` with checked array accesses and at most `limit` iterations of
its loop. -/
def sprawdz_skos_w_prawo_w_dol_kontr (limit : Nat) (wiersz kolumna gracz : Int) (plansza : Plansza) :
    Option Bool := do
  let przeciwnik := 1 - gracz
  let x := kolumna
  let y := wiersz
  let x := x + 1
  let y := y + 1
  if ← i_wtedy (decide (x < 8 ∧ y < 8)) (por plansza y x przeciwnik) then
    let s ← dopoki_kontr
      (fun s : Int × Int => i_wtedy (decide (s.1 < 8 ∧ s.2 < 8)) (por plansza s.2 s.1 przeciwnik))
      (fun s => some (s.1 + 1, s.2 + 1)) limit (x, y)
    if ← i_wtedy (decide (s.2 < 8 ∧ s.1 < 8)) (por plansza s.2 s.1 gracz) then
      return true
    return false
  else
    return false

/-- Source `zmien_skos_w_prawo_w_dol` with checked array accesses and at most `limit` iterations of its
loop. -/
def zmien_skos_w_prawo_w_dol_kontr (limit : Nat) (wiersz kolumna gracz : Int) (plansza : Plansza) :
    Option Plansza := do
  let przeciwnik := 1 - gracz
  let x := kolumna
  let y := wiersz
  let y := y + 1
  let x := x + 1
  let s ← dopoki_kontr
    (fun s : Int × Int × Plansza =>
      i_wtedy (decide (s.1 < 8 ∧ s.2.1 < 8)) (por s.2.2 s.2.1 s.1 przeciwnik))
    (fun s => do
      let plansza ← zapisz s.2.2 s.2.1 s.1 gracz
      return (s.1 + 1, s.2.1 + 1, plansza))
    limit (x, y, plansza)
  return s.2.2

/-- The checked source function `sprawdz_X` for direction `X`. -/
def sprawdz_kontr (limit : Nat) (d : Kierunek) (wiersz kolumna gracz : Int)
    (plansza : Plansza) : Option Bool :=
  match d with
  | .pion_w_gore => sprawdz_pion_w_gore_kontr limit wiersz kolumna gracz plansza
  | .pion_w_dol => sprawdz_pion_w_dol_kontr limit wiersz kolumna gracz plansza
  | .poziom_w_prawo => sprawdz_poziom_w_prawo_kontr limit wiersz kolumna gracz plansza
  | .poziom_w_lewo => sprawdz_poziom_w_lewo_kontr limit wiersz kolumna gracz plansza
  | .skos_w_prawo_w_gore => sprawdz_skos_w_prawo_w_gore_kontr limit wiersz kolumna gracz plansza
  | .skos_w_lewo_w_gore => sprawdz_skos_w_lewo_w_gore_kontr limit wiersz kolumna gracz plansza
  | .skos_w_lewo_w_dol => sprawdz_skos_w_lewo_w_dol_kontr limit wiersz kolumna gracz plansza
  | .skos_w_prawo_w_dol => sprawdz_skos_w_prawo_w_dol_kontr limit wiersz kolumna gracz plansza

/-- The checked source function `zmien_X` for direction `X`. -/
def zmien_kontr (limit : Nat) (d : Kierunek) (wiersz kolumna gracz : Int)
    (plansza : Plansza) : Option Plansza :=
  match d with
  | .pion_w_gore => zmien_pion_w_gore_kontr limit wiersz kolumna gracz plansza
  | .pion_w_dol => zmien_pion_w_dol_kontr limit wiersz kolumna gracz plansza
  | .poziom_w_prawo => zmien_poziom_w_prawo_kontr limit wiersz kolumna gracz plansza
  | .poziom_w_lewo => zmien_poziom_w_lewo_kontr limit wiersz kolumna gracz plansza
  | .skos_w_prawo_w_gore => zmien_skos_w_prawo_w_gore_kontr limit wiersz kolumna gracz plansza
  | .skos_w_lewo_w_gore => zmien_skos_w_lewo_w_gore_kontr limit wiersz kolumna gracz plansza
  | .skos_w_lewo_w_dol => zmien_skos_w_lewo_w_dol_kontr limit wiersz kolumna gracz plansza
  | .skos_w_prawo_w_dol => zmien_skos_w_prawo_w_dol_kontr limit wiersz kolumna gracz plansza

/-- The statement `if (warunek) wtedy;` on the board, with checked parts: `wtedy` runs only
when `warunek` holds, otherwise the board stays as it is. -/
def jesli_kontr (warunek : Option Bool) (wtedy : Option Plansza) (plansza : Plansza) :
    Option Plansza :=
  warunek.bind fun b => if b then wtedy else some plansza

/-- Source `wykonaj_ruch` with checked array accesses and at most `limit` iterations of
every scan loop. -/
def wykonaj_ruch_kontr (limit : Nat) (wiersz kolumna gracz : Int) (plansza : Plansza) :
    Option Plansza := do
  let plansza ← zapisz plansza wiersz kolumna gracz
  let plansza ← jesli_kontr (sprawdz_pion_w_gore_kontr limit wiersz kolumna gracz plansza)
    (zmien_pion_w_gore_kontr limit wiersz kolumna gracz plansza) plansza
  let plansza ← jesli_kontr (sprawdz_pion_w_dol_kontr limit wiersz kolumna gracz plansza)
    (zmien_pion_w_dol_kontr limit wiersz kolumna gracz plansza) plansza
  let plansza ← jesli_kontr (sprawdz_poziom_w_prawo_kontr limit wiersz kolumna gracz plansza)
    (zmien_poziom_w_prawo_kontr limit wiersz kolumna gracz plansza) plansza
  let plansza ← jesli_kontr (sprawdz_poziom_w_lewo_kontr limit wiersz kolumna gracz plansza)
    (zmien_poziom_w_lewo_kontr limit wiersz kolumna gracz plansza) plansza
  let plansza ← jesli_kontr (sprawdz_skos_w_lewo_w_gore_kontr limit wiersz kolumna gracz plansza)
    (zmien_skos_w_lewo_w_gore_kontr limit wiersz kolumna gracz plansza) plansza
  let plansza ← jesli_kontr (sprawdz_skos_w_prawo_w_gore_kontr limit wiersz kolumna gracz plansza)
    (zmien_skos_w_prawo_w_gore_kontr limit wiersz kolumna gracz plansza) plansza
  let plansza ← jesli_kontr (sprawdz_skos_w_lewo_w_dol_kontr limit wiersz kolumna gracz plansza)
    (zmien_skos_w_lewo_w_dol_kontr limit wiersz kolumna gracz plansza) plansza
  let plansza ← jesli_kontr (sprawdz_skos_w_prawo_w_dol_kontr limit wiersz kolumna gracz plansza)
    (zmien_skos_w_prawo_w_dol_kontr limit wiersz kolumna gracz plansza) plansza
  return plansza

/-- One step of the checked `wykonaj_ruch`: `if (sprawdz_X(...)) zmien_X(...);` for
direction `d`. -/
def krok_ruchu_kontr (limit : Nat) (wiersz kolumna gracz : Int) (plansza : Plansza)
    (d : Kierunek) : Option Plansza :=
  jesli_kontr (sprawdz_kontr limit d wiersz kolumna gracz plansza)
    (zmien_kontr limit d wiersz kolumna gracz plansza) plansza

/-- Source `pokaz_mozliwe_ruchy` with checked array accesses and at most `limit` iterations
of every scan loop; the result is the sequence of printed cells. -/
def pokaz_mozliwe_ruchy_kontr (limit : Nat) (plansza : Plansza) (gracz : Int) :
    Option (List (Int × Int)) :=
  (List.range 8).foldlM
    (fun wyjscie (j : Nat) =>
      (List.range 8).foldlM
        (fun wyjscie (i : Nat) => do
          if (← czytaj plansza i j) = -1 then
            if ← lub_wtedy (lub_wtedy (lub_wtedy (lub_wtedy (lub_wtedy (lub_wtedy (lub_wtedy
                (sprawdz_pion_w_gore_kontr limit i j gracz plansza)
                (sprawdz_pion_w_dol_kontr limit i j gracz plansza))
                (sprawdz_poziom_w_lewo_kontr limit i j gracz plansza))
                (sprawdz_poziom_w_prawo_kontr limit i j gracz plansza))
                (sprawdz_skos_w_lewo_w_dol_kontr limit i j gracz plansza))
                (sprawdz_skos_w_lewo_w_gore_kontr limit i j gracz plansza))
                (sprawdz_skos_w_prawo_w_dol_kontr limit i j gracz plansza))
                (sprawdz_skos_w_prawo_w_gore_kontr limit i j gracz plansza) then
              return wyjscie ++ [((i : Int), (j : Int))]
            else return wyjscie
          else return wyjscie)
        wyjscie)
    []

/-! ## Counting pieces and the turn indicator -/

/-- Number of board cells `(i, j)` for which `P i j` holds. -/
def licz (P : Int → Int → Bool) : Nat :=
  ((List.range 8).map fun i : Nat =>
    ((List.range 8).filter fun j : Nat => P i j).length).sum

/-- Number of cells other than `(wiersz, kolumna)` whose value differs between the boards
`przed` and `po`. -/
def zmienione (przed po : Plansza) (wiersz kolumna : Int) : Nat :=
  licz fun i j => decide (¬(i = wiersz ∧ j = kolumna) ∧ po i j ≠ przed i j)

/-- The turn indicator that `main` prints for `tura`: `gracze[tura]`. -/
def znak_gracza (tura : Int) : Char := gracze.getD tura.toNat ' '

/-- A board with a White piece on `[3][3]`, the value `7` in `[4][3]` and every other cell
Empty: well-formed for `int plansza[8][8]`, but with a cell outside `{-1, 0, 1}`. -/
def plansza_z_siodemka : Plansza := fun y x =>
  if y = 3 ∧ x = 3 then 1
  else if y = 4 ∧ x = 3 then 7
  else -1

/-! ## Loop lemmas -/

theorem dopoki_indeks {σ : Type} (w : σ → Bool) (c : σ → σ) (st : Nat → σ) (w2 : Nat → Bool)
    (hw : ∀ t, 1 ≤ t → w (st t) = w2 t) (hc : ∀ t, 1 ≤ t → c (st t) = st (t + 1)) :
    ∀ n t, 1 ≤ t → dopoki w c n (st t) = st (dopoki w2 (fun t => t + 1) n t) := by
  intro n
  induction n with
  | zero => intro t _; rfl
  | succ n ih =>
    intro t ht
    simp only [dopoki, hw t ht]
    split
    · rw [hc t ht]; exact ih (t + 1) (by omega)
    · rfl

/-- Once the loop has stopped on its condition, a larger iteration bound gives the same
result. -/
theorem dopoki_stabilny {σ : Type} (w : σ → Bool) (c : σ → σ) :
    ∀ (n : Nat) (s : σ), w (dopoki w c n s) = false →
      ∀ m : Nat, dopoki w c (n + m) s = dopoki w c n s := by
  intro n
  induction n with
  | zero =>
    intro s h m
    simp only [dopoki] at h
    cases m with
    | zero => rfl
    | succ m =>
      have hw : ¬ w s = true := by simp [h]
      simp only [Nat.zero_add, dopoki]
      rw [if_neg hw]
  | succ n ih =>
    intro s h m
    have e : n + 1 + m = (n + m) + 1 := by omega
    rw [e]
    simp only [dopoki] at h ⊢
    by_cases hw : w s = true
    · simp only [hw, if_true] at h ⊢
      exact ih (c s) h m
    · rw [if_neg hw, if_neg hw]

theorem dopoki_licznik (w2 : Nat → Bool) :
    ∀ n t, t ≤ dopoki w2 (fun t => t + 1) n t ∧ dopoki w2 (fun t => t + 1) n t ≤ t + n ∧
      (∀ j, t ≤ j → j < dopoki w2 (fun t => t + 1) n t → w2 j = true) ∧
      (dopoki w2 (fun t => t + 1) n t < t + n →
        w2 (dopoki w2 (fun t => t + 1) n t) = false) := by
  intro n
  induction n with
  | zero =>
    intro t
    refine ⟨le_refl _, le_refl _, ?_, ?_⟩
    · intro j h1 h2; simp only [dopoki] at h2; omega
    · intro h; simp only [dopoki] at h; omega
  | succ n ih =>
    intro t
    simp only [dopoki]
    by_cases hwt : w2 t = true
    · simp only [hwt, if_true]
      obtain ⟨h1, h2, h3, h4⟩ := ih (t + 1)
      refine ⟨by omega, by omega, ?_, ?_⟩
      · intro j hj1 hj2
        by_cases hjt : j = t
        · rw [hjt]; exact hwt
        · exact h3 j (by omega) hj2
      · intro h; exact h4 (by omega)
    · rw [if_neg hwt]
      refine ⟨le_refl _, by omega, ?_, ?_⟩
      · intro j h1 h2; omega
      · intro _; simpa using hwt

theorem jesli_jesli (A B A' B' : Prop) [Decidable A] [Decidable B] [Decidable A']
    [Decidable B'] (hA : A ↔ A') (hB : B ↔ B') :
    (if A then (if B then true else false) else false) = (decide A' && decide B') := by
  by_cases h1 : A' <;> by_cases h2 : B' <;> simp [hA, hB, h1, h2]

theorem skan_dodatni (p : Plansza) (d : Kierunek) (w k g : Int) (n : Nat) :
    1 ≤ skan p d w k g n :=
  (dopoki_licznik _ n 1).1

theorem promien_rozny (d : Kierunek) (w k : Int) (s t : Nat)
    (h : py d w s = py d w t ∧ px d k s = px d k t) : s = t := by
  cases d <;> simp only [py, px, Kierunek.dy, Kierunek.dx] at h <;> omega

theorem pomaluj_poza (p : Plansza) (d : Kierunek) (w k g : Int) (n : Nat) (i j : Int)
    (h : ∀ s, 1 ≤ s → s ≤ n → ¬(i = py d w s ∧ j = px d k s)) :
    pomaluj p d w k g n i j = p i j := by
  induction n with
  | zero => rfl
  | succ n ih =>
    simp only [pomaluj, ustaw]
    rw [if_neg (h (n + 1) (by omega) (le_refl _))]
    exact ih (fun s h1 h2 => h s h1 (by omega))

theorem pomaluj_na (p : Plansza) (d : Kierunek) (w k g : Int) (n : Nat) (s : Nat)
    (h1 : 1 ≤ s) (h2 : s ≤ n) : pomaluj p d w k g n (py d w s) (px d k s) = g := by
  induction n with
  | zero => omega
  | succ n ih =>
    simp only [pomaluj, ustaw]
    by_cases hs : s = n + 1
    · rw [hs]; simp
    · split
      · rfl
      · exact ih (by omega)

theorem pomaluj_nastepne (p : Plansza) (d : Kierunek) (w k g : Int) (t : Nat) (ht : 1 ≤ t) :
    pomaluj p d w k g (t - 1) (py d w t) (px d k t) = p (py d w t) (px d k t) := by
  apply pomaluj_poza
  intro s h1 h2 h
  have := promien_rozny d w k t s h
  omega

/-! ## The source functions in terms of the ray index -/

theorem promien_pion_w_gore (w k : Int) (t : Nat) :
    py .pion_w_gore w t = (w - ↑t) ∧ px .pion_w_gore k t = k := by
  simp only [py, px, Kierunek.dy, Kierunek.dx]
  constructor <;> ring

theorem klucz_pion_w_gore (p : Plansza) (w k : Int) (hw : 0 ≤ w ∧ w < 8) (hk : 0 ≤ k ∧ k < 8)
    (t : Nat) (v : Int) (ht : 1 ≤ t) :
    (maNaPromieniu p .pion_w_gore w k t v ↔ ((w - ↑t) ≥ 0 ∧ p (w - ↑t) k = v)) := by
  simp only [maNaPromieniu, naPlanszy, (promien_pion_w_gore w k t).1, (promien_pion_w_gore w k t).2]
  omega

theorem sprawdz_pion_w_gore_kan (w k g : Int) (p : Plansza) (hw : 0 ≤ w ∧ w < 8)
    (hk : 0 ≤ k ∧ k < 8) :
    sprawdz_pion_w_gore w k g p = wynik_sprawdz p .pion_w_gore w k g := by
  have hloop := dopoki_indeks (fun y => decide (y ≥ 0 ∧ p y k = 1 - g))
    (fun y => y - 1)
    (fun t : Nat => (w - (t : Int)))
    (fun t => decide (maNaPromieniu p .pion_w_gore w k t (1 - g)))
    (fun t ht => by
      have h := klucz_pion_w_gore p w k hw hk t (1 - g) ht
      simp only [decide_eq_decide]
      tauto)
    (fun t _ => by simp only [Nat.cast_add, Nat.cast_one]; ring_nf)
    (paliwo .pion_w_gore w k) 1 (le_refl 1)
  have h1 := skan_dodatni p .pion_w_gore w k g (paliwo .pion_w_gore w k)
  simp only [Nat.cast_one] at hloop
  simp only [skan] at h1
  simp only [sprawdz_pion_w_gore, wynik_sprawdz, skan, hloop, paliwo] at hloop h1 ⊢
  refine jesli_jesli _ _ _ _ ?_ ?_
  · have h := klucz_pion_w_gore p w k hw hk 1 (1 - g) (le_refl 1)
    simp only [Nat.cast_one] at h
    tauto
  · have h := klucz_pion_w_gore p w k hw hk _ g h1
    tauto

theorem zmien_pion_w_gore_kan (w k g : Int) (p : Plansza) (hw : 0 ≤ w ∧ w < 8)
    (hk : 0 ≤ k ∧ k < 8) :
    zmien_pion_w_gore w k g p = wynik_zmien p .pion_w_gore w k g := by
  have hloop := dopoki_indeks (fun s : Int × Plansza => decide (s.1 ≥ 0 ∧ s.2 s.1 k = 1 - g))
    (fun s : Int × Plansza => (s.1 - 1, ustaw s.2 s.1 k g))
    (fun t : Nat => (((w - (t : Int)) : Int), pomaluj p .pion_w_gore w k g (t - 1)))
    (fun t => decide (maNaPromieniu p .pion_w_gore w k t (1 - g)))
    (fun t ht => by
      have hp := pomaluj_nastepne p .pion_w_gore w k g t ht
      simp only [(promien_pion_w_gore w k t).1, (promien_pion_w_gore w k t).2] at hp
      have h := klucz_pion_w_gore p w k hw hk t (1 - g) ht
      simp only [decide_eq_decide, hp]
      tauto)
    (fun t ht => by
      obtain ⟨n, rfl⟩ : ∃ n, t = n + 1 := ⟨t - 1, by omega⟩
      simp only [Nat.add_sub_cancel, pomaluj, (promien_pion_w_gore w k (n + 1)).1,
        (promien_pion_w_gore w k (n + 1)).2, Nat.cast_add, Nat.cast_one]
      ring_nf)
    (paliwo .pion_w_gore w k) 1 (le_refl 1)
  simp only [Nat.cast_one, Nat.sub_self, pomaluj] at hloop
  simp only [zmien_pion_w_gore, wynik_zmien, skan, paliwo] at hloop ⊢
  rw [hloop]

theorem promien_pion_w_dol (w k : Int) (t : Nat) :
    py .pion_w_dol w t = (w + ↑t) ∧ px .pion_w_dol k t = k := by
  simp only [py, px, Kierunek.dy, Kierunek.dx]
  constructor <;> ring

theorem klucz_pion_w_dol (p : Plansza) (w k : Int) (hw : 0 ≤ w ∧ w < 8) (hk : 0 ≤ k ∧ k < 8)
    (t : Nat) (v : Int) (ht : 1 ≤ t) :
    (maNaPromieniu p .pion_w_dol w k t v ↔ ((w + ↑t) < 8 ∧ p (w + ↑t) k = v)) := by
  simp only [maNaPromieniu, naPlanszy, (promien_pion_w_dol w k t).1, (promien_pion_w_dol w k t).2]
  omega

theorem sprawdz_pion_w_dol_kan (w k g : Int) (p : Plansza) (hw : 0 ≤ w ∧ w < 8)
    (hk : 0 ≤ k ∧ k < 8) :
    sprawdz_pion_w_dol w k g p = wynik_sprawdz p .pion_w_dol w k g := by
  have hloop := dopoki_indeks (fun y => decide (y < 8 ∧ p y k = 1 - g))
    (fun y => y + 1)
    (fun t : Nat => (w + (t : Int)))
    (fun t => decide (maNaPromieniu p .pion_w_dol w k t (1 - g)))
    (fun t ht => by
      have h := klucz_pion_w_dol p w k hw hk t (1 - g) ht
      simp only [decide_eq_decide]
      tauto)
    (fun t _ => by simp only [Nat.cast_add, Nat.cast_one]; ring_nf)
    (paliwo .pion_w_dol w k) 1 (le_refl 1)
  have h1 := skan_dodatni p .pion_w_dol w k g (paliwo .pion_w_dol w k)
  simp only [Nat.cast_one] at hloop
  simp only [skan] at h1
  simp only [sprawdz_pion_w_dol, wynik_sprawdz, skan, hloop, paliwo] at hloop h1 ⊢
  refine jesli_jesli _ _ _ _ ?_ ?_
  · have h := klucz_pion_w_dol p w k hw hk 1 (1 - g) (le_refl 1)
    simp only [Nat.cast_one] at h
    tauto
  · have h := klucz_pion_w_dol p w k hw hk _ g h1
    tauto

theorem zmien_pion_w_dol_kan (w k g : Int) (p : Plansza) (hw : 0 ≤ w ∧ w < 8)
    (hk : 0 ≤ k ∧ k < 8) :
    zmien_pion_w_dol w k g p = wynik_zmien p .pion_w_dol w k g := by
  have hloop := dopoki_indeks (fun s : Int × Plansza => decide (s.1 < 8 ∧ s.2 s.1 k = 1 - g))
    (fun s : Int × Plansza => (s.1 + 1, ustaw s.2 s.1 k g))
    (fun t : Nat => (((w + (t : Int)) : Int), pomaluj p .pion_w_dol w k g (t - 1)))
    (fun t => decide (maNaPromieniu p .pion_w_dol w k t (1 - g)))
    (fun t ht => by
      have hp := pomaluj_nastepne p .pion_w_dol w k g t ht
      simp only [(promien_pion_w_dol w k t).1, (promien_pion_w_dol w k t).2] at hp
      have h := klucz_pion_w_dol p w k hw hk t (1 - g) ht
      simp only [decide_eq_decide, hp]
      tauto)
    (fun t ht => by
      obtain ⟨n, rfl⟩ : ∃ n, t = n + 1 := ⟨t - 1, by omega⟩
      simp only [Nat.add_sub_cancel, pomaluj, (promien_pion_w_dol w k (n + 1)).1,
        (promien_pion_w_dol w k (n + 1)).2, Nat.cast_add, Nat.cast_one]
      ring_nf)
    (paliwo .pion_w_dol w k) 1 (le_refl 1)
  simp only [Nat.cast_one, Nat.sub_self, pomaluj] at hloop
  simp only [zmien_pion_w_dol, wynik_zmien, skan, paliwo] at hloop ⊢
  rw [hloop]

theorem promien_poziom_w_prawo (w k : Int) (t : Nat) :
    py .poziom_w_prawo w t = w ∧ px .poziom_w_prawo k t = (k + ↑t) := by
  simp only [py, px, Kierunek.dy, Kierunek.dx]
  constructor <;> ring

theorem klucz_poziom_w_prawo (p : Plansza) (w k : Int) (hw : 0 ≤ w ∧ w < 8) (hk : 0 ≤ k ∧ k < 8)
    (t : Nat) (v : Int) (ht : 1 ≤ t) :
    (maNaPromieniu p .poziom_w_prawo w k t v ↔ ((k + ↑t) < 8 ∧ p w (k + ↑t) = v)) := by
  simp only [maNaPromieniu, naPlanszy, (promien_poziom_w_prawo w k t).1, (promien_poziom_w_prawo w k t).2]
  omega

theorem sprawdz_poziom_w_prawo_kan (w k g : Int) (p : Plansza) (hw : 0 ≤ w ∧ w < 8)
    (hk : 0 ≤ k ∧ k < 8) :
    sprawdz_poziom_w_prawo w k g p = wynik_sprawdz p .poziom_w_prawo w k g := by
  have hloop := dopoki_indeks (fun x => decide (x < 8 ∧ p w x = 1 - g))
    (fun x => x + 1)
    (fun t : Nat => (k + (t : Int)))
    (fun t => decide (maNaPromieniu p .poziom_w_prawo w k t (1 - g)))
    (fun t ht => by
      have h := klucz_poziom_w_prawo p w k hw hk t (1 - g) ht
      simp only [decide_eq_decide]
      tauto)
    (fun t _ => by simp only [Nat.cast_add, Nat.cast_one]; ring_nf)
    (paliwo .poziom_w_prawo w k) 1 (le_refl 1)
  have h1 := skan_dodatni p .poziom_w_prawo w k g (paliwo .poziom_w_prawo w k)
  simp only [Nat.cast_one] at hloop
  simp only [skan] at h1
  simp only [sprawdz_poziom_w_prawo, wynik_sprawdz, skan, hloop, paliwo] at hloop h1 ⊢
  refine jesli_jesli _ _ _ _ ?_ ?_
  · have h := klucz_poziom_w_prawo p w k hw hk 1 (1 - g) (le_refl 1)
    simp only [Nat.cast_one] at h
    tauto
  · have h := klucz_poziom_w_prawo p w k hw hk _ g h1
    tauto

theorem zmien_poziom_w_prawo_kan (w k g : Int) (p : Plansza) (hw : 0 ≤ w ∧ w < 8)
    (hk : 0 ≤ k ∧ k < 8) :
    zmien_poziom_w_prawo w k g p = wynik_zmien p .poziom_w_prawo w k g := by
  have hloop := dopoki_indeks (fun s : Int × Plansza => decide (s.1 < 8 ∧ s.2 w s.1 = 1 - g))
    (fun s : Int × Plansza => (s.1 + 1, ustaw s.2 w s.1 g))
    (fun t : Nat => (((k + (t : Int)) : Int), pomaluj p .poziom_w_prawo w k g (t - 1)))
    (fun t => decide (maNaPromieniu p .poziom_w_prawo w k t (1 - g)))
    (fun t ht => by
      have hp := pomaluj_nastepne p .poziom_w_prawo w k g t ht
      simp only [(promien_poziom_w_prawo w k t).1, (promien_poziom_w_prawo w k t).2] at hp
      have h := klucz_poziom_w_prawo p w k hw hk t (1 - g) ht
      simp only [decide_eq_decide, hp]
      tauto)
    (fun t ht => by
      obtain ⟨n, rfl⟩ : ∃ n, t = n + 1 := ⟨t - 1, by omega⟩
      simp only [Nat.add_sub_cancel, pomaluj, (promien_poziom_w_prawo w k (n + 1)).1,
        (promien_poziom_w_prawo w k (n + 1)).2, Nat.cast_add, Nat.cast_one]
      ring_nf)
    (paliwo .poziom_w_prawo w k) 1 (le_refl 1)
  simp only [Nat.cast_one, Nat.sub_self, pomaluj] at hloop
  simp only [zmien_poziom_w_prawo, wynik_zmien, skan, paliwo] at hloop ⊢
  rw [hloop]

theorem promien_poziom_w_lewo (w k : Int) (t : Nat) :
    py .poziom_w_lewo w t = w ∧ px .poziom_w_lewo k t = (k - ↑t) := by
  simp only [py, px, Kierunek.dy, Kierunek.dx]
  constructor <;> ring

theorem klucz_poziom_w_lewo (p : Plansza) (w k : Int) (hw : 0 ≤ w ∧ w < 8) (hk : 0 ≤ k ∧ k < 8)
    (t : Nat) (v : Int) (ht : 1 ≤ t) :
    (maNaPromieniu p .poziom_w_lewo w k t v ↔ ((k - ↑t) ≥ 0 ∧ p w (k - ↑t) = v)) := by
  simp only [maNaPromieniu, naPlanszy, (promien_poziom_w_lewo w k t).1, (promien_poziom_w_lewo w k t).2]
  omega

theorem sprawdz_poziom_w_lewo_kan (w k g : Int) (p : Plansza) (hw : 0 ≤ w ∧ w < 8)
    (hk : 0 ≤ k ∧ k < 8) :
    sprawdz_poziom_w_lewo w k g p = wynik_sprawdz p .poziom_w_lewo w k g := by
  have hloop := dopoki_indeks (fun x => decide (x ≥ 0 ∧ p w x = 1 - g))
    (fun x => x - 1)
    (fun t : Nat => (k - (t : Int)))
    (fun t => decide (maNaPromieniu p .poziom_w_lewo w k t (1 - g)))
    (fun t ht => by
      have h := klucz_poziom_w_lewo p w k hw hk t (1 - g) ht
      simp only [decide_eq_decide]
      tauto)
    (fun t _ => by simp only [Nat.cast_add, Nat.cast_one]; ring_nf)
    (paliwo .poziom_w_lewo w k) 1 (le_refl 1)
  have h1 := skan_dodatni p .poziom_w_lewo w k g (paliwo .poziom_w_lewo w k)
  simp only [Nat.cast_one] at hloop
  simp only [skan] at h1
  simp only [sprawdz_poziom_w_lewo, wynik_sprawdz, skan, hloop, paliwo] at hloop h1 ⊢
  refine jesli_jesli _ _ _ _ ?_ ?_
  · have h := klucz_poziom_w_lewo p w k hw hk 1 (1 - g) (le_refl 1)
    simp only [Nat.cast_one] at h
    tauto
  · have h := klucz_poziom_w_lewo p w k hw hk _ g h1
    tauto

theorem zmien_poziom_w_lewo_kan (w k g : Int) (p : Plansza) (hw : 0 ≤ w ∧ w < 8)
    (hk : 0 ≤ k ∧ k < 8) :
    zmien_poziom_w_lewo w k g p = wynik_zmien p .poziom_w_lewo w k g := by
  have hloop := dopoki_indeks (fun s : Int × Plansza => decide (s.1 ≥ 0 ∧ s.2 w s.1 = 1 - g))
    (fun s : Int × Plansza => (s.1 - 1, ustaw s.2 w s.1 g))
    (fun t : Nat => (((k - (t : Int)) : Int), pomaluj p .poziom_w_lewo w k g (t - 1)))
    (fun t => decide (maNaPromieniu p .poziom_w_lewo w k t (1 - g)))
    (fun t ht => by
      have hp := pomaluj_nastepne p .poziom_w_lewo w k g t ht
      simp only [(promien_poziom_w_lewo w k t).1, (promien_poziom_w_lewo w k t).2] at hp
      have h := klucz_poziom_w_lewo p w k hw hk t (1 - g) ht
      simp only [decide_eq_decide, hp]
      tauto)
    (fun t ht => by
      obtain ⟨n, rfl⟩ : ∃ n, t = n + 1 := ⟨t - 1, by omega⟩
      simp only [Nat.add_sub_cancel, pomaluj, (promien_poziom_w_lewo w k (n + 1)).1,
        (promien_poziom_w_lewo w k (n + 1)).2, Nat.cast_add, Nat.cast_one]
      ring_nf)
    (paliwo .poziom_w_lewo w k) 1 (le_refl 1)
  simp only [Nat.cast_one, Nat.sub_self, pomaluj] at hloop
  simp only [zmien_poziom_w_lewo, wynik_zmien, skan, paliwo] at hloop ⊢
  rw [hloop]

theorem promien_skos_w_prawo_w_gore (w k : Int) (t : Nat) :
    py .skos_w_prawo_w_gore w t = (w - ↑t) ∧ px .skos_w_prawo_w_gore k t = (k + ↑t) := by
  simp only [py, px, Kierunek.dy, Kierunek.dx]
  constructor <;> ring

theorem klucz_skos_w_prawo_w_gore (p : Plansza) (w k : Int) (hw : 0 ≤ w ∧ w < 8) (hk : 0 ≤ k ∧ k < 8)
    (t : Nat) (v : Int) (ht : 1 ≤ t) :
    (maNaPromieniu p .skos_w_prawo_w_gore w k t v ↔ ((k + ↑t) < 8 ∧ (w - ↑t) ≥ 0 ∧ p (w - ↑t) (k + ↑t) = v)) := by
  simp only [maNaPromieniu, naPlanszy, (promien_skos_w_prawo_w_gore w k t).1, (promien_skos_w_prawo_w_gore w k t).2]
  omega

theorem sprawdz_skos_w_prawo_w_gore_kan (w k g : Int) (p : Plansza) (hw : 0 ≤ w ∧ w < 8)
    (hk : 0 ≤ k ∧ k < 8) :
    sprawdz_skos_w_prawo_w_gore w k g p = wynik_sprawdz p .skos_w_prawo_w_gore w k g := by
  have hloop := dopoki_indeks (fun s : Int × Int => decide (s.1 < 8 ∧ s.2 ≥ 0 ∧ p s.2 s.1 = 1 - g))
    (fun s : Int × Int => (s.1 + 1, s.2 - 1))
    (fun t : Nat => (((k + (t : Int)) : Int), ((w - (t : Int)) : Int)))
    (fun t => decide (maNaPromieniu p .skos_w_prawo_w_gore w k t (1 - g)))
    (fun t ht => by
      have h := klucz_skos_w_prawo_w_gore p w k hw hk t (1 - g) ht
      simp only [decide_eq_decide]
      tauto)
    (fun t _ => by simp only [Nat.cast_add, Nat.cast_one]; ring_nf)
    (paliwo .skos_w_prawo_w_gore w k) 1 (le_refl 1)
  have h1 := skan_dodatni p .skos_w_prawo_w_gore w k g (paliwo .skos_w_prawo_w_gore w k)
  simp only [Nat.cast_one] at hloop
  simp only [skan] at h1
  simp only [sprawdz_skos_w_prawo_w_gore, wynik_sprawdz, skan, hloop, paliwo] at hloop h1 ⊢
  refine jesli_jesli _ _ _ _ ?_ ?_
  · have h := klucz_skos_w_prawo_w_gore p w k hw hk 1 (1 - g) (le_refl 1)
    simp only [Nat.cast_one] at h
    tauto
  · have h := klucz_skos_w_prawo_w_gore p w k hw hk _ g h1
    tauto

theorem zmien_skos_w_prawo_w_gore_kan (w k g : Int) (p : Plansza) (hw : 0 ≤ w ∧ w < 8)
    (hk : 0 ≤ k ∧ k < 8) :
    zmien_skos_w_prawo_w_gore w k g p = wynik_zmien p .skos_w_prawo_w_gore w k g := by
  have hloop := dopoki_indeks (fun s : Int × Int × Plansza => decide (s.1 < 8 ∧ s.2.1 ≥ 0 ∧ s.2.2 s.2.1 s.1 = 1 - g))
    (fun s : Int × Int × Plansza => (s.1 + 1, s.2.1 - 1, ustaw s.2.2 s.2.1 s.1 g))
    (fun t : Nat => (((k + (t : Int)) : Int), ((w - (t : Int)) : Int), pomaluj p .skos_w_prawo_w_gore w k g (t - 1)))
    (fun t => decide (maNaPromieniu p .skos_w_prawo_w_gore w k t (1 - g)))
    (fun t ht => by
      have hp := pomaluj_nastepne p .skos_w_prawo_w_gore w k g t ht
      simp only [(promien_skos_w_prawo_w_gore w k t).1, (promien_skos_w_prawo_w_gore w k t).2] at hp
      have h := klucz_skos_w_prawo_w_gore p w k hw hk t (1 - g) ht
      simp only [decide_eq_decide, hp]
      tauto)
    (fun t ht => by
      obtain ⟨n, rfl⟩ : ∃ n, t = n + 1 := ⟨t - 1, by omega⟩
      simp only [Nat.add_sub_cancel, pomaluj, (promien_skos_w_prawo_w_gore w k (n + 1)).1,
        (promien_skos_w_prawo_w_gore w k (n + 1)).2, Nat.cast_add, Nat.cast_one]
      ring_nf)
    (paliwo .skos_w_prawo_w_gore w k) 1 (le_refl 1)
  simp only [Nat.cast_one, Nat.sub_self, pomaluj] at hloop
  simp only [zmien_skos_w_prawo_w_gore, wynik_zmien, skan, paliwo] at hloop ⊢
  rw [hloop]

theorem promien_skos_w_lewo_w_gore (w k : Int) (t : Nat) :
    py .skos_w_lewo_w_gore w t = (w - ↑t) ∧ px .skos_w_lewo_w_gore k t = (k - ↑t) := by
  simp only [py, px, Kierunek.dy, Kierunek.dx]
  constructor <;> ring

theorem klucz_skos_w_lewo_w_gore (p : Plansza) (w k : Int) (hw : 0 ≤ w ∧ w < 8) (hk : 0 ≤ k ∧ k < 8)
    (t : Nat) (v : Int) (ht : 1 ≤ t) :
    (maNaPromieniu p .skos_w_lewo_w_gore w k t v ↔ ((k - ↑t) ≥ 0 ∧ (w - ↑t) ≥ 0 ∧ p (w - ↑t) (k - ↑t) = v)) := by
  simp only [maNaPromieniu, naPlanszy, (promien_skos_w_lewo_w_gore w k t).1, (promien_skos_w_lewo_w_gore w k t).2]
  omega

theorem sprawdz_skos_w_lewo_w_gore_kan (w k g : Int) (p : Plansza) (hw : 0 ≤ w ∧ w < 8)
    (hk : 0 ≤ k ∧ k < 8) :
    sprawdz_skos_w_lewo_w_gore w k g p = wynik_sprawdz p .skos_w_lewo_w_gore w k g := by
  have hloop := dopoki_indeks (fun s : Int × Int => decide (s.2 ≥ 0 ∧ s.1 ≥ 0 ∧ p s.2 s.1 = 1 - g))
    (fun s : Int × Int => (s.1 - 1, s.2 - 1))
    (fun t : Nat => (((k - (t : Int)) : Int), ((w - (t : Int)) : Int)))
    (fun t => decide (maNaPromieniu p .skos_w_lewo_w_gore w k t (1 - g)))
    (fun t ht => by
      have h := klucz_skos_w_lewo_w_gore p w k hw hk t (1 - g) ht
      simp only [decide_eq_decide]
      tauto)
    (fun t _ => by simp only [Nat.cast_add, Nat.cast_one]; ring_nf)
    (paliwo .skos_w_lewo_w_gore w k) 1 (le_refl 1)
  have h1 := skan_dodatni p .skos_w_lewo_w_gore w k g (paliwo .skos_w_lewo_w_gore w k)
  simp only [Nat.cast_one] at hloop
  simp only [skan] at h1
  simp only [sprawdz_skos_w_lewo_w_gore, wynik_sprawdz, skan, hloop, paliwo] at hloop h1 ⊢
  refine jesli_jesli _ _ _ _ ?_ ?_
  · have h := klucz_skos_w_lewo_w_gore p w k hw hk 1 (1 - g) (le_refl 1)
    simp only [Nat.cast_one] at h
    tauto
  · have h := klucz_skos_w_lewo_w_gore p w k hw hk _ g h1
    tauto

theorem zmien_skos_w_lewo_w_gore_kan (w k g : Int) (p : Plansza) (hw : 0 ≤ w ∧ w < 8)
    (hk : 0 ≤ k ∧ k < 8) :
    zmien_skos_w_lewo_w_gore w k g p = wynik_zmien p .skos_w_lewo_w_gore w k g := by
  have hloop := dopoki_indeks (fun s : Int × Int × Plansza => decide (s.1 ≥ 0 ∧ s.2.1 ≥ 0 ∧ s.2.2 s.2.1 s.1 = 1 - g))
    (fun s : Int × Int × Plansza => (s.1 - 1, s.2.1 - 1, ustaw s.2.2 s.2.1 s.1 g))
    (fun t : Nat => (((k - (t : Int)) : Int), ((w - (t : Int)) : Int), pomaluj p .skos_w_lewo_w_gore w k g (t - 1)))
    (fun t => decide (maNaPromieniu p .skos_w_lewo_w_gore w k t (1 - g)))
    (fun t ht => by
      have hp := pomaluj_nastepne p .skos_w_lewo_w_gore w k g t ht
      simp only [(promien_skos_w_lewo_w_gore w k t).1, (promien_skos_w_lewo_w_gore w k t).2] at hp
      have h := klucz_skos_w_lewo_w_gore p w k hw hk t (1 - g) ht
      simp only [decide_eq_decide, hp]
      tauto)
    (fun t ht => by
      obtain ⟨n, rfl⟩ : ∃ n, t = n + 1 := ⟨t - 1, by omega⟩
      simp only [Nat.add_sub_cancel, pomaluj, (promien_skos_w_lewo_w_gore w k (n + 1)).1,
        (promien_skos_w_lewo_w_gore w k (n + 1)).2, Nat.cast_add, Nat.cast_one]
      ring_nf)
    (paliwo .skos_w_lewo_w_gore w k) 1 (le_refl 1)
  simp only [Nat.cast_one, Nat.sub_self, pomaluj] at hloop
  simp only [zmien_skos_w_lewo_w_gore, wynik_zmien, skan, paliwo] at hloop ⊢
  rw [hloop]

theorem promien_skos_w_lewo_w_dol (w k : Int) (t : Nat) :
    py .skos_w_lewo_w_dol w t = (w + ↑t) ∧ px .skos_w_lewo_w_dol k t = (k - ↑t) := by
  simp only [py, px, Kierunek.dy, Kierunek.dx]
  constructor <;> ring

theorem klucz_skos_w_lewo_w_dol (p : Plansza) (w k : Int) (hw : 0 ≤ w ∧ w < 8) (hk : 0 ≤ k ∧ k < 8)
    (t : Nat) (v : Int) (ht : 1 ≤ t) :
    (maNaPromieniu p .skos_w_lewo_w_dol w k t v ↔ ((k - ↑t) ≥ 0 ∧ (w + ↑t) < 8 ∧ p (w + ↑t) (k - ↑t) = v)) := by
  simp only [maNaPromieniu, naPlanszy, (promien_skos_w_lewo_w_dol w k t).1, (promien_skos_w_lewo_w_dol w k t).2]
  omega

theorem sprawdz_skos_w_lewo_w_dol_kan (w k g : Int) (p : Plansza) (hw : 0 ≤ w ∧ w < 8)
    (hk : 0 ≤ k ∧ k < 8) :
    sprawdz_skos_w_lewo_w_dol w k g p = wynik_sprawdz p .skos_w_lewo_w_dol w k g := by
  have hloop := dopoki_indeks (fun s : Int × Int => decide (s.1 ≥ 0 ∧ s.2 < 8 ∧ p s.2 s.1 = 1 - g))
    (fun s : Int × Int => (s.1 - 1, s.2 + 1))
    (fun t : Nat => (((k - (t : Int)) : Int), ((w + (t : Int)) : Int)))
    (fun t => decide (maNaPromieniu p .skos_w_lewo_w_dol w k t (1 - g)))
    (fun t ht => by
      have h := klucz_skos_w_lewo_w_dol p w k hw hk t (1 - g) ht
      simp only [decide_eq_decide]
      tauto)
    (fun t _ => by simp only [Nat.cast_add, Nat.cast_one]; ring_nf)
    (paliwo .skos_w_lewo_w_dol w k) 1 (le_refl 1)
  have h1 := skan_dodatni p .skos_w_lewo_w_dol w k g (paliwo .skos_w_lewo_w_dol w k)
  simp only [Nat.cast_one] at hloop
  simp only [skan] at h1
  simp only [sprawdz_skos_w_lewo_w_dol, wynik_sprawdz, skan, hloop, paliwo] at hloop h1 ⊢
  refine jesli_jesli _ _ _ _ ?_ ?_
  · have h := klucz_skos_w_lewo_w_dol p w k hw hk 1 (1 - g) (le_refl 1)
    simp only [Nat.cast_one] at h
    tauto
  · have h := klucz_skos_w_lewo_w_dol p w k hw hk _ g h1
    tauto

theorem zmien_skos_w_lewo_w_dol_kan (w k g : Int) (p : Plansza) (hw : 0 ≤ w ∧ w < 8)
    (hk : 0 ≤ k ∧ k < 8) :
    zmien_skos_w_lewo_w_dol w k g p = wynik_zmien p .skos_w_lewo_w_dol w k g := by
  have hloop := dopoki_indeks (fun s : Int × Int × Plansza => decide (s.1 ≥ 0 ∧ s.2.1 < 8 ∧ s.2.2 s.2.1 s.1 = 1 - g))
    (fun s : Int × Int × Plansza => (s.1 - 1, s.2.1 + 1, ustaw s.2.2 s.2.1 s.1 g))
    (fun t : Nat => (((k - (t : Int)) : Int), ((w + (t : Int)) : Int), pomaluj p .skos_w_lewo_w_dol w k g (t - 1)))
    (fun t => decide (maNaPromieniu p .skos_w_lewo_w_dol w k t (1 - g)))
    (fun t ht => by
      have hp := pomaluj_nastepne p .skos_w_lewo_w_dol w k g t ht
      simp only [(promien_skos_w_lewo_w_dol w k t).1, (promien_skos_w_lewo_w_dol w k t).2] at hp
      have h := klucz_skos_w_lewo_w_dol p w k hw hk t (1 - g) ht
      simp only [decide_eq_decide, hp]
      tauto)
    (fun t ht => by
      obtain ⟨n, rfl⟩ : ∃ n, t = n + 1 := ⟨t - 1, by omega⟩
      simp only [Nat.add_sub_cancel, pomaluj, (promien_skos_w_lewo_w_dol w k (n + 1)).1,
        (promien_skos_w_lewo_w_dol w k (n + 1)).2, Nat.cast_add, Nat.cast_one]
      ring_nf)
    (paliwo .skos_w_lewo_w_dol w k) 1 (le_refl 1)
  simp only [Nat.cast_one, Nat.sub_self, pomaluj] at hloop
  simp only [zmien_skos_w_lewo_w_dol, wynik_zmien, skan, paliwo] at hloop ⊢
  rw [hloop]

theorem promien_skos_w_prawo_w_dol (w k : Int) (t : Nat) :
    py .skos_w_prawo_w_dol w t = (w + ↑t) ∧ px .skos_w_prawo_w_dol k t = (k + ↑t) := by
  simp only [py, px, Kierunek.dy, Kierunek.dx]
  constructor <;> ring

theorem klucz_skos_w_prawo_w_dol (p : Plansza) (w k : Int) (hw : 0 ≤ w ∧ w < 8) (hk : 0 ≤ k ∧ k < 8)
    (t : Nat) (v : Int) (ht : 1 ≤ t) :
    (maNaPromieniu p .skos_w_prawo_w_dol w k t v ↔ ((k + ↑t) < 8 ∧ (w + ↑t) < 8 ∧ p (w + ↑t) (k + ↑t) = v)) := by
  simp only [maNaPromieniu, naPlanszy, (promien_skos_w_prawo_w_dol w k t).1, (promien_skos_w_prawo_w_dol w k t).2]
  omega

theorem sprawdz_skos_w_prawo_w_dol_kan (w k g : Int) (p : Plansza) (hw : 0 ≤ w ∧ w < 8)
    (hk : 0 ≤ k ∧ k < 8) :
    sprawdz_skos_w_prawo_w_dol w k g p = wynik_sprawdz p .skos_w_prawo_w_dol w k g := by
  have hloop := dopoki_indeks (fun s : Int × Int => decide (s.1 < 8 ∧ s.2 < 8 ∧ p s.2 s.1 = 1 - g))
    (fun s : Int × Int => (s.1 + 1, s.2 + 1))
    (fun t : Nat => (((k + (t : Int)) : Int), ((w + (t : Int)) : Int)))
    (fun t => decide (maNaPromieniu p .skos_w_prawo_w_dol w k t (1 - g)))
    (fun t ht => by
      have h := klucz_skos_w_prawo_w_dol p w k hw hk t (1 - g) ht
      simp only [decide_eq_decide]
      tauto)
    (fun t _ => by simp only [Nat.cast_add, Nat.cast_one]; ring_nf)
    (paliwo .skos_w_prawo_w_dol w k) 1 (le_refl 1)
  have h1 := skan_dodatni p .skos_w_prawo_w_dol w k g (paliwo .skos_w_prawo_w_dol w k)
  simp only [Nat.cast_one] at hloop
  simp only [skan] at h1
  simp only [sprawdz_skos_w_prawo_w_dol, wynik_sprawdz, skan, hloop, paliwo] at hloop h1 ⊢
  refine jesli_jesli _ _ _ _ ?_ ?_
  · have h := klucz_skos_w_prawo_w_dol p w k hw hk 1 (1 - g) (le_refl 1)
    simp only [Nat.cast_one] at h
    tauto
  · have h := klucz_skos_w_prawo_w_dol p w k hw hk _ g h1
    tauto

theorem zmien_skos_w_prawo_w_dol_kan (w k g : Int) (p : Plansza) (hw : 0 ≤ w ∧ w < 8)
    (hk : 0 ≤ k ∧ k < 8) :
    zmien_skos_w_prawo_w_dol w k g p = wynik_zmien p .skos_w_prawo_w_dol w k g := by
  have hloop := dopoki_indeks (fun s : Int × Int × Plansza => decide (s.1 < 8 ∧ s.2.1 < 8 ∧ s.2.2 s.2.1 s.1 = 1 - g))
    (fun s : Int × Int × Plansza => (s.1 + 1, s.2.1 + 1, ustaw s.2.2 s.2.1 s.1 g))
    (fun t : Nat => (((k + (t : Int)) : Int), ((w + (t : Int)) : Int), pomaluj p .skos_w_prawo_w_dol w k g (t - 1)))
    (fun t => decide (maNaPromieniu p .skos_w_prawo_w_dol w k t (1 - g)))
    (fun t ht => by
      have hp := pomaluj_nastepne p .skos_w_prawo_w_dol w k g t ht
      simp only [(promien_skos_w_prawo_w_dol w k t).1, (promien_skos_w_prawo_w_dol w k t).2] at hp
      have h := klucz_skos_w_prawo_w_dol p w k hw hk t (1 - g) ht
      simp only [decide_eq_decide, hp]
      tauto)
    (fun t ht => by
      obtain ⟨n, rfl⟩ : ∃ n, t = n + 1 := ⟨t - 1, by omega⟩
      simp only [Nat.add_sub_cancel, pomaluj, (promien_skos_w_prawo_w_dol w k (n + 1)).1,
        (promien_skos_w_prawo_w_dol w k (n + 1)).2, Nat.cast_add, Nat.cast_one]
      ring_nf)
    (paliwo .skos_w_prawo_w_dol w k) 1 (le_refl 1)
  simp only [Nat.cast_one, Nat.sub_self, pomaluj] at hloop
  simp only [zmien_skos_w_prawo_w_dol, wynik_zmien, skan, paliwo] at hloop ⊢
  rw [hloop]

theorem sprawdz_kan (d : Kierunek) (w k g : Int) (p : Plansza) (hw : 0 ≤ w ∧ w < 8)
    (hk : 0 ≤ k ∧ k < 8) : sprawdz d w k g p = wynik_sprawdz p d w k g := by
  cases d
  · exact sprawdz_pion_w_gore_kan w k g p hw hk
  · exact sprawdz_pion_w_dol_kan w k g p hw hk
  · exact sprawdz_poziom_w_prawo_kan w k g p hw hk
  · exact sprawdz_poziom_w_lewo_kan w k g p hw hk
  · exact sprawdz_skos_w_prawo_w_gore_kan w k g p hw hk
  · exact sprawdz_skos_w_lewo_w_gore_kan w k g p hw hk
  · exact sprawdz_skos_w_lewo_w_dol_kan w k g p hw hk
  · exact sprawdz_skos_w_prawo_w_dol_kan w k g p hw hk

theorem zmien_kan (d : Kierunek) (w k g : Int) (p : Plansza) (hw : 0 ≤ w ∧ w < 8)
    (hk : 0 ≤ k ∧ k < 8) : zmien d w k g p = wynik_zmien p d w k g := by
  cases d
  · exact zmien_pion_w_gore_kan w k g p hw hk
  · exact zmien_pion_w_dol_kan w k g p hw hk
  · exact zmien_poziom_w_prawo_kan w k g p hw hk
  · exact zmien_poziom_w_lewo_kan w k g p hw hk
  · exact zmien_skos_w_prawo_w_gore_kan w k g p hw hk
  · exact zmien_skos_w_lewo_w_gore_kan w k g p hw hk
  · exact zmien_skos_w_lewo_w_dol_kan w k g p hw hk
  · exact zmien_skos_w_prawo_w_dol_kan w k g p hw hk

theorem paliwo_wystarcza (d : Kierunek) (w k : Int) (hw : 0 ≤ w ∧ w < 8) (hk : 0 ≤ k ∧ k < 8) :
    ¬ naPlanszy (py d w (paliwo d w k + 1)) (px d k (paliwo d w k + 1)) := by
  cases d <;> simp only [naPlanszy, py, px, paliwo, Kierunek.dy, Kierunek.dx] <;> omega

/-- The scan stops exactly at the end of the opponent run: cells `1 .. e - 1` hold the
opponent and cell `e` does not (it is off the board or holds another value). -/
theorem skan_spec (p : Plansza) (d : Kierunek) (w k g : Int) (hw : 0 ≤ w ∧ w < 8)
    (hk : 0 ≤ k ∧ k < 8) :
    1 ≤ skan p d w k g (paliwo d w k) ∧
      (∀ j, 1 ≤ j → j < skan p d w k g (paliwo d w k) → maNaPromieniu p d w k j (1 - g)) ∧
      ¬ maNaPromieniu p d w k (skan p d w k g (paliwo d w k)) (1 - g) := by
  obtain ⟨h1, h2, h3, h4⟩ :=
    dopoki_licznik (fun t => decide (maNaPromieniu p d w k t (1 - g))) (paliwo d w k) 1
  refine ⟨h1, ?_, ?_⟩
  · intro j hj1 hj2
    have := h3 j hj1 hj2
    simpa using this
  · by_cases hlt : skan p d w k g (paliwo d w k) < 1 + paliwo d w k
    · have := h4 hlt
      simpa using this
    · have he : skan p d w k g (paliwo d w k) = paliwo d w k + 1 := by
        simp only [skan] at hlt ⊢; omega
      rw [he]
      intro hm
      exact paliwo_wystarcza d w k hw hk hm.1

/-- The length of the maximal run of opponent cells next to `(w, k)` in direction `d`. -/
theorem seria_spec (p : Plansza) (d : Kierunek) (w k g : Int) (hw : 0 ≤ w ∧ w < 8)
    (hk : 0 ≤ k ∧ k < 8) :
    (∀ j, 1 ≤ j → j ≤ seria p d w k g → maNaPromieniu p d w k j (1 - g)) ∧
      ¬ maNaPromieniu p d w k (seria p d w k g + 1) (1 - g) := by
  obtain ⟨h1, h2, h3⟩ := skan_spec p d w k g hw hk
  have he : seria p d w k g + 1 = skan p d w k g (paliwo d w k) := by
    simp only [seria]; omega
  refine ⟨fun j hj1 hj2 => h2 j hj1 (by omega), ?_⟩
  rw [he]; exact h3

theorem seria_jedyna (p : Plansza) (d : Kierunek) (w k g : Int) (hw : 0 ≤ w ∧ w < 8)
    (hk : 0 ≤ k ∧ k < 8) (n : Nat)
    (h1 : ∀ j, 1 ≤ j → j ≤ n → maNaPromieniu p d w k j (1 - g))
    (h2 : ¬ maNaPromieniu p d w k (n + 1) (1 - g)) : n = seria p d w k g := by
  obtain ⟨h3, h4⟩ := seria_spec p d w k g hw hk
  rcases Nat.lt_trichotomy n (seria p d w k g) with h | h | h
  · exact absurd (h3 (n + 1) (by omega) (by omega)) h2
  · exact h
  · exact absurd (h1 (seria p d w k g + 1) (by omega) (by omega)) h4

theorem flankuje_seria (p : Plansza) (d : Kierunek) (w k g : Int) (hw : 0 ≤ w ∧ w < 8)
    (hk : 0 ≤ k ∧ k < 8) (n : Nat) (h : Flankuje p d w k g n) : n = seria p d w k g := by
  apply seria_jedyna p d w k g hw hk n h.2.1
  intro hm
  have := h.2.2.2
  have := hm.2
  omega

theorem wynik_sprawdz_seria (p : Plansza) (d : Kierunek) (w k g : Int) (hw : 0 ≤ w ∧ w < 8)
    (hk : 0 ≤ k ∧ k < 8) :
    wynik_sprawdz p d w k g = true ↔
      (1 ≤ seria p d w k g ∧ maNaPromieniu p d w k (seria p d w k g + 1) g) := by
  obtain ⟨h1, h2, h3⟩ := skan_spec p d w k g hw hk
  have he : seria p d w k g + 1 = skan p d w k g (paliwo d w k) := by
    simp only [seria]; omega
  simp only [wynik_sprawdz, Bool.and_eq_true, decide_eq_true_eq, he]
  constructor
  · rintro ⟨ha, hb⟩
    refine ⟨?_, hb⟩
    by_contra hc
    have h0 : skan p d w k g (paliwo d w k) = 1 := by omega
    rw [h0] at h3
    exact h3 ha
  · rintro ⟨ha, hb⟩
    exact ⟨h2 1 (le_refl 1) (by omega), hb⟩

/-- The source check for direction `d` succeeds exactly when the move flanks a run. -/
theorem sprawdz_flankuje (p : Plansza) (d : Kierunek) (w k g : Int) (hw : 0 ≤ w ∧ w < 8)
    (hk : 0 ≤ k ∧ k < 8) :
    sprawdz d w k g p = true ↔ ∃ n, Flankuje p d w k g n := by
  rw [sprawdz_kan d w k g p hw hk, wynik_sprawdz_seria p d w k g hw hk]
  constructor
  · rintro ⟨h1, h2⟩
    exact ⟨seria p d w k g, h1, (seria_spec p d w k g hw hk).1, h2⟩
  · rintro ⟨n, hn⟩
    have := flankuje_seria p d w k g hw hk n hn
    subst this
    exact ⟨hn.1, hn.2.2⟩

/-- The source flip for direction `d` repaints exactly the maximal opponent run. -/
theorem zmien_seria (p : Plansza) (d : Kierunek) (w k g : Int) (hw : 0 ≤ w ∧ w < 8)
    (hk : 0 ≤ k ∧ k < 8) :
    (∀ t, 1 ≤ t → t ≤ seria p d w k g → zmien d w k g p (py d w t) (px d k t) = g) ∧
      (∀ i j, (∀ t, 1 ≤ t → t ≤ seria p d w k g → ¬(i = py d w t ∧ j = px d k t)) →
        zmien d w k g p i j = p i j) := by
  rw [zmien_kan d w k g p hw hk]
  exact ⟨fun t h1 h2 => pomaluj_na p d w k g _ t h1 h2,
    fun i j h => pomaluj_poza p d w k g _ i j h⟩

/-! ## Legality in terms of the flanking condition -/

theorem oskrzydla_flankuje (p : Plansza) (d : Kierunek) (w k g : Int) :
    Oskrzydla p w k g d.dy d.dx ↔ ∃ n, Flankuje p d w k g n := Iff.rfl

theorem sprawdz_oskrzydla (p : Plansza) (d : Kierunek) (w k g : Int) (hw : 0 ≤ w ∧ w < 8)
    (hk : 0 ≤ k ∧ k < 8) :
    sprawdz d w k g p = true ↔ Oskrzydla p w k g d.dy d.dx :=
  sprawdz_flankuje p d w k g hw hk

theorem sprawdz_urwana (p : Plansza) (d : Kierunek) (w k g : Int) (hw : 0 ≤ w ∧ w < 8)
    (hk : 0 ≤ k ∧ k < 8) (hg : g = 0 ∨ g = 1) (h : Urwana p w k g d.dy d.dx) :
    sprawdz d w k g p = false := by
  obtain ⟨n, h1, h2⟩ := h
  rw [Bool.eq_false_iff]
  intro ht
  obtain ⟨m, hm⟩ := (sprawdz_flankuje p d w k g hw hk).1 ht
  have hm' := flankuje_seria p d w k g hw hk m hm
  have hn : n = seria p d w k g := by
    apply seria_jedyna p d w k g hw hk n h1
    rintro ⟨ha, hb⟩
    rcases h2 with h2 | h2
    · exact h2 ha
    · simp only [py, px] at hb; omega
  subst hm'
  have h3 := hm.2.2
  rw [← hn] at h3
  rcases h2 with h2 | h2
  · exact h2 h3.1
  · have := h3.2; simp only [py, px] at this; omega

theorem sprawdz_sasiad (p : Plansza) (d : Kierunek) (w k g : Int) (hw : 0 ≤ w ∧ w < 8)
    (hk : 0 ≤ k ∧ k < 8) (hg : g = 0 ∨ g = 1)
    (h : ¬ naPlanszy (w + d.dy) (k + d.dx) ∨ p (w + d.dy) (k + d.dx) = -1 ∨
      p (w + d.dy) (k + d.dx) = g) :
    sprawdz d w k g p = false := by
  rw [Bool.eq_false_iff]
  intro ht
  obtain ⟨n, hn1, hn2, _⟩ := (sprawdz_flankuje p d w k g hw hk).1 ht
  have h1 := hn2 1 (le_refl 1) hn1
  simp only [maNaPromieniu, py, px, Nat.cast_one, one_mul] at h1
  rcases h with h | h | h
  · exact h h1.1
  · have := h1.2; omega
  · have := h1.2; omega

/-! ## The effect of `wykonaj_ruch` -/

theorem wykonaj_ruch_foldl (w k g : Int) (p : Plansza) :
    wykonaj_ruch w k g p = kolejnosc_ruchu.foldl (krok_ruchu w k g) (ustaw p w k g) := rfl

theorem promienie_rozlaczne (d e : Kierunek) (w k : Int) (s t : Nat) (hs : 1 ≤ s)
    (h : py d w s = py e w t ∧ px d k s = px e k t) : d = e := by
  cases d <;> cases e <;>
    first
    | rfl
    | (exfalso; simp only [py, px, Kierunek.dy, Kierunek.dx] at h; omega)

theorem promien_nie_poczatek (d : Kierunek) (w k : Int) (t : Nat) (ht : 1 ≤ t) :
    ¬(py d w t = w ∧ px d k t = k) := by
  intro h
  cases d <;> simp only [py, px, Kierunek.dy, Kierunek.dx] at h <;> omega

theorem maNaPromieniu_kongr (p q : Plansza) (d : Kierunek) (w k : Int)
    (h : ∀ t : Nat, 1 ≤ t → naPlanszy (py d w t) (px d k t) →
      q (py d w t) (px d k t) = p (py d w t) (px d k t))
    (t : Nat) (ht : 1 ≤ t) (v : Int) :
    maNaPromieniu q d w k t v ↔ maNaPromieniu p d w k t v := by
  simp only [maNaPromieniu]
  constructor
  · rintro ⟨h1, h2⟩; exact ⟨h1, by rw [← h t ht h1]; exact h2⟩
  · rintro ⟨h1, h2⟩; exact ⟨h1, by rw [h t ht h1]; exact h2⟩

theorem flankuje_kongr (p q : Plansza) (d : Kierunek) (w k g : Int)
    (h : ∀ t : Nat, 1 ≤ t → naPlanszy (py d w t) (px d k t) →
      q (py d w t) (px d k t) = p (py d w t) (px d k t)) (n : Nat) :
    Flankuje q d w k g n ↔ Flankuje p d w k g n := by
  simp only [Flankuje]
  constructor
  · rintro ⟨h1, h2, h3⟩
    exact ⟨h1, fun j hj1 hj2 => (maNaPromieniu_kongr p q d w k h j hj1 _).1 (h2 j hj1 hj2),
      (maNaPromieniu_kongr p q d w k h _ (by omega) _).1 h3⟩
  · rintro ⟨h1, h2, h3⟩
    exact ⟨h1, fun j hj1 hj2 => (maNaPromieniu_kongr p q d w k h j hj1 _).2 (h2 j hj1 hj2),
      (maNaPromieniu_kongr p q d w k h _ (by omega) _).2 h3⟩

/-- A legality check reads only the on-board cells of its own ray. -/
theorem sprawdz_kongr (p q : Plansza) (d : Kierunek) (w k g : Int) (hw : 0 ≤ w ∧ w < 8)
    (hk : 0 ≤ k ∧ k < 8)
    (h : ∀ t : Nat, 1 ≤ t → naPlanszy (py d w t) (px d k t) →
      q (py d w t) (px d k t) = p (py d w t) (px d k t)) :
    sprawdz d w k g q = sprawdz d w k g p := by
  rw [Bool.eq_iff_iff, sprawdz_flankuje p d w k g hw hk, sprawdz_flankuje q d w k g hw hk]
  constructor
  · rintro ⟨n, hn⟩; exact ⟨n, (flankuje_kongr p q d w k g h n).1 hn⟩
  · rintro ⟨n, hn⟩; exact ⟨n, (flankuje_kongr p q d w k g h n).2 hn⟩

theorem zbite_kongr (p q : Plansza) (d : Kierunek) (w k g : Int)
    (h : ∀ t : Nat, 1 ≤ t → naPlanszy (py d w t) (px d k t) →
      q (py d w t) (px d k t) = p (py d w t) (px d k t)) (i j : Int) :
    Zbite q d w k g i j ↔ Zbite p d w k g i j := by
  simp only [Zbite]
  constructor
  · rintro ⟨n, t, h1, h2⟩; exact ⟨n, t, (flankuje_kongr p q d w k g h n).1 h1, h2⟩
  · rintro ⟨n, t, h1, h2⟩; exact ⟨n, t, (flankuje_kongr p q d w k g h n).2 h1, h2⟩

/-- The cells of a flanked run hold the opponent before the move. -/
theorem zbite_przeciwnik (p : Plansza) (d : Kierunek) (w k g : Int) (i j : Int)
    (h : Zbite p d w k g i j) : naPlanszy i j ∧ p i j = 1 - g ∧ ¬(i = w ∧ j = k) := by
  obtain ⟨n, t, hf, h1, h2, rfl, rfl⟩ := h
  have := hf.2.1 t h1 h2
  exact ⟨this.1, this.2, promien_nie_poczatek d w k t h1⟩

theorem krok_ruchu_sam (p : Plansza) (d : Kierunek) (w k g : Int) (hw : 0 ≤ w ∧ w < 8)
    (hk : 0 ≤ k ∧ k < 8) (i j : Int) :
    (Zbite p d w k g i j → krok_ruchu w k g p d i j = g) ∧
      (¬ Zbite p d w k g i j → krok_ruchu w k g p d i j = p i j) := by
  by_cases hs : sprawdz d w k g p = true
  · obtain ⟨n, hn⟩ := (sprawdz_flankuje p d w k g hw hk).1 hs
    have hz := zmien_seria p d w k g hw hk
    simp only [krok_ruchu, hs, if_true]
    constructor
    · rintro ⟨m, t, hm, h1, h2, rfl, rfl⟩
      have := flankuje_seria p d w k g hw hk m hm
      exact hz.1 t h1 (by omega)
    · intro hnz
      apply hz.2
      intro t h1 h2 h3
      have := flankuje_seria p d w k g hw hk n hn
      exact hnz ⟨n, t, hn, h1, by omega, h3.1, h3.2⟩
  · simp only [krok_ruchu, hs]
    constructor
    · rintro ⟨m, t, hm, _⟩
      exact absurd ((sprawdz_flankuje p d w k g hw hk).2 ⟨m, hm⟩) hs
    · intro _; rfl

theorem krok_ruchu_inv (p0 p : Plansza) (w k g : Int) (hw : 0 ≤ w ∧ w < 8)
    (hk : 0 ≤ k ∧ k < 8) (M : Kierunek → Prop) (d : Kierunek) (hd : ¬ M d)
    (h : PoKierunkach p0 w k g M p) :
    PoKierunkach p0 w k g (fun e => M e ∨ e = d) (krok_ruchu w k g p d) := by
  have hray : ∀ t : Nat, 1 ≤ t → naPlanszy (py d w t) (px d k t) →
      p (py d w t) (px d k t) = p0 (py d w t) (px d k t) := by
    intro t ht _
    apply (h _ _).2.2 (promien_nie_poczatek d w k t ht)
    rintro e he ⟨n, s, _, hs1, _, h1, h2⟩
    have := promienie_rozlaczne d e w k t s ht ⟨h1, h2⟩
    exact hd (this ▸ he)
  intro i j
  have hk1 := krok_ruchu_sam p d w k g hw hk i j
  have hzb := zbite_kongr p0 p d w k g hray i j
  refine ⟨?_, ?_, ?_⟩
  · intro ht
    have hnz : ¬ Zbite p d w k g i j := fun hz => (zbite_przeciwnik p d w k g i j hz).2.2 ht
    rw [hk1.2 hnz]
    exact (h i j).1 ht
  · rintro e (he | he) hz
    · by_cases hzd : Zbite p d w k g i j
      · exact hk1.1 hzd
      · rw [hk1.2 hzd]; exact (h i j).2.1 e he hz
    · subst he
      exact hk1.1 (hzb.2 hz)
  · intro hnt hall
    have hnz : ¬ Zbite p d w k g i j := fun hz => hall d (Or.inr rfl) (hzb.1 hz)
    rw [hk1.2 hnz]
    exact (h i j).2.2 hnt (fun e he => hall e (Or.inl he))

theorem foldl_krok_inv (p0 : Plansza) (w k g : Int) (hw : 0 ≤ w ∧ w < 8)
    (hk : 0 ≤ k ∧ k < 8) :
    ∀ (ds : List Kierunek) (M : Kierunek → Prop) (p : Plansza), ds.Nodup →
      (∀ d ∈ ds, ¬ M d) → PoKierunkach p0 w k g M p →
      PoKierunkach p0 w k g (fun e => M e ∨ e ∈ ds) (ds.foldl (krok_ruchu w k g) p) := by
  intro ds
  induction ds with
  | nil =>
    intro M p _ _ h
    simpa [PoKierunkach] using h
  | cons d ds ih =>
    intro M p hnd hM h
    rw [List.nodup_cons] at hnd
    have h1 := krok_ruchu_inv p0 p w k g hw hk M d (hM d (List.mem_cons_self _ _)) h
    have h2 := ih (fun e => M e ∨ e = d) (krok_ruchu w k g p d) hnd.2 (by
      intro e he hMe
      rcases hMe with hMe | hMe
      · exact hM e (List.mem_cons_of_mem _ he) hMe
      · exact hnd.1 (hMe ▸ he)) h1
    simp only [List.foldl_cons]
    intro i j
    obtain ⟨a, b, c⟩ := h2 i j
    refine ⟨a, ?_, ?_⟩
    · intro e he hz
      apply b e _ hz
      rcases he with he | he
      · exact Or.inl (Or.inl he)
      · rcases List.mem_cons.1 he with he | he
        · exact Or.inl (Or.inr he)
        · exact Or.inr he
    · intro hnt hall
      apply c hnt
      intro e he
      apply hall e
      rcases he with (he | he) | he
      · exact Or.inl he
      · exact Or.inr (he ▸ List.mem_cons_self _ _)
      · exact Or.inr (List.mem_cons_of_mem _ he)

/-- The effect of `wykonaj_ruch` in terms of the input board. -/
theorem wykonaj_ruch_spec (p : Plansza) (w k g : Int) (hw : 0 ≤ w ∧ w < 8)
    (hk : 0 ≤ k ∧ k < 8) (i j : Int) :
    ((i = w ∧ j = k) → wykonaj_ruch w k g p i j = g) ∧
      (∀ d, Zbite p d w k g i j → wykonaj_ruch w k g p i j = g) ∧
      (¬(i = w ∧ j = k) → (∀ d, ¬ Zbite p d w k g i j) → wykonaj_ruch w k g p i j = p i j) := by
  have h0 : PoKierunkach p w k g (fun _ => False) (ustaw p w k g) := by
    intro i j
    refine ⟨fun h => by simp [ustaw, h], fun d hd => hd.elim, fun h _ => by simp [ustaw, h]⟩
  have h1 := foldl_krok_inv p w k g hw hk kolejnosc_ruchu (fun _ => False) (ustaw p w k g)
    (by decide) (fun _ _ h => h) h0 i j
  rw [← wykonaj_ruch_foldl] at h1
  have hall : ∀ d : Kierunek, False ∨ d ∈ kolejnosc_ruchu := by
    intro d; right; cases d <;> decide
  exact ⟨h1.1, fun d hz => h1.2.1 d (hall d) hz, fun hnt hz => h1.2.2 hnt (fun d _ => hz d)⟩

/-! ## Consequences for pieces on the board -/

theorem wykonaj_ruch_albo (p : Plansza) (w k g : Int) (hw : 0 ≤ w ∧ w < 8)
    (hk : 0 ≤ k ∧ k < 8) (i j : Int) :
    (wykonaj_ruch w k g p i j = g ∧ (p i j = 1 - g ∨ (i = w ∧ j = k))) ∨
      wykonaj_ruch w k g p i j = p i j := by
  obtain ⟨h1, h2, h3⟩ := wykonaj_ruch_spec p w k g hw hk i j
  by_cases ht : i = w ∧ j = k
  · exact Or.inl ⟨h1 ht, Or.inr ht⟩
  · by_cases hz : ∃ d, Zbite p d w k g i j
    · obtain ⟨d, hd⟩ := hz
      exact Or.inl ⟨h2 d hd, Or.inl (zbite_przeciwnik p d w k g i j hd).2.1⟩
    · exact Or.inr (h3 ht (fun d hd => hz ⟨d, hd⟩))

theorem zmien_albo (p : Plansza) (d : Kierunek) (w k g : Int) (hw : 0 ≤ w ∧ w < 8)
    (hk : 0 ≤ k ∧ k < 8) (i j : Int) :
    (zmien d w k g p i j = g ∧ p i j = 1 - g ∧ naPlanszy i j) ∨ zmien d w k g p i j = p i j := by
  obtain ⟨h1, h2⟩ := zmien_seria p d w k g hw hk
  by_cases hz : ∃ t, 1 ≤ t ∧ t ≤ seria p d w k g ∧ i = py d w t ∧ j = px d k t
  · obtain ⟨t, ht1, ht2, rfl, rfl⟩ := hz
    have := (seria_spec p d w k g hw hk).1 t ht1 ht2
    exact Or.inl ⟨h1 t ht1 ht2, this.2, this.1⟩
  · exact Or.inr (h2 i j (fun t ht1 ht2 h => hz ⟨t, ht1, ht2, h.1, h.2⟩))

theorem wykonaj_ruch_niepuste (p : Plansza) (w k g : Int) (hw : 0 ≤ w ∧ w < 8)
    (hk : 0 ≤ k ∧ k < 8) (hg : g = 0 ∨ g = 1) (i j : Int) (h : p i j ≠ -1) :
    wykonaj_ruch w k g p i j ≠ -1 := by
  rcases wykonaj_ruch_albo p w k g hw hk i j with h1 | h1
  · rw [h1.1]; omega
  · rw [h1]; exact h

theorem wykonaj_ruch_poprawna (p : Plansza) (w k g : Int) (hw : 0 ≤ w ∧ w < 8)
    (hk : 0 ≤ k ∧ k < 8) (hg : g = 0 ∨ g = 1) (hp : Poprawna p) :
    Poprawna (wykonaj_ruch w k g p) := by
  intro i j hij
  rcases wykonaj_ruch_albo p w k g hw hk i j with h1 | h1
  · rw [h1.1]; omega
  · rw [h1]; exact hp i j hij

theorem rozegraj_niepuste (ruchy : List (Int × Int × Int)) :
    ∀ p : Plansza, (∀ m ∈ ruchy, RuchWZakresie m) → ∀ i j : Int, p i j ≠ -1 →
      rozegraj ruchy p i j ≠ -1 := by
  induction ruchy with
  | nil => intro p _ i j h; exact h
  | cons m ms ih =>
    intro p hm i j h
    have h0 := hm m (List.mem_cons_self _ _)
    simp only [rozegraj, List.foldl_cons]
    exact ih _ (fun x hx => hm x (List.mem_cons_of_mem _ hx)) i j
      (wykonaj_ruch_niepuste p m.1 m.2.1 m.2.2 h0.1 h0.2.1 h0.2.2 i j h)

theorem rozegraj_poprawna (ruchy : List (Int × Int × Int)) :
    ∀ p : Plansza, (∀ m ∈ ruchy, RuchWZakresie m) → Poprawna p →
      Poprawna (rozegraj ruchy p) := by
  induction ruchy with
  | nil => intro p _ h; exact h
  | cons m ms ih =>
    intro p hm h
    have h0 := hm m (List.mem_cons_self _ _)
    simp only [rozegraj, List.foldl_cons]
    exact ih _ (fun x hx => hm x (List.mem_cons_of_mem _ hx))
      (wykonaj_ruch_poprawna p m.1 m.2.1 m.2.2 h0.1 h0.2.1 h0.2.2 h)

theorem rozegraj_append (a b : List (Int × Int × Int)) (p : Plansza) :
    rozegraj (a ++ b) p = rozegraj b (rozegraj a p) := by
  simp only [rozegraj, List.foldl_append]

/-! ## Enumeration and initialisation -/

theorem foldl_dopisz {α β : Type} (c : β → Bool) (f : β → α) (F : List α → β → List α)
    (h : ∀ acc b, F acc b = if c b then acc ++ [f b] else acc) :
    ∀ (l : List β) (acc : List α), l.foldl F acc = acc ++ (l.filter c).map f := by
  intro l
  induction l with
  | nil => intro acc; simp
  | cons b l ih =>
    intro acc
    rw [List.foldl_cons, ih, h]
    by_cases hc : c b = true
    · simp [hc, List.filter_cons]
    · simp [hc, List.filter_cons]

theorem foldl_flatMap {α β : Type} (G : β → List α) (F : List α → β → List α)
    (h : ∀ acc b, F acc b = acc ++ G b) :
    ∀ (l : List β) (acc : List α), l.foldl F acc = acc ++ l.flatMap G := by
  intro l
  induction l with
  | nil => intro acc; simp
  | cons b l ih =>
    intro acc
    rw [List.foldl_cons, ih, h]
    simp [List.flatMap_cons]

theorem pokaz_mozliwe_ruchy_eq (p : Plansza) (g : Int) :
    pokaz_mozliwe_ruchy p g =
      (List.range 8).flatMap fun (j : Nat) =>
        ((List.range 8).filter (do_wypisania p g j)).map fun (i : Nat) => ((i : Int), (j : Int)) := by
  unfold pokaz_mozliwe_ruchy
  rw [foldl_flatMap
    (fun j => ((List.range 8).filter (do_wypisania p g j)).map fun (i : Nat) => ((i : Int), (j : Int)))]
  · simp
  · intro acc j
    apply foldl_dopisz (do_wypisania p g j) (fun (i : Nat) => ((i : Int), (j : Int)))
    intro acc i
    by_cases h1 : p i j = -1
    · simp only [h1, do_wypisania, if_true, decide_True, Bool.true_and]
    · simp only [h1, do_wypisania, if_false, decide_False, Bool.false_and]
      rfl

theorem do_wypisania_iff (p : Plansza) (g : Int) (j i : Nat) :
    do_wypisania p g j i = true ↔
      p i j = -1 ∧ ∃ d : Kierunek, sprawdz d i j g p = true := by
  simp only [do_wypisania, Bool.and_eq_true, decide_eq_true_eq, Bool.or_eq_true]
  constructor
  · rintro ⟨h1, h2⟩
    refine ⟨h1, ?_⟩
    rcases h2 with ((((((h | h) | h) | h) | h) | h) | h) | h
    · exact ⟨.pion_w_gore, h⟩
    · exact ⟨.pion_w_dol, h⟩
    · exact ⟨.poziom_w_lewo, h⟩
    · exact ⟨.poziom_w_prawo, h⟩
    · exact ⟨.skos_w_lewo_w_dol, h⟩
    · exact ⟨.skos_w_lewo_w_gore, h⟩
    · exact ⟨.skos_w_prawo_w_dol, h⟩
    · exact ⟨.skos_w_prawo_w_gore, h⟩
  · rintro ⟨h1, d, hd⟩
    refine ⟨h1, ?_⟩
    cases d <;> simp only [sprawdz] at hd <;> simp [hd]

theorem pokaz_mem (p : Plansza) (g : Int) (i j : Int) :
    (i, j) ∈ pokaz_mozliwe_ruchy p g ↔
      naPlanszy i j ∧ p i j = -1 ∧ ∃ d : Kierunek, sprawdz d i j g p = true := by
  rw [pokaz_mozliwe_ruchy_eq]
  simp only [List.mem_flatMap, List.mem_map, List.mem_filter, List.mem_range, Prod.mk.injEq]
  constructor
  · rintro ⟨b, hb, a, ⟨ha, hc⟩, rfl, rfl⟩
    have := (do_wypisania_iff p g b a).1 hc
    exact ⟨⟨by omega, by omega, by omega, by omega⟩, this⟩
  · rintro ⟨⟨h1, h2, h3, h4⟩, h5⟩
    refine ⟨j.toNat, by omega, i.toNat, ⟨by omega, ?_⟩, by omega, by omega⟩
    rw [do_wypisania_iff p g _ _]
    have hi : ((i.toNat : Nat) : Int) = i := by omega
    have hj : ((j.toNat : Nat) : Int) = j := by omega
    rw [hi, hj]
    exact h5

theorem pokaz_porzadek (p : Plansza) (g : Int) :
    (pokaz_mozliwe_ruchy p g).Pairwise
      (fun a b => a.2 < b.2 ∨ (a.2 = b.2 ∧ a.1 < b.1)) := by
  rw [pokaz_mozliwe_ruchy_eq, List.pairwise_flatMap]
  constructor
  · intro j _
    rw [List.pairwise_map]
    apply List.Pairwise.filter
    apply (List.pairwise_lt_range 8).imp
    intro a b hab
    right
    exact ⟨rfl, Int.ofNat_lt.2 hab⟩
  · apply (List.pairwise_lt_range 8).imp
    intro a b hab x hx y hy
    simp only [List.mem_map, List.mem_filter] at hx hy
    obtain ⟨_, _, rfl⟩ := hx
    obtain ⟨_, _, rfl⟩ := hy
    left
    exact Int.ofNat_lt.2 hab

theorem pokaz_kongr (p q : Plansza) (g : Int)
    (h : ∀ i j : Int, naPlanszy i j → q i j = p i j) :
    pokaz_mozliwe_ruchy q g = pokaz_mozliwe_ruchy p g := by
  rw [pokaz_mozliwe_ruchy_eq, pokaz_mozliwe_ruchy_eq]
  apply List.flatMap_congr
  intro j hj
  rw [List.mem_range] at hj
  congr 1
  apply List.filter_congr
  intro i hi
  rw [List.mem_range] at hi
  have hw : 0 ≤ (i : Int) ∧ (i : Int) < 8 := by omega
  have hk : 0 ≤ (j : Int) ∧ (j : Int) < 8 := by omega
  have hs : ∀ d : Kierunek, sprawdz d i j g q = sprawdz d i j g p :=
    fun d => sprawdz_kongr p q d i j g hw hk (fun t _ hb => h _ _ hb)
  have h0 : q i j = p i j := h _ _ ⟨hw.1, hw.2, hk.1, hk.2⟩
  simp only [do_wypisania, h0]
  have h1 := hs .pion_w_gore
  have h2 := hs .pion_w_dol
  have h3 := hs .poziom_w_lewo
  have h4 := hs .poziom_w_prawo
  have h5 := hs .skos_w_lewo_w_dol
  have h6 := hs .skos_w_lewo_w_gore
  have h7 := hs .skos_w_prawo_w_dol
  have h8 := hs .skos_w_prawo_w_gore
  simp only [sprawdz] at h1 h2 h3 h4 h5 h6 h7 h8
  rw [h1, h2, h3, h4, h5, h6, h7, h8]

theorem policz_kongr (p q : Plansza) (v : Int)
    (h : ∀ i j : Int, naPlanszy i j → q i j = p i j) : policz q v = policz p v := by
  unfold policz
  congr 1
  apply List.map_congr_left
  intro i hi
  rw [List.mem_range] at hi
  congr 1
  apply List.filter_congr
  intro j hj
  rw [List.mem_range] at hj
  rw [h i j ⟨by omega, by omega, by omega, by omega⟩]

theorem ustaw_apply (p : Plansza) (y x v i j : Int) :
    ustaw p y x v i j = if i = y ∧ j = x then v else p i j := rfl

theorem wypelnij_wiersz (v : Int) (i : Int) : ∀ (n : Nat) (p : Plansza) (a b : Int),
    (List.range n).foldl (fun (plansza : Plansza) (j : Nat) => ustaw plansza i j v) p a b =
      if a = i ∧ 0 ≤ b ∧ b < n then v else p a b := by
  intro n
  induction n with
  | zero =>
    intro p a b
    have : ¬(a = i ∧ 0 ≤ b ∧ b < ((0 : Nat) : Int)) := by omega
    simp only [List.range_zero, List.foldl_nil, if_neg this]
  | succ n ih =>
    intro p a b
    rw [show List.range (n + 1) = List.range n ++ [n] from List.range_succ n, List.foldl_append,
      List.foldl_cons, List.foldl_nil, ustaw_apply, ih]
    by_cases h1 : a = i ∧ b = (n : Int)
    · rw [if_pos h1, if_pos]
      push_cast; omega
    · rw [if_neg h1]
      by_cases h2 : a = i ∧ 0 ≤ b ∧ b < (n : Int)
      · rw [if_pos h2, if_pos]
        push_cast; omega
      · rw [if_neg h2, if_neg]
        push_cast; omega

theorem wypelnij_plansze (v : Int) : ∀ (m : Nat) (p : Plansza) (a b : Int),
    (List.range m).foldl
        (fun (plansza : Plansza) (i : Nat) =>
          (List.range 8).foldl (fun (plansza : Plansza) (j : Nat) => ustaw plansza i j v) plansza)
        p a b =
      if (0 ≤ a ∧ a < m) ∧ 0 ≤ b ∧ b < 8 then v else p a b := by
  intro m
  induction m with
  | zero =>
    intro p a b
    have : ¬((0 ≤ a ∧ a < ((0 : Nat) : Int)) ∧ 0 ≤ b ∧ b < 8) := by omega
    simp only [List.range_zero, List.foldl_nil, if_neg this]
  | succ m ih =>
    intro p a b
    rw [show List.range (m + 1) = List.range m ++ [m] from List.range_succ m, List.foldl_append,
      List.foldl_cons, List.foldl_nil, wypelnij_wiersz, ih]
    by_cases h1 : a = (m : Int) ∧ 0 ≤ b ∧ b < ((8 : Nat) : Int)
    · rw [if_pos h1, if_pos]
      push_cast; omega
    · rw [if_neg h1]
      by_cases h2 : (0 ≤ a ∧ a < (m : Int)) ∧ 0 ≤ b ∧ b < 8
      · rw [if_pos h2, if_pos]
        push_cast; omega
      · rw [if_neg h2, if_neg]
        push_cast; omega

theorem inicjalizuj_plansze_spec (p : Plansza) (i j : Int) (h : naPlanszy i j) :
    inicjalizuj_plansze p i j = plansza_startowa i j := by
  obtain ⟨h1, h2, h3, h4⟩ := h
  simp only [inicjalizuj_plansze, ustaw_apply, wypelnij_plansze, plansza_startowa]
  have h5 : (0 ≤ i ∧ i < ((8 : Nat) : Int)) ∧ 0 ≤ j ∧ j < 8 := by omega
  rw [if_pos h5]
  split_ifs <;> omega

theorem wykonaj_ruch_kongr (p q : Plansza) (w k g : Int) (hw : 0 ≤ w ∧ w < 8)
    (hk : 0 ≤ k ∧ k < 8) (h : ∀ i j : Int, naPlanszy i j → q i j = p i j) (i j : Int)
    (hij : naPlanszy i j) : wykonaj_ruch w k g q i j = wykonaj_ruch w k g p i j := by
  obtain ⟨a1, a2, a3⟩ := wykonaj_ruch_spec p w k g hw hk i j
  obtain ⟨b1, b2, b3⟩ := wykonaj_ruch_spec q w k g hw hk i j
  have hz : ∀ d, Zbite q d w k g i j ↔ Zbite p d w k g i j :=
    fun d => zbite_kongr p q d w k g (fun t _ hb => h _ _ hb) i j
  by_cases ht : i = w ∧ j = k
  · rw [a1 ht, b1 ht]
  · by_cases hex : ∃ d, Zbite p d w k g i j
    · obtain ⟨d, hd⟩ := hex
      rw [a2 d hd, b2 d ((hz d).2 hd)]
    · rw [a3 ht (fun d hd => hex ⟨d, hd⟩), b3 ht (fun d hd => hex ⟨d, (hz d).1 hd⟩)]
      exact h i j hij

/-! ## Order of the directions and check before placement -/

theorem wykonaj_ruch_sprawdz_przed_foldl (w k g : Int) (p : Plansza) :
    wykonaj_ruch_sprawdz_przed w k g p =
      kolejnosc_ruchu.foldl
        (fun q d => if sprawdz d w k g p then zmien d w k g q else q) (ustaw p w k g) := rfl

/-- After the directions in `M` have been handled, the ray of any other direction still
holds the input values. -/
theorem po_kierunkach_promien (p0 p : Plansza) (w k g : Int) (M : Kierunek → Prop)
    (d : Kierunek) (hd : ¬ M d) (h : PoKierunkach p0 w k g M p) (t : Nat) (ht : 1 ≤ t) :
    p (py d w t) (px d k t) = p0 (py d w t) (px d k t) := by
  apply (h _ _).2.2 (promien_nie_poczatek d w k t ht)
  rintro e he ⟨n, s, _, hs1, _, h1, h2⟩
  have := promienie_rozlaczne d e w k t s ht ⟨h1, h2⟩
  exact hd (this ▸ he)

theorem po_kierunkach_poczatek (p : Plansza) (w k g : Int) :
    PoKierunkach p w k g (fun _ => False) (ustaw p w k g) := by
  intro i j
  exact ⟨fun h => by simp [ustaw, h], fun d hd => hd.elim, fun h _ => by simp [ustaw, h]⟩

theorem po_kierunkach_wszystkie (p q r : Plansza) (w k g : Int) (M N : Kierunek → Prop)
    (hM : ∀ d, M d) (hN : ∀ d, N d) (hq : PoKierunkach p w k g M q)
    (hr : PoKierunkach p w k g N r) : q = r := by
  funext i j
  obtain ⟨a1, a2, a3⟩ := hq i j
  obtain ⟨b1, b2, b3⟩ := hr i j
  by_cases ht : i = w ∧ j = k
  · rw [a1 ht, b1 ht]
  · by_cases hz : ∃ d, Zbite p d w k g i j
    · obtain ⟨d, hd⟩ := hz
      rw [a2 d (hM d) hd, b2 d (hN d) hd]
    · rw [a3 ht (fun d _ hd => hz ⟨d, hd⟩), b3 ht (fun d _ hd => hz ⟨d, hd⟩)]

theorem kolejnosc_ruchu_pelna (d : Kierunek) : d ∈ kolejnosc_ruchu := by
  cases d <;> decide

theorem kolejnosc_dowolna (p : Plansza) (w k g : Int) (hw : 0 ≤ w ∧ w < 8)
    (hk : 0 ≤ k ∧ k < 8) (ds : List Kierunek) (hp : ds.Perm kolejnosc_ruchu) :
    ds.foldl (krok_ruchu w k g) (ustaw p w k g) = wykonaj_ruch w k g p := by
  have hnd : ds.Nodup := hp.nodup_iff.2 (by decide)
  have hall : ∀ d, d ∈ ds := fun d => hp.mem_iff.2 (kolejnosc_ruchu_pelna d)
  have h1 := foldl_krok_inv p w k g hw hk ds (fun _ => False) (ustaw p w k g) hnd
    (fun _ _ h => h) (po_kierunkach_poczatek p w k g)
  have h2 := foldl_krok_inv p w k g hw hk kolejnosc_ruchu (fun _ => False) (ustaw p w k g)
    (by decide) (fun _ _ h => h) (po_kierunkach_poczatek p w k g)
  rw [wykonaj_ruch_foldl]
  exact po_kierunkach_wszystkie p _ _ w k g _ _ (fun d => Or.inr (hall d))
    (fun d => Or.inr (kolejnosc_ruchu_pelna d)) h1 h2

theorem zmien_tylko_promien (p : Plansza) (d : Kierunek) (w k g : Int) (hw : 0 ≤ w ∧ w < 8)
    (hk : 0 ≤ k ∧ k < 8) (i j : Int) (h : zmien d w k g p i j ≠ p i j) :
    ∃ t : Nat, 1 ≤ t ∧ i = py d w t ∧ j = px d k t := by
  by_contra hc
  apply h
  apply (zmien_seria p d w k g hw hk).2
  intro t ht _ hij
  exact hc ⟨t, ht, hij.1, hij.2⟩

theorem foldl_sprawdz_przed (p : Plansza) (w k g : Int) (hw : 0 ≤ w ∧ w < 8)
    (hk : 0 ≤ k ∧ k < 8) :
    ∀ (ds : List Kierunek) (M : Kierunek → Prop) (q : Plansza), ds.Nodup →
      (∀ d ∈ ds, ¬ M d) → PoKierunkach p w k g M q →
      ds.foldl (fun q d => if sprawdz d w k g p then zmien d w k g q else q) q =
        ds.foldl (krok_ruchu w k g) q := by
  intro ds
  induction ds with
  | nil => intro M q _ _ _; rfl
  | cons d ds ih =>
    intro M q hnd hM h
    rw [List.nodup_cons] at hnd
    have hd : ¬ M d := hM d (List.mem_cons_self _ _)
    have hs : sprawdz d w k g q = sprawdz d w k g p :=
      sprawdz_kongr p q d w k g hw hk
        (fun t ht _ => po_kierunkach_promien p q w k g M d hd h t ht)
    have h1 := krok_ruchu_inv p q w k g hw hk M d hd h
    have hstep : (if sprawdz d w k g p then zmien d w k g q else q) = krok_ruchu w k g q d := by
      simp only [krok_ruchu, hs]
    simp only [List.foldl_cons, hstep]
    exact ih (fun e => M e ∨ e = d) _ hnd.2 (by
      intro e he hMe
      rcases hMe with hMe | hMe
      · exact hM e (List.mem_cons_of_mem _ he) hMe
      · exact hnd.1 (hMe ▸ he)) h1

/-! ## The prompt written by `main` -/

theorem flatMap_filter_map {α β γ : Type} (c : α → Bool) (f : α → β) (g : β → List γ) :
    ∀ l : List α, ((l.filter c).map f).flatMap g =
      l.flatMap (fun a => if c a then g (f a) else []) := by
  intro l
  induction l with
  | nil => rfl
  | cons a l ih =>
    by_cases h : c a = true
    · simp [List.filter_cons, h, ih]
    · simp [List.filter_cons, h, ih]

theorem pokaz_mozliwe_ruchy_wyjscie_eq (p : Plansza) (g : Int) (wyjscie : List Char) :
    pokaz_mozliwe_ruchy_wyjscie p g wyjscie =
      wyjscie ++ (pokaz_mozliwe_ruchy p g).flatMap
        (fun c => printf_pole (symbol_kolumny c.2) (c.1 + 1)) := by
  rw [pokaz_mozliwe_ruchy_eq, List.flatMap_assoc]
  unfold pokaz_mozliwe_ruchy_wyjscie
  rw [foldl_flatMap (fun (j : Nat) => (((List.range 8).filter (do_wypisania p g j)).map
    fun (i : Nat) => ((i : Int), (j : Int))).flatMap
      (fun c => printf_pole (symbol_kolumny c.2) (c.1 + 1)))]
  intro acc j
  rw [flatMap_filter_map]
  apply foldl_flatMap
  intro acc i
  by_cases h1 : p i j = -1
  · simp only [h1, do_wypisania, if_true, decide_True, Bool.true_and]
    split <;> simp
  · simp only [h1, do_wypisania, if_false, decide_False, Bool.false_and]
    simp

theorem printf_pole_cyfra (c : Char) (i : Int) (h0 : 0 ≤ i) (h8 : i < 8) :
    printf_pole c (i + 1) = [' ', c, Nat.digitChar (i + 1).toNat] := by
  interval_cases i <;> rfl

theorem pokaz_startowa (plansza : Plansza) :
    pokaz_mozliwe_ruchy (inicjalizuj_plansze plansza) 0 = [(3, 2), (2, 3), (5, 4), (4, 5)] := by
  rw [pokaz_kongr plansza_startowa (inicjalizuj_plansze plansza) 0
    (inicjalizuj_plansze_spec plansza)]
  decide

theorem obieg_wyjscie (s : Stan) :
    (obieg s).wyjscie =
      s.wyjscie ++ ([gracze.getD s.tura.toNat ' '] ++
        (pokaz_mozliwe_ruchy s.plansza s.tura).flatMap
          (fun c => printf_pole (symbol_kolumny c.2) (c.1 + 1)) ++ ['\n']) := by
  simp only [obieg, pokaz_mozliwe_ruchy_wyjscie_eq, List.append_assoc]

/-- The cast `(char) x` gives back the character whose code `getchar` returned. -/
theorem na_char_kod (c : Char) : na_char (c.toNat : Int) = c := by
  simp [na_char]

/-! ## The checked functions agree with the source functions -/

theorem dopoki_kontr_wynik {σ : Type} (wK : σ → Option Bool) (cK : σ → Option σ)
    (w : σ → Bool) (c : σ → σ) (Inv : σ → Prop) (μ : σ → Nat)
    (hw : ∀ s, Inv s → wK s = some (w s))
    (hc : ∀ s, Inv s → w s = true → cK s = some (c s) ∧ Inv (c s) ∧ μ (c s) < μ s) :
    ∀ (n m : Nat) (s : σ), Inv s → μ s ≤ n → μ s ≤ m →
      dopoki_kontr wK cK n s = some (dopoki w c m s) ∧ Inv (dopoki w c m s) := by
  intro n
  induction n with
  | zero =>
    intro m s hs hn _
    have hws : w s = false := by
      by_contra h
      have := (hc s hs (by simpa using h)).2.2
      omega
    have hd : dopoki w c m s = s := by
      cases m with
      | zero => rfl
      | succ m => simp [dopoki, hws]
    rw [hd]
    exact ⟨by simp [dopoki_kontr, hw s hs, hws], hs⟩
  | succ n ih =>
    intro m s hs hn hm
    by_cases hws : w s = true
    · obtain ⟨h1, h2, h3⟩ := hc s hs hws
      obtain ⟨m, rfl⟩ : ∃ k, m = k + 1 := ⟨m - 1, by omega⟩
      have := ih m (c s) h2 (by omega) (by omega)
      simp only [dopoki_kontr, hw s hs, hws, dopoki, if_true, Option.some_bind, h1]
      exact this
    · have hws' : w s = false := by simpa using hws
      have hd : dopoki w c m s = s := by
        cases m with
        | zero => rfl
        | succ m => simp [dopoki, hws']
      rw [hd]
      exact ⟨by simp [dopoki_kontr, hw s hs, hws'], hs⟩

theorem i_wtedy_por (a : Prop) [Decidable a] (p : Plansza) (y x v : Int)
    (h : a → naPlanszy y x) :
    i_wtedy (decide a) (por p y x v) = some (decide (a ∧ p y x = v)) := by
  by_cases ha : a
  · simp [i_wtedy, por, czytaj, ha, h ha]
  · simp [i_wtedy, ha]

theorem i_wtedy_por2 (a b : Prop) [Decidable a] [Decidable b] (p : Plansza) (y x v : Int)
    (h : a → b → naPlanszy y x) :
    i_wtedy (decide (a ∧ b)) (por p y x v) = some (decide (a ∧ b ∧ p y x = v)) := by
  by_cases ha : a ∧ b
  · simp [i_wtedy, por, czytaj, ha, h ha.1 ha.2]
  · have : ¬(a ∧ b ∧ p y x = v) := fun hh => ha ⟨hh.1, hh.2.1⟩
    simp [i_wtedy, ha, this]

theorem kontr_jesli (A B : Prop) [Decidable A] [Decidable B] :
    (if decide A = true then if decide B = true then some true else some false
      else some false) =
      some (if A then if B then true else false else false) := by
  by_cases hA : A <;> by_cases hB : B <;> simp [hA, hB]

theorem sprawdz_pion_w_gore_kontr_eq (w k g : Int) (p : Plansza) (hw : 0 ≤ w ∧ w < 8)
    (hk : 0 ≤ k ∧ k < 8) :
    sprawdz_pion_w_gore_kontr 7 w k g p = some (sprawdz_pion_w_gore w k g p) := by
  have hg : ∀ (y v : Int), y < 8 →
      i_wtedy (decide (y ≥ 0)) (por p y k v) =
        some (decide (y ≥ 0 ∧ p y k = v)) :=
    fun y v hy => i_wtedy_por _ p _ _ v (fun h => by unfold naPlanszy; omega)
  obtain ⟨h1, h2⟩ := dopoki_kontr_wynik
    (fun y => i_wtedy (decide (y ≥ 0)) (por p y k (1 - g)))
    (fun y => some (y - 1))
    (fun y => decide (y ≥ 0 ∧ p y k = 1 - g)) (fun y => y - 1)
    (fun y => y < 8) (fun y => (y + 1).toNat)
    (fun y hy => hg y _ hy)
    (fun y hy hwy => by
      simp only [decide_eq_true_eq] at hwy
      refine ⟨rfl, ?_, ?_⟩
      · show (y - 1) < 8
        omega
      · show ((y - 1) + 1).toNat < (y + 1).toNat
        omega)
    7 ((w - 1) + 1).toNat (w - 1) (by show (w - 1) < 8; omega)
    (by show ((w - 1) + 1).toNat ≤ 7; omega) (le_refl _)
  simp only [sprawdz_pion_w_gore_kontr, sprawdz_pion_w_gore, Option.bind_eq_bind,
    Option.pure_def, hg (w - 1) _ (by omega), h1, hg _ _ h2, Option.some_bind]
  exact kontr_jesli _ _

theorem zmien_pion_w_gore_kontr_eq (w k g : Int) (p : Plansza) (hw : 0 ≤ w ∧ w < 8)
    (hk : 0 ≤ k ∧ k < 8) :
    zmien_pion_w_gore_kontr 7 w k g p = some (zmien_pion_w_gore w k g p) := by
  obtain ⟨h1, _⟩ := dopoki_kontr_wynik
    (fun s : Int × Plansza => i_wtedy (decide (s.1 ≥ 0)) (por s.2 s.1 k (1 - g)))
    (fun s => do
      let plansza ← zapisz s.2 s.1 k g
      return (s.1 - 1, plansza))
    (fun s : Int × Plansza => decide (s.1 ≥ 0 ∧ s.2 s.1 k = 1 - g))
    (fun s => (s.1 - 1, ustaw s.2 s.1 k g))
    (fun s => s.1 < 8) (fun s => (s.1 + 1).toNat)
    (fun s hs => i_wtedy_por _ s.2 _ _ _ (fun h => by
      dsimp only at hs
      unfold naPlanszy; omega))
    (fun s hs hws => by
      simp only [decide_eq_true_eq] at hws
      dsimp only at hs
      have hn : naPlanszy s.1 k := by unfold naPlanszy; omega
      refine ⟨by simp [zapisz, hn], ?_, ?_⟩
      · show (s.1 - 1) < 8
        omega
      · show ((s.1 - 1) + 1).toNat < (s.1 + 1).toNat
        omega)
    7 ((w - 1) + 1).toNat ((w - 1), p) (by show (w - 1) < 8; omega)
    (by show ((w - 1) + 1).toNat ≤ 7; omega) (le_refl _)
  simp only [zmien_pion_w_gore_kontr, zmien_pion_w_gore, Option.bind_eq_bind,
    Option.pure_def] at h1 ⊢
  rw [h1]
  rfl

theorem sprawdz_pion_w_dol_kontr_eq (w k g : Int) (p : Plansza) (hw : 0 ≤ w ∧ w < 8)
    (hk : 0 ≤ k ∧ k < 8) :
    sprawdz_pion_w_dol_kontr 7 w k g p = some (sprawdz_pion_w_dol w k g p) := by
  have hg : ∀ (y v : Int), 0 ≤ y →
      i_wtedy (decide (y < 8)) (por p y k v) =
        some (decide (y < 8 ∧ p y k = v)) :=
    fun y v hy => i_wtedy_por _ p _ _ v (fun h => by unfold naPlanszy; omega)
  obtain ⟨h1, h2⟩ := dopoki_kontr_wynik
    (fun y => i_wtedy (decide (y < 8)) (por p y k (1 - g)))
    (fun y => some (y + 1))
    (fun y => decide (y < 8 ∧ p y k = 1 - g)) (fun y => y + 1)
    (fun y => 0 ≤ y) (fun y => (8 - y).toNat)
    (fun y hy => hg y _ hy)
    (fun y hy hwy => by
      simp only [decide_eq_true_eq] at hwy
      refine ⟨rfl, ?_, ?_⟩
      · show 0 ≤ (y + 1)
        omega
      · show (8 - (y + 1)).toNat < (8 - y).toNat
        omega)
    7 (8 - (w + 1)).toNat (w + 1) (by show 0 ≤ (w + 1); omega)
    (by show (8 - (w + 1)).toNat ≤ 7; omega) (le_refl _)
  simp only [sprawdz_pion_w_dol_kontr, sprawdz_pion_w_dol, Option.bind_eq_bind,
    Option.pure_def, hg (w + 1) _ (by omega), h1, hg _ _ h2, Option.some_bind]
  exact kontr_jesli _ _

theorem zmien_pion_w_dol_kontr_eq (w k g : Int) (p : Plansza) (hw : 0 ≤ w ∧ w < 8)
    (hk : 0 ≤ k ∧ k < 8) :
    zmien_pion_w_dol_kontr 7 w k g p = some (zmien_pion_w_dol w k g p) := by
  obtain ⟨h1, _⟩ := dopoki_kontr_wynik
    (fun s : Int × Plansza => i_wtedy (decide (s.1 < 8)) (por s.2 s.1 k (1 - g)))
    (fun s => do
      let plansza ← zapisz s.2 s.1 k g
      return (s.1 + 1, plansza))
    (fun s : Int × Plansza => decide (s.1 < 8 ∧ s.2 s.1 k = 1 - g))
    (fun s => (s.1 + 1, ustaw s.2 s.1 k g))
    (fun s => 0 ≤ s.1) (fun s => (8 - s.1).toNat)
    (fun s hs => i_wtedy_por _ s.2 _ _ _ (fun h => by
      dsimp only at hs
      unfold naPlanszy; omega))
    (fun s hs hws => by
      simp only [decide_eq_true_eq] at hws
      dsimp only at hs
      have hn : naPlanszy s.1 k := by unfold naPlanszy; omega
      refine ⟨by simp [zapisz, hn], ?_, ?_⟩
      · show 0 ≤ (s.1 + 1)
        omega
      · show (8 - (s.1 + 1)).toNat < (8 - s.1).toNat
        omega)
    7 (8 - (w + 1)).toNat ((w + 1), p) (by show 0 ≤ (w + 1); omega)
    (by show (8 - (w + 1)).toNat ≤ 7; omega) (le_refl _)
  simp only [zmien_pion_w_dol_kontr, zmien_pion_w_dol, Option.bind_eq_bind,
    Option.pure_def] at h1 ⊢
  rw [h1]
  rfl

theorem sprawdz_poziom_w_prawo_kontr_eq (w k g : Int) (p : Plansza) (hw : 0 ≤ w ∧ w < 8)
    (hk : 0 ≤ k ∧ k < 8) :
    sprawdz_poziom_w_prawo_kontr 7 w k g p = some (sprawdz_poziom_w_prawo w k g p) := by
  have hg : ∀ (x v : Int), 0 ≤ x →
      i_wtedy (decide (x < 8)) (por p w x v) =
        some (decide (x < 8 ∧ p w x = v)) :=
    fun x v hy => i_wtedy_por _ p _ _ v (fun h => by unfold naPlanszy; omega)
  obtain ⟨h1, h2⟩ := dopoki_kontr_wynik
    (fun x => i_wtedy (decide (x < 8)) (por p w x (1 - g)))
    (fun x => some (x + 1))
    (fun x => decide (x < 8 ∧ p w x = 1 - g)) (fun x => x + 1)
    (fun x => 0 ≤ x) (fun x => (8 - x).toNat)
    (fun x hy => hg x _ hy)
    (fun x hy hwy => by
      simp only [decide_eq_true_eq] at hwy
      refine ⟨rfl, ?_, ?_⟩
      · show 0 ≤ (x + 1)
        omega
      · show (8 - (x + 1)).toNat < (8 - x).toNat
        omega)
    7 (8 - (k + 1)).toNat (k + 1) (by show 0 ≤ (k + 1); omega)
    (by show (8 - (k + 1)).toNat ≤ 7; omega) (le_refl _)
  simp only [sprawdz_poziom_w_prawo_kontr, sprawdz_poziom_w_prawo, Option.bind_eq_bind,
    Option.pure_def, hg (k + 1) _ (by omega), h1, hg _ _ h2, Option.some_bind]
  exact kontr_jesli _ _

theorem zmien_poziom_w_prawo_kontr_eq (w k g : Int) (p : Plansza) (hw : 0 ≤ w ∧ w < 8)
    (hk : 0 ≤ k ∧ k < 8) :
    zmien_poziom_w_prawo_kontr 7 w k g p = some (zmien_poziom_w_prawo w k g p) := by
  obtain ⟨h1, _⟩ := dopoki_kontr_wynik
    (fun s : Int × Plansza => i_wtedy (decide (s.1 < 8)) (por s.2 w s.1 (1 - g)))
    (fun s => do
      let plansza ← zapisz s.2 w s.1 g
      return (s.1 + 1, plansza))
    (fun s : Int × Plansza => decide (s.1 < 8 ∧ s.2 w s.1 = 1 - g))
    (fun s => (s.1 + 1, ustaw s.2 w s.1 g))
    (fun s => 0 ≤ s.1) (fun s => (8 - s.1).toNat)
    (fun s hs => i_wtedy_por _ s.2 _ _ _ (fun h => by
      dsimp only at hs
      unfold naPlanszy; omega))
    (fun s hs hws => by
      simp only [decide_eq_true_eq] at hws
      dsimp only at hs
      have hn : naPlanszy w s.1 := by unfold naPlanszy; omega
      refine ⟨by simp [zapisz, hn], ?_, ?_⟩
      · show 0 ≤ (s.1 + 1)
        omega
      · show (8 - (s.1 + 1)).toNat < (8 - s.1).toNat
        omega)
    7 (8 - (k + 1)).toNat ((k + 1), p) (by show 0 ≤ (k + 1); omega)
    (by show (8 - (k + 1)).toNat ≤ 7; omega) (le_refl _)
  simp only [zmien_poziom_w_prawo_kontr, zmien_poziom_w_prawo, Option.bind_eq_bind,
    Option.pure_def] at h1 ⊢
  rw [h1]
  rfl

theorem sprawdz_poziom_w_lewo_kontr_eq (w k g : Int) (p : Plansza) (hw : 0 ≤ w ∧ w < 8)
    (hk : 0 ≤ k ∧ k < 8) :
    sprawdz_poziom_w_lewo_kontr 7 w k g p = some (sprawdz_poziom_w_lewo w k g p) := by
  have hg : ∀ (x v : Int), x < 8 →
      i_wtedy (decide (x ≥ 0)) (por p w x v) =
        some (decide (x ≥ 0 ∧ p w x = v)) :=
    fun x v hy => i_wtedy_por _ p _ _ v (fun h => by unfold naPlanszy; omega)
  obtain ⟨h1, h2⟩ := dopoki_kontr_wynik
    (fun x => i_wtedy (decide (x ≥ 0)) (por p w x (1 - g)))
    (fun x => some (x - 1))
    (fun x => decide (x ≥ 0 ∧ p w x = 1 - g)) (fun x => x - 1)
    (fun x => x < 8) (fun x => (x + 1).toNat)
    (fun x hy => hg x _ hy)
    (fun x hy hwy => by
      simp only [decide_eq_true_eq] at hwy
      refine ⟨rfl, ?_, ?_⟩
      · show (x - 1) < 8
        omega
      · show ((x - 1) + 1).toNat < (x + 1).toNat
        omega)
    7 ((k - 1) + 1).toNat (k - 1) (by show (k - 1) < 8; omega)
    (by show ((k - 1) + 1).toNat ≤ 7; omega) (le_refl _)
  simp only [sprawdz_poziom_w_lewo_kontr, sprawdz_poziom_w_lewo, Option.bind_eq_bind,
    Option.pure_def, hg (k - 1) _ (by omega), h1, hg _ _ h2, Option.some_bind]
  exact kontr_jesli _ _

theorem zmien_poziom_w_lewo_kontr_eq (w k g : Int) (p : Plansza) (hw : 0 ≤ w ∧ w < 8)
    (hk : 0 ≤ k ∧ k < 8) :
    zmien_poziom_w_lewo_kontr 7 w k g p = some (zmien_poziom_w_lewo w k g p) := by
  obtain ⟨h1, _⟩ := dopoki_kontr_wynik
    (fun s : Int × Plansza => i_wtedy (decide (s.1 ≥ 0)) (por s.2 w s.1 (1 - g)))
    (fun s => do
      let plansza ← zapisz s.2 w s.1 g
      return (s.1 - 1, plansza))
    (fun s : Int × Plansza => decide (s.1 ≥ 0 ∧ s.2 w s.1 = 1 - g))
    (fun s => (s.1 - 1, ustaw s.2 w s.1 g))
    (fun s => s.1 < 8) (fun s => (s.1 + 1).toNat)
    (fun s hs => i_wtedy_por _ s.2 _ _ _ (fun h => by
      dsimp only at hs
      unfold naPlanszy; omega))
    (fun s hs hws => by
      simp only [decide_eq_true_eq] at hws
      dsimp only at hs
      have hn : naPlanszy w s.1 := by unfold naPlanszy; omega
      refine ⟨by simp [zapisz, hn], ?_, ?_⟩
      · show (s.1 - 1) < 8
        omega
      · show ((s.1 - 1) + 1).toNat < (s.1 + 1).toNat
        omega)
    7 ((k - 1) + 1).toNat ((k - 1), p) (by show (k - 1) < 8; omega)
    (by show ((k - 1) + 1).toNat ≤ 7; omega) (le_refl _)
  simp only [zmien_poziom_w_lewo_kontr, zmien_poziom_w_lewo, Option.bind_eq_bind,
    Option.pure_def] at h1 ⊢
  rw [h1]
  rfl

theorem sprawdz_skos_w_prawo_w_gore_kontr_eq (w k g : Int) (p : Plansza) (hw : 0 ≤ w ∧ w < 8)
    (hk : 0 ≤ k ∧ k < 8) :
    sprawdz_skos_w_prawo_w_gore_kontr 7 w k g p = some (sprawdz_skos_w_prawo_w_gore w k g p) := by
  have hgxy : ∀ (x y v : Int), 0 ≤ x → y < 8 →
      i_wtedy (decide (x < 8 ∧ y ≥ 0)) (por p y x v) =
        some (decide (x < 8 ∧ y ≥ 0 ∧ p y x = v)) :=
    fun x y v hx hy => i_wtedy_por2 _ _ p _ _ v (fun h1 h2 => by unfold naPlanszy; omega)
  obtain ⟨h1, h2⟩ := dopoki_kontr_wynik
    (fun s : Int × Int => i_wtedy (decide (s.1 < 8 ∧ s.2 ≥ 0)) (por p s.2 s.1 (1 - g)))
    (fun s => some (s.1 + 1, s.2 - 1))
    (fun s : Int × Int => decide (s.1 < 8 ∧ s.2 ≥ 0 ∧ p s.2 s.1 = 1 - g))
    (fun s => (s.1 + 1, s.2 - 1))
    (fun s => 0 ≤ s.1 ∧ s.2 < 8) (fun s => (8 - s.1).toNat)
    (fun s hs => hgxy s.1 s.2 _ hs.1 hs.2)
    (fun s hs hws => by
      simp only [decide_eq_true_eq] at hws
      dsimp only at hs
      refine ⟨rfl, ?_, ?_⟩
      · show 0 ≤ (s.1 + 1) ∧ (s.2 - 1) < 8
        omega
      · show (8 - (s.1 + 1)).toNat < (8 - s.1).toNat
        omega)
    7 (8 - (k + 1)).toNat ((k + 1), (w - 1)) (by show 0 ≤ (k + 1) ∧ (w - 1) < 8; omega)
    (by show (8 - (k + 1)).toNat ≤ 7; omega) (le_refl _)
  simp only [sprawdz_skos_w_prawo_w_gore_kontr, sprawdz_skos_w_prawo_w_gore, Option.bind_eq_bind,
    Option.pure_def, hgxy (k + 1) (w - 1) _ (by omega) (by omega), h1, hgxy _ _ _ h2.1 h2.2,
    Option.some_bind]
  exact kontr_jesli _ _

theorem zmien_skos_w_prawo_w_gore_kontr_eq (w k g : Int) (p : Plansza) (hw : 0 ≤ w ∧ w < 8)
    (hk : 0 ≤ k ∧ k < 8) :
    zmien_skos_w_prawo_w_gore_kontr 7 w k g p = some (zmien_skos_w_prawo_w_gore w k g p) := by
  obtain ⟨h1, _⟩ := dopoki_kontr_wynik
    (fun s : Int × Int × Plansza =>
      i_wtedy (decide (s.1 < 8 ∧ s.2.1 ≥ 0)) (por s.2.2 s.2.1 s.1 (1 - g)))
    (fun s => do
      let plansza ← zapisz s.2.2 s.2.1 s.1 g
      return (s.1 + 1, s.2.1 - 1, plansza))
    (fun s : Int × Int × Plansza =>
      decide (s.1 < 8 ∧ s.2.1 ≥ 0 ∧ s.2.2 s.2.1 s.1 = 1 - g))
    (fun s => (s.1 + 1, s.2.1 - 1, ustaw s.2.2 s.2.1 s.1 g))
    (fun s => 0 ≤ s.1 ∧ s.2.1 < 8) (fun s => (8 - s.1).toNat)
    (fun s hs => i_wtedy_por2 _ _ s.2.2 _ _ _ (fun h1 h2 => by
      dsimp only at hs
      unfold naPlanszy; omega))
    (fun s hs hws => by
      simp only [decide_eq_true_eq] at hws
      dsimp only at hs
      have hn : naPlanszy s.2.1 s.1 := by unfold naPlanszy; omega
      refine ⟨by simp [zapisz, hn], ?_, ?_⟩
      · show 0 ≤ (s.1 + 1) ∧ (s.2.1 - 1) < 8
        omega
      · show (8 - (s.1 + 1)).toNat < (8 - s.1).toNat
        omega)
    7 (8 - (k + 1)).toNat ((k + 1), (w - 1), p) (by show 0 ≤ (k + 1) ∧ (w - 1) < 8; omega)
    (by show (8 - (k + 1)).toNat ≤ 7; omega) (le_refl _)
  simp only [zmien_skos_w_prawo_w_gore_kontr, zmien_skos_w_prawo_w_gore, Option.bind_eq_bind,
    Option.pure_def] at h1 ⊢
  rw [h1]
  rfl

theorem sprawdz_skos_w_lewo_w_gore_kontr_eq (w k g : Int) (p : Plansza) (hw : 0 ≤ w ∧ w < 8)
    (hk : 0 ≤ k ∧ k < 8) :
    sprawdz_skos_w_lewo_w_gore_kontr 7 w k g p = some (sprawdz_skos_w_lewo_w_gore w k g p) := by
  have hgxy : ∀ (x y v : Int), x < 8 → y < 8 →
      i_wtedy (decide (x ≥ 0 ∧ y ≥ 0)) (por p y x v) =
        some (decide (x ≥ 0 ∧ y ≥ 0 ∧ p y x = v)) :=
    fun x y v hx hy => i_wtedy_por2 _ _ p _ _ v (fun h1 h2 => by unfold naPlanszy; omega)
  have hgyx : ∀ (x y v : Int), x < 8 → y < 8 →
      i_wtedy (decide (y ≥ 0 ∧ x ≥ 0)) (por p y x v) =
        some (decide (y ≥ 0 ∧ x ≥ 0 ∧ p y x = v)) :=
    fun x y v hx hy => i_wtedy_por2 _ _ p _ _ v (fun h1 h2 => by unfold naPlanszy; omega)
  obtain ⟨h1, h2⟩ := dopoki_kontr_wynik
    (fun s : Int × Int => i_wtedy (decide (s.2 ≥ 0 ∧ s.1 ≥ 0)) (por p s.2 s.1 (1 - g)))
    (fun s => some (s.1 - 1, s.2 - 1))
    (fun s : Int × Int => decide (s.2 ≥ 0 ∧ s.1 ≥ 0 ∧ p s.2 s.1 = 1 - g))
    (fun s => (s.1 - 1, s.2 - 1))
    (fun s => s.1 < 8 ∧ s.2 < 8) (fun s => (s.1 + 1).toNat)
    (fun s hs => hgyx s.1 s.2 _ hs.1 hs.2)
    (fun s hs hws => by
      simp only [decide_eq_true_eq] at hws
      dsimp only at hs
      refine ⟨rfl, ?_, ?_⟩
      · show (s.1 - 1) < 8 ∧ (s.2 - 1) < 8
        omega
      · show ((s.1 - 1) + 1).toNat < (s.1 + 1).toNat
        omega)
    7 ((k - 1) + 1).toNat ((k - 1), (w - 1)) (by show (k - 1) < 8 ∧ (w - 1) < 8; omega)
    (by show ((k - 1) + 1).toNat ≤ 7; omega) (le_refl _)
  simp only [sprawdz_skos_w_lewo_w_gore_kontr, sprawdz_skos_w_lewo_w_gore, Option.bind_eq_bind,
    Option.pure_def, hgxy (k - 1) (w - 1) _ (by omega) (by omega), h1, hgyx _ _ _ h2.1 h2.2,
    Option.some_bind]
  exact kontr_jesli _ _

theorem zmien_skos_w_lewo_w_gore_kontr_eq (w k g : Int) (p : Plansza) (hw : 0 ≤ w ∧ w < 8)
    (hk : 0 ≤ k ∧ k < 8) :
    zmien_skos_w_lewo_w_gore_kontr 7 w k g p = some (zmien_skos_w_lewo_w_gore w k g p) := by
  obtain ⟨h1, _⟩ := dopoki_kontr_wynik
    (fun s : Int × Int × Plansza =>
      i_wtedy (decide (s.1 ≥ 0 ∧ s.2.1 ≥ 0)) (por s.2.2 s.2.1 s.1 (1 - g)))
    (fun s => do
      let plansza ← zapisz s.2.2 s.2.1 s.1 g
      return (s.1 - 1, s.2.1 - 1, plansza))
    (fun s : Int × Int × Plansza =>
      decide (s.1 ≥ 0 ∧ s.2.1 ≥ 0 ∧ s.2.2 s.2.1 s.1 = 1 - g))
    (fun s => (s.1 - 1, s.2.1 - 1, ustaw s.2.2 s.2.1 s.1 g))
    (fun s => s.1 < 8 ∧ s.2.1 < 8) (fun s => (s.1 + 1).toNat)
    (fun s hs => i_wtedy_por2 _ _ s.2.2 _ _ _ (fun h1 h2 => by
      dsimp only at hs
      unfold naPlanszy; omega))
    (fun s hs hws => by
      simp only [decide_eq_true_eq] at hws
      dsimp only at hs
      have hn : naPlanszy s.2.1 s.1 := by unfold naPlanszy; omega
      refine ⟨by simp [zapisz, hn], ?_, ?_⟩
      · show (s.1 - 1) < 8 ∧ (s.2.1 - 1) < 8
        omega
      · show ((s.1 - 1) + 1).toNat < (s.1 + 1).toNat
        omega)
    7 ((k - 1) + 1).toNat ((k - 1), (w - 1), p) (by show (k - 1) < 8 ∧ (w - 1) < 8; omega)
    (by show ((k - 1) + 1).toNat ≤ 7; omega) (le_refl _)
  simp only [zmien_skos_w_lewo_w_gore_kontr, zmien_skos_w_lewo_w_gore, Option.bind_eq_bind,
    Option.pure_def] at h1 ⊢
  rw [h1]
  rfl

theorem sprawdz_skos_w_lewo_w_dol_kontr_eq (w k g : Int) (p : Plansza) (hw : 0 ≤ w ∧ w < 8)
    (hk : 0 ≤ k ∧ k < 8) :
    sprawdz_skos_w_lewo_w_dol_kontr 7 w k g p = some (sprawdz_skos_w_lewo_w_dol w k g p) := by
  have hgxy : ∀ (x y v : Int), x < 8 → 0 ≤ y →
      i_wtedy (decide (x ≥ 0 ∧ y < 8)) (por p y x v) =
        some (decide (x ≥ 0 ∧ y < 8 ∧ p y x = v)) :=
    fun x y v hx hy => i_wtedy_por2 _ _ p _ _ v (fun h1 h2 => by unfold naPlanszy; omega)
  obtain ⟨h1, h2⟩ := dopoki_kontr_wynik
    (fun s : Int × Int => i_wtedy (decide (s.1 ≥ 0 ∧ s.2 < 8)) (por p s.2 s.1 (1 - g)))
    (fun s => some (s.1 - 1, s.2 + 1))
    (fun s : Int × Int => decide (s.1 ≥ 0 ∧ s.2 < 8 ∧ p s.2 s.1 = 1 - g))
    (fun s => (s.1 - 1, s.2 + 1))
    (fun s => s.1 < 8 ∧ 0 ≤ s.2) (fun s => (s.1 + 1).toNat)
    (fun s hs => hgxy s.1 s.2 _ hs.1 hs.2)
    (fun s hs hws => by
      simp only [decide_eq_true_eq] at hws
      dsimp only at hs
      refine ⟨rfl, ?_, ?_⟩
      · show (s.1 - 1) < 8 ∧ 0 ≤ (s.2 + 1)
        omega
      · show ((s.1 - 1) + 1).toNat < (s.1 + 1).toNat
        omega)
    7 ((k - 1) + 1).toNat ((k - 1), (w + 1)) (by show (k - 1) < 8 ∧ 0 ≤ (w + 1); omega)
    (by show ((k - 1) + 1).toNat ≤ 7; omega) (le_refl _)
  simp only [sprawdz_skos_w_lewo_w_dol_kontr, sprawdz_skos_w_lewo_w_dol, Option.bind_eq_bind,
    Option.pure_def, hgxy (k - 1) (w + 1) _ (by omega) (by omega), h1, hgxy _ _ _ h2.1 h2.2,
    Option.some_bind]
  exact kontr_jesli _ _

theorem zmien_skos_w_lewo_w_dol_kontr_eq (w k g : Int) (p : Plansza) (hw : 0 ≤ w ∧ w < 8)
    (hk : 0 ≤ k ∧ k < 8) :
    zmien_skos_w_lewo_w_dol_kontr 7 w k g p = some (zmien_skos_w_lewo_w_dol w k g p) := by
  obtain ⟨h1, _⟩ := dopoki_kontr_wynik
    (fun s : Int × Int × Plansza =>
      i_wtedy (decide (s.1 ≥ 0 ∧ s.2.1 < 8)) (por s.2.2 s.2.1 s.1 (1 - g)))
    (fun s => do
      let plansza ← zapisz s.2.2 s.2.1 s.1 g
      return (s.1 - 1, s.2.1 + 1, plansza))
    (fun s : Int × Int × Plansza =>
      decide (s.1 ≥ 0 ∧ s.2.1 < 8 ∧ s.2.2 s.2.1 s.1 = 1 - g))
    (fun s => (s.1 - 1, s.2.1 + 1, ustaw s.2.2 s.2.1 s.1 g))
    (fun s => s.1 < 8 ∧ 0 ≤ s.2.1) (fun s => (s.1 + 1).toNat)
    (fun s hs => i_wtedy_por2 _ _ s.2.2 _ _ _ (fun h1 h2 => by
      dsimp only at hs
      unfold naPlanszy; omega))
    (fun s hs hws => by
      simp only [decide_eq_true_eq] at hws
      dsimp only at hs
      have hn : naPlanszy s.2.1 s.1 := by unfold naPlanszy; omega
      refine ⟨by simp [zapisz, hn], ?_, ?_⟩
      · show (s.1 - 1) < 8 ∧ 0 ≤ (s.2.1 + 1)
        omega
      · show ((s.1 - 1) + 1).toNat < (s.1 + 1).toNat
        omega)
    7 ((k - 1) + 1).toNat ((k - 1), (w + 1), p) (by show (k - 1) < 8 ∧ 0 ≤ (w + 1); omega)
    (by show ((k - 1) + 1).toNat ≤ 7; omega) (le_refl _)
  simp only [zmien_skos_w_lewo_w_dol_kontr, zmien_skos_w_lewo_w_dol, Option.bind_eq_bind,
    Option.pure_def] at h1 ⊢
  rw [h1]
  rfl

theorem sprawdz_skos_w_prawo_w_dol_kontr_eq (w k g : Int) (p : Plansza) (hw : 0 ≤ w ∧ w < 8)
    (hk : 0 ≤ k ∧ k < 8) :
    sprawdz_skos_w_prawo_w_dol_kontr 7 w k g p = some (sprawdz_skos_w_prawo_w_dol w k g p) := by
  have hgxy : ∀ (x y v : Int), 0 ≤ x → 0 ≤ y →
      i_wtedy (decide (x < 8 ∧ y < 8)) (por p y x v) =
        some (decide (x < 8 ∧ y < 8 ∧ p y x = v)) :=
    fun x y v hx hy => i_wtedy_por2 _ _ p _ _ v (fun h1 h2 => by unfold naPlanszy; omega)
  have hgyx : ∀ (x y v : Int), 0 ≤ x → 0 ≤ y →
      i_wtedy (decide (y < 8 ∧ x < 8)) (por p y x v) =
        some (decide (y < 8 ∧ x < 8 ∧ p y x = v)) :=
    fun x y v hx hy => i_wtedy_por2 _ _ p _ _ v (fun h1 h2 => by unfold naPlanszy; omega)
  obtain ⟨h1, h2⟩ := dopoki_kontr_wynik
    (fun s : Int × Int => i_wtedy (decide (s.1 < 8 ∧ s.2 < 8)) (por p s.2 s.1 (1 - g)))
    (fun s => some (s.1 + 1, s.2 + 1))
    (fun s : Int × Int => decide (s.1 < 8 ∧ s.2 < 8 ∧ p s.2 s.1 = 1 - g))
    (fun s => (s.1 + 1, s.2 + 1))
    (fun s => 0 ≤ s.1 ∧ 0 ≤ s.2) (fun s => (8 - s.1).toNat)
    (fun s hs => hgxy s.1 s.2 _ hs.1 hs.2)
    (fun s hs hws => by
      simp only [decide_eq_true_eq] at hws
      dsimp only at hs
      refine ⟨rfl, ?_, ?_⟩
      · show 0 ≤ (s.1 + 1) ∧ 0 ≤ (s.2 + 1)
        omega
      · show (8 - (s.1 + 1)).toNat < (8 - s.1).toNat
        omega)
    7 (8 - (k + 1)).toNat ((k + 1), (w + 1)) (by show 0 ≤ (k + 1) ∧ 0 ≤ (w + 1); omega)
    (by show (8 - (k + 1)).toNat ≤ 7; omega) (le_refl _)
  simp only [sprawdz_skos_w_prawo_w_dol_kontr, sprawdz_skos_w_prawo_w_dol, Option.bind_eq_bind,
    Option.pure_def, hgxy (k + 1) (w + 1) _ (by omega) (by omega), h1, hgyx _ _ _ h2.1 h2.2,
    Option.some_bind]
  exact kontr_jesli _ _

theorem zmien_skos_w_prawo_w_dol_kontr_eq (w k g : Int) (p : Plansza) (hw : 0 ≤ w ∧ w < 8)
    (hk : 0 ≤ k ∧ k < 8) :
    zmien_skos_w_prawo_w_dol_kontr 7 w k g p = some (zmien_skos_w_prawo_w_dol w k g p) := by
  obtain ⟨h1, _⟩ := dopoki_kontr_wynik
    (fun s : Int × Int × Plansza =>
      i_wtedy (decide (s.1 < 8 ∧ s.2.1 < 8)) (por s.2.2 s.2.1 s.1 (1 - g)))
    (fun s => do
      let plansza ← zapisz s.2.2 s.2.1 s.1 g
      return (s.1 + 1, s.2.1 + 1, plansza))
    (fun s : Int × Int × Plansza =>
      decide (s.1 < 8 ∧ s.2.1 < 8 ∧ s.2.2 s.2.1 s.1 = 1 - g))
    (fun s => (s.1 + 1, s.2.1 + 1, ustaw s.2.2 s.2.1 s.1 g))
    (fun s => 0 ≤ s.1 ∧ 0 ≤ s.2.1) (fun s => (8 - s.1).toNat)
    (fun s hs => i_wtedy_por2 _ _ s.2.2 _ _ _ (fun h1 h2 => by
      dsimp only at hs
      unfold naPlanszy; omega))
    (fun s hs hws => by
      simp only [decide_eq_true_eq] at hws
      dsimp only at hs
      have hn : naPlanszy s.2.1 s.1 := by unfold naPlanszy; omega
      refine ⟨by simp [zapisz, hn], ?_, ?_⟩
      · show 0 ≤ (s.1 + 1) ∧ 0 ≤ (s.2.1 + 1)
        omega
      · show (8 - (s.1 + 1)).toNat < (8 - s.1).toNat
        omega)
    7 (8 - (k + 1)).toNat ((k + 1), (w + 1), p) (by show 0 ≤ (k + 1) ∧ 0 ≤ (w + 1); omega)
    (by show (8 - (k + 1)).toNat ≤ 7; omega) (le_refl _)
  simp only [zmien_skos_w_prawo_w_dol_kontr, zmien_skos_w_prawo_w_dol, Option.bind_eq_bind,
    Option.pure_def] at h1 ⊢
  rw [h1]
  rfl

theorem sprawdz_kontr_eq (d : Kierunek) (w k g : Int) (p : Plansza) (hw : 0 ≤ w ∧ w < 8)
    (hk : 0 ≤ k ∧ k < 8) : sprawdz_kontr 7 d w k g p = some (sprawdz d w k g p) := by
  cases d
  · exact sprawdz_pion_w_gore_kontr_eq w k g p hw hk
  · exact sprawdz_pion_w_dol_kontr_eq w k g p hw hk
  · exact sprawdz_poziom_w_prawo_kontr_eq w k g p hw hk
  · exact sprawdz_poziom_w_lewo_kontr_eq w k g p hw hk
  · exact sprawdz_skos_w_prawo_w_gore_kontr_eq w k g p hw hk
  · exact sprawdz_skos_w_lewo_w_gore_kontr_eq w k g p hw hk
  · exact sprawdz_skos_w_lewo_w_dol_kontr_eq w k g p hw hk
  · exact sprawdz_skos_w_prawo_w_dol_kontr_eq w k g p hw hk

theorem zmien_kontr_eq (d : Kierunek) (w k g : Int) (p : Plansza) (hw : 0 ≤ w ∧ w < 8)
    (hk : 0 ≤ k ∧ k < 8) : zmien_kontr 7 d w k g p = some (zmien d w k g p) := by
  cases d
  · exact zmien_pion_w_gore_kontr_eq w k g p hw hk
  · exact zmien_pion_w_dol_kontr_eq w k g p hw hk
  · exact zmien_poziom_w_prawo_kontr_eq w k g p hw hk
  · exact zmien_poziom_w_lewo_kontr_eq w k g p hw hk
  · exact zmien_skos_w_prawo_w_gore_kontr_eq w k g p hw hk
  · exact zmien_skos_w_lewo_w_gore_kontr_eq w k g p hw hk
  · exact zmien_skos_w_lewo_w_dol_kontr_eq w k g p hw hk
  · exact zmien_skos_w_prawo_w_dol_kontr_eq w k g p hw hk

theorem foldlM_some {α β : Type} (f : α → β → Option α) (g : α → β → α) :
    ∀ (l : List β), (∀ a, ∀ b ∈ l, f a b = some (g a b)) →
      ∀ a, l.foldlM f a = some (l.foldl g a) := by
  intro l
  induction l with
  | nil => intro _ a; rfl
  | cons b l ih =>
    intro h a
    rw [List.foldlM_cons, h a b (List.mem_cons_self _ _), List.foldl_cons]
    exact ih (fun a c hc => h a c (List.mem_cons_of_mem _ hc)) _

theorem wykonaj_ruch_kontr_foldlM (limit : Nat) (w k g : Int) (p : Plansza) :
    wykonaj_ruch_kontr limit w k g p =
      (zapisz p w k g).bind fun q =>
        kolejnosc_ruchu.foldlM (krok_ruchu_kontr limit w k g) q := rfl

theorem krok_ruchu_kontr_eq (w k g : Int) (hw : 0 ≤ w ∧ w < 8) (hk : 0 ≤ k ∧ k < 8)
    (p : Plansza) (d : Kierunek) :
    krok_ruchu_kontr 7 w k g p d = some (krok_ruchu w k g p d) := by
  simp only [krok_ruchu_kontr, krok_ruchu, jesli_kontr, sprawdz_kontr_eq d w k g p hw hk,
    zmien_kontr_eq d w k g p hw hk, Option.some_bind]
  split <;> rfl

theorem wykonaj_ruch_kontr_eq (w k g : Int) (p : Plansza) (hw : 0 ≤ w ∧ w < 8)
    (hk : 0 ≤ k ∧ k < 8) : wykonaj_ruch_kontr 7 w k g p = some (wykonaj_ruch w k g p) := by
  have hz : zapisz p w k g = some (ustaw p w k g) := by
    have : naPlanszy w k := ⟨hw.1, hw.2, hk.1, hk.2⟩
    simp [zapisz, this]
  rw [wykonaj_ruch_kontr_foldlM, hz, Option.some_bind, wykonaj_ruch_foldl]
  exact foldlM_some _ _ _ (fun a d _ => krok_ruchu_kontr_eq w k g hw hk a d) _

theorem lub_wtedy_some (a b : Bool) : lub_wtedy (some a) (some b) = some (a || b) := by
  cases a <;> rfl

theorem pokaz_mozliwe_ruchy_kontr_eq (p : Plansza) (g : Int) :
    pokaz_mozliwe_ruchy_kontr 7 p g = some (pokaz_mozliwe_ruchy p g) := by
  unfold pokaz_mozliwe_ruchy_kontr pokaz_mozliwe_ruchy
  apply foldlM_some
  intro acc j hj
  apply foldlM_some
  intro acc i hi
  rw [List.mem_range] at hi hj
  have hw : 0 ≤ (i : Int) ∧ (i : Int) < 8 := by omega
  have hk : 0 ≤ (j : Int) ∧ (j : Int) < 8 := by omega
  have hc : czytaj p i j = some (p i j) := by
    have : naPlanszy (i : Int) (j : Int) := ⟨hw.1, hw.2, hk.1, hk.2⟩
    simp [czytaj, this]
  simp only [Option.bind_eq_bind, Option.pure_def, hc, Option.some_bind,
    sprawdz_pion_w_gore_kontr_eq _ _ _ _ hw hk, sprawdz_pion_w_dol_kontr_eq _ _ _ _ hw hk,
    sprawdz_poziom_w_prawo_kontr_eq _ _ _ _ hw hk, sprawdz_poziom_w_lewo_kontr_eq _ _ _ _ hw hk,
    sprawdz_skos_w_lewo_w_gore_kontr_eq _ _ _ _ hw hk,
    sprawdz_skos_w_prawo_w_gore_kontr_eq _ _ _ _ hw hk,
    sprawdz_skos_w_lewo_w_dol_kontr_eq _ _ _ _ hw hk,
    sprawdz_skos_w_prawo_w_dol_kontr_eq _ _ _ _ hw hk, lub_wtedy_some]
  split
  · split <;> rfl
  · rfl

/-- The limit of 7 iterations is reached: a column of opponent pieces below row 0 needs
all 7 iterations (and then ends at the board edge). -/
theorem limit_siedem_potrzebny :
    sprawdz_pion_w_dol_kontr 6 0 3 0 (fun _ _ => 1) = none ∧
      sprawdz_pion_w_dol_kontr 7 0 3 0 (fun _ _ => 1) = some false := by
  decide

/-! ## Piece accounting -/

theorem policz_licz (p : Plansza) (v : Int) :
    policz p v = licz fun i j => decide (p i j = v) := rfl

theorem filter_length_rozklad {α : Type} (a b c : α → Bool) :
    ∀ l : List α, (∀ x ∈ l, a x = (b x || c x) ∧ ¬(b x = true ∧ c x = true)) →
      (l.filter a).length = (l.filter b).length + (l.filter c).length := by
  intro l
  induction l with
  | nil => intro _; rfl
  | cons x l ih =>
    intro h
    have hx := h x (List.mem_cons_self _ _)
    have hl := ih (fun y hy => h y (List.mem_cons_of_mem _ hy))
    simp only [List.filter_cons]
    cases hb : b x <;> cases hc : c x <;> simp_all <;> omega

theorem sum_map_rozklad {α : Type} (f g h : α → Nat) :
    ∀ l : List α, (∀ x ∈ l, f x = g x + h x) →
      (l.map f).sum = (l.map g).sum + (l.map h).sum := by
  intro l
  induction l with
  | nil => intro _; rfl
  | cons x l ih =>
    intro hh
    have hx := hh x (List.mem_cons_self _ _)
    have hl := ih (fun y hy => hh y (List.mem_cons_of_mem _ hy))
    simp only [List.map_cons, List.sum_cons]
    omega

theorem licz_rozklad (A B C : Int → Int → Bool)
    (h : ∀ i j : Int, naPlanszy i j →
      A i j = (B i j || C i j) ∧ ¬(B i j = true ∧ C i j = true)) :
    licz A = licz B + licz C := by
  unfold licz
  apply sum_map_rozklad
  intro i hi
  apply filter_length_rozklad
  intro j hj
  rw [List.mem_range] at hi hj
  exact h i j ⟨by omega, by omega, by omega, by omega⟩

theorem licz_rozklad_zdan (A B C : Int → Int → Prop) [∀ i j, Decidable (A i j)]
    [∀ i j, Decidable (B i j)] [∀ i j, Decidable (C i j)]
    (h : ∀ i j : Int, naPlanszy i j → (A i j ↔ (B i j ∨ C i j)) ∧ ¬(B i j ∧ C i j)) :
    licz (fun i j => decide (A i j)) =
      licz (fun i j => decide (B i j)) + licz (fun i j => decide (C i j)) := by
  apply licz_rozklad
  intro i j hij
  obtain ⟨h1, h2⟩ := h i j hij
  by_cases hB : B i j <;> by_cases hC : C i j <;> simp_all

theorem licz_cel (w k : Int) (hw : 0 ≤ w ∧ w < 8) (hk : 0 ≤ k ∧ k < 8) :
    licz (fun i j => decide (i = w ∧ j = k)) = 1 := by
  obtain ⟨h1, h2⟩ := hw
  obtain ⟨h3, h4⟩ := hk
  interval_cases w <;> interval_cases k <;> decide

theorem sum_map_dodatnia {α : Type} (f : α → Nat) :
    ∀ l : List α, 1 ≤ (l.map f).sum ↔ ∃ x ∈ l, 1 ≤ f x := by
  intro l
  induction l with
  | nil => simp
  | cons x l ih =>
    simp only [List.map_cons, List.sum_cons, List.mem_cons, exists_eq_or_imp]
    rw [← ih]
    omega

theorem licz_dodatnie (P : Int → Int → Bool) :
    1 ≤ licz P ↔ ∃ i j : Int, naPlanszy i j ∧ P i j = true := by
  unfold licz
  rw [sum_map_dodatnia]
  constructor
  · rintro ⟨i, hi, hpos⟩
    have hpos' : 0 < ((List.range 8).filter fun j : Nat => P i j).length := hpos
    rw [List.length_pos_iff_exists_mem] at hpos'
    obtain ⟨j, hj⟩ := hpos'
    rw [List.mem_filter, List.mem_range] at hj
    rw [List.mem_range] at hi
    exact ⟨i, j, ⟨by omega, by omega, by omega, by omega⟩, hj.2⟩
  · rintro ⟨i, j, ⟨h1, h2, h3, h4⟩, hP⟩
    refine ⟨i.toNat, List.mem_range.2 (by omega), ?_⟩
    show 0 < ((List.range 8).filter fun j : Nat => P (i.toNat : Nat) j).length
    rw [List.length_pos_iff_exists_mem]
    refine ⟨j.toNat, ?_⟩
    rw [List.mem_filter, List.mem_range]
    refine ⟨by omega, ?_⟩
    have hi : ((i.toNat : Nat) : Int) = i := by omega
    have hj : ((j.toNat : Nat) : Int) = j := by omega
    rw [hi, hj]
    exact hP

/-- Piece accounting for `wykonaj_ruch` on an Empty in-range target. -/
theorem wykonaj_ruch_bilans (p : Plansza) (w k g : Int) (hw : 0 ≤ w ∧ w < 8)
    (hk : 0 ≤ k ∧ k < 8) (hg : g = 0 ∨ g = 1) (he : p w k = -1) :
    policz (wykonaj_ruch w k g p) g =
        policz p g + 1 + zmienione p (wykonaj_ruch w k g p) w k ∧
      policz (wykonaj_ruch w k g p) (1 - g) + zmienione p (wykonaj_ruch w k g p) w k =
        policz p (1 - g) ∧
      policz (wykonaj_ruch w k g p) (-1) + 1 = policz p (-1) := by
  have hcel := licz_cel w k hw hk
  have hspec := fun i j => wykonaj_ruch_albo p w k g hw hk i j
  have htar := (wykonaj_ruch_spec p w k g hw hk w k).1 ⟨rfl, rfl⟩
  -- pointwise classification of a cell
  have hcl : ∀ i j : Int,
      ((i = w ∧ j = k) ∧ wykonaj_ruch w k g p i j = g ∧ p i j = -1) ∨
      (¬(i = w ∧ j = k) ∧ wykonaj_ruch w k g p i j = g ∧ p i j = 1 - g) ∨
      (¬(i = w ∧ j = k) ∧ wykonaj_ruch w k g p i j = p i j) := by
    intro i j
    by_cases ht : i = w ∧ j = k
    · left
      obtain ⟨rfl, rfl⟩ := ht
      exact ⟨⟨rfl, rfl⟩, htar, he⟩
    · right
      rcases hspec i j with h | h
      · rcases h.2 with h2 | h2
        · exact Or.inl ⟨ht, h.1, h2⟩
        · exact absurd h2 ht
      · exact Or.inr ⟨ht, h⟩
  have e1 : licz (fun i j => decide (wykonaj_ruch w k g p i j = g)) =
      licz (fun i j => decide (p i j = g)) +
        licz (fun i j => decide ((i = w ∧ j = k) ∨
          (¬(i = w ∧ j = k) ∧ wykonaj_ruch w k g p i j ≠ p i j))) := by
    apply licz_rozklad_zdan
    intro i j _
    have := hcl i j
    omega
  have e2 : licz (fun i j => decide ((i = w ∧ j = k) ∨
        (¬(i = w ∧ j = k) ∧ wykonaj_ruch w k g p i j ≠ p i j))) =
      licz (fun i j => decide (i = w ∧ j = k)) +
        licz (fun i j => decide (¬(i = w ∧ j = k) ∧ wykonaj_ruch w k g p i j ≠ p i j)) := by
    apply licz_rozklad_zdan
    intro i j _
    omega
  have e3 : licz (fun i j => decide (p i j = 1 - g)) =
      licz (fun i j => decide (wykonaj_ruch w k g p i j = 1 - g)) +
        licz (fun i j => decide (¬(i = w ∧ j = k) ∧ wykonaj_ruch w k g p i j ≠ p i j)) := by
    apply licz_rozklad_zdan
    intro i j _
    have := hcl i j
    omega
  have e4 : licz (fun i j => decide (p i j = -1)) =
      licz (fun i j => decide (wykonaj_ruch w k g p i j = -1)) +
        licz (fun i j => decide (i = w ∧ j = k)) := by
    apply licz_rozklad_zdan
    intro i j _
    have := hcl i j
    omega
  simp only [policz_licz, zmienione]
  omega

theorem zmienione_dodatnie (p : Plansza) (w k g : Int) (hw : 0 ≤ w ∧ w < 8)
    (hk : 0 ≤ k ∧ k < 8) :
    1 ≤ zmienione p (wykonaj_ruch w k g p) w k ↔ ∃ d : Kierunek, sprawdz d w k g p = true := by
  unfold zmienione
  rw [licz_dodatnie]
  obtain hspec := fun i j => wykonaj_ruch_spec p w k g hw hk i j
  constructor
  · rintro ⟨i, j, _, hP⟩
    simp only [decide_eq_true_eq] at hP
    by_contra hno
    apply hP.2
    apply (hspec i j).2.2 hP.1
    rintro d ⟨n, t, hf, _⟩
    exact hno ⟨d, (sprawdz_flankuje p d w k g hw hk).2 ⟨n, hf⟩⟩
  · rintro ⟨d, hd⟩
    obtain ⟨n, hn⟩ := (sprawdz_flankuje p d w k g hw hk).1 hd
    have hz : Zbite p d w k g (py d w 1) (px d k 1) := ⟨n, 1, hn, le_refl 1, hn.1, rfl, rfl⟩
    have h1 := zbite_przeciwnik p d w k g _ _ hz
    have h2 := (hspec (py d w 1) (px d k 1)).2.1 d hz
    refine ⟨py d w 1, px d k 1, h1.1, ?_⟩
    simp only [decide_eq_true_eq]
    refine ⟨h1.2.2, ?_⟩
    rw [h2, h1.2.1]
    omega

/-! ## Turn alternation in `main` -/

theorem dopoki_niezmiennik {σ : Type} (w : σ → Bool) (c : σ → σ) (I : σ → Prop)
    (hc : ∀ s, I s → w s = true → I (c s)) : ∀ (n : Nat) (s : σ), I s → I (dopoki w c n s) := by
  intro n
  induction n with
  | zero => intro s hs; exact hs
  | succ n ih =>
    intro s hs
    simp only [dopoki]
    split
    · next h => exact ih _ (hc s hs h)
    · exact hs

theorem obieg_tura (s : Stan) : (obieg s).tura = 1 - s.tura := rfl

theorem main_tura (n : Nat) (p : Plansza) (we : List Char) :
    (main n p we).tura = 0 ∨ (main n p we).tura = 1 := by
  apply dopoki_niezmiennik (fun s => s.gra_trwa) obieg (fun s => s.tura = 0 ∨ s.tura = 1)
  · intro s hs _
    rw [obieg_tura]
    omega
  · left; rfl

theorem kod_znaku (c d : Char) : ((c.toNat : Int) = (d.toNat : Int)) ↔ c = d := by
  constructor
  · intro h
    have : c.toNat = d.toNat := by exact_mod_cast h
    exact Char.ext (UInt32.ext (by simpa [Char.toNat] using this))
  · intro h; rw [h]

theorem obieg_ruch (s : Stan) (f r : Char) (reszta : List Char)
    (h : s.wejscie = f :: r :: reszta) (h1 : f ≠ '-') (h2 : f ≠ '=') :
    (obieg s).plansza = wykonaj_ruch (numer_wiersza r) (numer_kolumny f) s.tura s.plansza ∧
      (obieg s).gra_trwa = s.gra_trwa ∧ (obieg s).wejscie = reszta.tail := by
  have e1 : ¬((f.toNat : Int) = ('-'.toNat : Int)) := fun hh => h1 ((kod_znaku f '-').1 hh)
  have e2 : ¬((f.toNat : Int) = ('='.toNat : Int)) := fun hh => h2 ((kod_znaku f '=').1 hh)
  simp only [obieg, polecenie, getchar, h, if_neg e1, if_neg e2, na_char_kod]
  refine ⟨trivial, trivial, ?_⟩
  cases reszta <;> rfl

theorem obieg_znak (s : Stan) :
    ∃ dalej : List Char, (obieg s).wyjscie = s.wyjscie ++ znak_gracza s.tura :: dalej := by
  refine ⟨(pokaz_mozliwe_ruchy s.plansza s.tura).flatMap
    (fun c => printf_pole (symbol_kolumny c.2) (c.1 + 1)) ++ ['\n'], ?_⟩
  rw [obieg_wyjscie]
  simp only [znak_gracza, List.singleton_append, List.cons_append, List.nil_append]

/-! ## Properties of the specification, C1 to C10 -/

/-- C1: for in-range `(wiersz, kolumna)` and `gracz` in `{0, 1}`, each of the eight functions
`sprawdz_X`, with `(dr, dc)` its (row, column) step, returns true if and only if for some
`k ≥ 1` the cells `j = 1..k` along the step are on the board and hold `1 - gracz` and cell
`k + 1` is on the board and holds `gracz`; an opponent run followed by the board edge or by
an Empty cell gives false. -/
theorem C1_sprawdz_iff_flanked_run (plansza : Plansza) (wiersz kolumna gracz : Int)
    (hw : 0 ≤ wiersz ∧ wiersz < 8) (hk : 0 ≤ kolumna ∧ kolumna < 8)
    (hg : gracz = 0 ∨ gracz = 1) :
    ((sprawdz_pion_w_gore wiersz kolumna gracz plansza = true ↔
        Oskrzydla plansza wiersz kolumna gracz (-1) 0) ∧
      (Urwana plansza wiersz kolumna gracz (-1) 0 →
        sprawdz_pion_w_gore wiersz kolumna gracz plansza = false)) ∧
    ((sprawdz_pion_w_dol wiersz kolumna gracz plansza = true ↔
        Oskrzydla plansza wiersz kolumna gracz 1 0) ∧
      (Urwana plansza wiersz kolumna gracz 1 0 →
        sprawdz_pion_w_dol wiersz kolumna gracz plansza = false)) ∧
    ((sprawdz_poziom_w_prawo wiersz kolumna gracz plansza = true ↔
        Oskrzydla plansza wiersz kolumna gracz 0 1) ∧
      (Urwana plansza wiersz kolumna gracz 0 1 →
        sprawdz_poziom_w_prawo wiersz kolumna gracz plansza = false)) ∧
    ((sprawdz_poziom_w_lewo wiersz kolumna gracz plansza = true ↔
        Oskrzydla plansza wiersz kolumna gracz 0 (-1)) ∧
      (Urwana plansza wiersz kolumna gracz 0 (-1) →
        sprawdz_poziom_w_lewo wiersz kolumna gracz plansza = false)) ∧
    ((sprawdz_skos_w_prawo_w_gore wiersz kolumna gracz plansza = true ↔
        Oskrzydla plansza wiersz kolumna gracz (-1) 1) ∧
      (Urwana plansza wiersz kolumna gracz (-1) 1 →
        sprawdz_skos_w_prawo_w_gore wiersz kolumna gracz plansza = false)) ∧
    ((sprawdz_skos_w_lewo_w_gore wiersz kolumna gracz plansza = true ↔
        Oskrzydla plansza wiersz kolumna gracz (-1) (-1)) ∧
      (Urwana plansza wiersz kolumna gracz (-1) (-1) →
        sprawdz_skos_w_lewo_w_gore wiersz kolumna gracz plansza = false)) ∧
    ((sprawdz_skos_w_lewo_w_dol wiersz kolumna gracz plansza = true ↔
        Oskrzydla plansza wiersz kolumna gracz 1 (-1)) ∧
      (Urwana plansza wiersz kolumna gracz 1 (-1) →
        sprawdz_skos_w_lewo_w_dol wiersz kolumna gracz plansza = false)) ∧
    ((sprawdz_skos_w_prawo_w_dol wiersz kolumna gracz plansza = true ↔
        Oskrzydla plansza wiersz kolumna gracz 1 1) ∧
      (Urwana plansza wiersz kolumna gracz 1 1 →
        sprawdz_skos_w_prawo_w_dol wiersz kolumna gracz plansza = false)) :=
  ⟨⟨sprawdz_oskrzydla plansza .pion_w_gore wiersz kolumna gracz hw hk,
      sprawdz_urwana plansza .pion_w_gore wiersz kolumna gracz hw hk hg⟩,
    ⟨sprawdz_oskrzydla plansza .pion_w_dol wiersz kolumna gracz hw hk,
      sprawdz_urwana plansza .pion_w_dol wiersz kolumna gracz hw hk hg⟩,
    ⟨sprawdz_oskrzydla plansza .poziom_w_prawo wiersz kolumna gracz hw hk,
      sprawdz_urwana plansza .poziom_w_prawo wiersz kolumna gracz hw hk hg⟩,
    ⟨sprawdz_oskrzydla plansza .poziom_w_lewo wiersz kolumna gracz hw hk,
      sprawdz_urwana plansza .poziom_w_lewo wiersz kolumna gracz hw hk hg⟩,
    ⟨sprawdz_oskrzydla plansza .skos_w_prawo_w_gore wiersz kolumna gracz hw hk,
      sprawdz_urwana plansza .skos_w_prawo_w_gore wiersz kolumna gracz hw hk hg⟩,
    ⟨sprawdz_oskrzydla plansza .skos_w_lewo_w_gore wiersz kolumna gracz hw hk,
      sprawdz_urwana plansza .skos_w_lewo_w_gore wiersz kolumna gracz hw hk hg⟩,
    ⟨sprawdz_oskrzydla plansza .skos_w_lewo_w_dol wiersz kolumna gracz hw hk,
      sprawdz_urwana plansza .skos_w_lewo_w_dol wiersz kolumna gracz hw hk hg⟩,
    ⟨sprawdz_oskrzydla plansza .skos_w_prawo_w_dol wiersz kolumna gracz hw hk,
      sprawdz_urwana plansza .skos_w_prawo_w_dol wiersz kolumna gracz hw hk hg⟩⟩

/-- Witness for C1 on the opening position: Black to `[2][3]`, scanning down, flanks the
White piece at `[3][3]`. -/
theorem C1_sprawdz_iff_flanked_run_witness :
    ((0 : Int) ≤ 2 ∧ (2 : Int) < 8) ∧ ((0 : Int) ≤ 3 ∧ (3 : Int) < 8) ∧
      ((0 : Int) = 0 ∨ (0 : Int) = 1) ∧
      (sprawdz_pion_w_dol 2 3 0 plansza_startowa = true ↔
        Oskrzydla plansza_startowa 2 3 0 1 0) ∧
      Oskrzydla plansza_startowa 2 3 0 1 0 :=
  have h := C1_sprawdz_iff_flanked_run plansza_startowa 2 3 0 (by decide) (by decide)
    (by decide)
  ⟨by decide, by decide, by decide, h.2.1.1, h.2.1.1.1 (by decide)⟩

/-- C2: postcondition of `wykonaj_ruch` for an in-range target and `gracz` in `{0, 1}`:
(1) the target cell holds `gracz`; (2) every cell in position `t` of `1..n` of a direction
whose cells `1..n` hold `1 - gracz` on the input board, with cell `n + 1` on the board and
holding `gracz`, holds `gracz`; (3) every other cell holds its input value; in particular,
when no direction is legal only the target changes.  (Neither the emptiness of the target
nor the cell values being in `{-1, 0, 1}` is needed.) -/
theorem C2_wykonaj_ruch_postcondition (plansza : Plansza) (wiersz kolumna gracz : Int)
    (hw : 0 ≤ wiersz ∧ wiersz < 8) (hk : 0 ≤ kolumna ∧ kolumna < 8)
    (hg : gracz = 0 ∨ gracz = 1) :
    wykonaj_ruch wiersz kolumna gracz plansza wiersz kolumna = gracz ∧
    (∀ (d : Kierunek) (n t : Nat), Flankuje plansza d wiersz kolumna gracz n → 1 ≤ t → t ≤ n →
      wykonaj_ruch wiersz kolumna gracz plansza (py d wiersz t) (px d kolumna t) = gracz) ∧
    (∀ i j : Int, ¬(i = wiersz ∧ j = kolumna) →
      (¬ ∃ (d : Kierunek) (n t : Nat), Flankuje plansza d wiersz kolumna gracz n ∧ 1 ≤ t ∧
        t ≤ n ∧ i = py d wiersz t ∧ j = px d kolumna t) →
      wykonaj_ruch wiersz kolumna gracz plansza i j = plansza i j) ∧
    ((∀ d : Kierunek, sprawdz d wiersz kolumna gracz plansza = false) →
      ∀ i j : Int, ¬(i = wiersz ∧ j = kolumna) →
        wykonaj_ruch wiersz kolumna gracz plansza i j = plansza i j) := by
  have _ := hg
  refine ⟨(wykonaj_ruch_spec plansza wiersz kolumna gracz hw hk wiersz kolumna).1 ⟨rfl, rfl⟩,
    ?_, ?_, ?_⟩
  · intro d n t hf h1 h2
    exact (wykonaj_ruch_spec plansza wiersz kolumna gracz hw hk _ _).2.1 d
      ⟨n, t, hf, h1, h2, rfl, rfl⟩
  · intro i j hnt hnz
    apply (wykonaj_ruch_spec plansza wiersz kolumna gracz hw hk i j).2.2 hnt
    rintro d ⟨n, t, h⟩
    exact hnz ⟨d, n, t, h⟩
  · intro hall i j hnt
    apply (wykonaj_ruch_spec plansza wiersz kolumna gracz hw hk i j).2.2 hnt
    rintro d ⟨n, t, hf, _⟩
    have := (sprawdz_flankuje plansza d wiersz kolumna gracz hw hk).2 ⟨n, hf⟩
    rw [hall d] at this
    exact absurd this (by decide)

/-- Witness for C2 on the opening position: Black to `[2][3]` takes the White piece at
`[3][3]`, the first cell of the flanked run downwards. -/
theorem C2_wykonaj_ruch_postcondition_witness :
    ((0 : Int) ≤ 2 ∧ (2 : Int) < 8) ∧ ((0 : Int) ≤ 3 ∧ (3 : Int) < 8) ∧
      ((0 : Int) = 0 ∨ (0 : Int) = 1) ∧
      wykonaj_ruch 2 3 0 plansza_startowa 2 3 = 0 ∧
      wykonaj_ruch 2 3 0 plansza_startowa (py .pion_w_dol 2 1) (px .pion_w_dol 3 1) = 0 :=
  have h := C2_wykonaj_ruch_postcondition plansza_startowa 2 3 0 (by decide) (by decide)
    (by decide)
  ⟨by decide, by decide, by decide, h.1,
    h.2.1 .pion_w_dol 1 1
      ⟨le_refl 1, fun j h1 h2 => by
        have hj : j = 1 := by omega
        subst hj
        decide, by decide⟩
      (le_refl 1) (le_refl 1)⟩

/-- C3 as stated fails for a board holding a value outside `{-1, 0, 1}`: on the board with
White on `[3][3]` and `7` in `[4][3]`, for Black at `[2][3]` scanning down, the check is false
and the run that `zmien_pion_w_dol` repaints is the one cell `[3][3]`, yet the run is not
empty and ends neither at the board edge nor at an Empty cell: the cell after it is on the
board and holds `7`. -/
theorem C3_counterexample :
    sprawdz_pion_w_dol 2 3 0 plansza_z_siodemka = false ∧
    (∀ t : Nat, 1 ≤ t → t ≤ 1 →
      maNaPromieniu plansza_z_siodemka .pion_w_dol 2 3 t (1 - 0)) ∧
    ¬ maNaPromieniu plansza_z_siodemka .pion_w_dol 2 3 (1 + 1) (1 - 0) ∧
    zmien_pion_w_dol 2 3 0 plansza_z_siodemka 3 3 = 0 ∧
    zmien_pion_w_dol 2 3 0 plansza_z_siodemka 4 3 = 7 ∧
    ¬((1 : Nat) = 0 ∨
      ¬ naPlanszy (py .pion_w_dol 2 (1 + 1)) (px .pion_w_dol 3 (1 + 1)) ∨
      plansza_z_siodemka (py .pion_w_dol 2 (1 + 1)) (px .pion_w_dol 3 (1 + 1)) = -1) := by
  refine ⟨by decide, ?_, by decide, by decide, by decide, by decide⟩
  intro t h1 h2
  have ht : t = 1 := by omega
  subst ht
  decide

/-- C3 (amended): for in-range `(wiersz, kolumna)`, `gracz` in `{0, 1}` and each direction
`d`, with `n` the length of the maximal run of on-board cells holding `1 - gracz` that starts
next to `(wiersz, kolumna)` along `d`: after `zmien_X` the cells of that run hold `gracz` (so
they changed) and every other cell is unchanged.  When `sprawdz_X` is true on the input board
the run is the flanked run, bounded by a cell holding `gracz`, and the bounding cell and the
cells beyond it are untouched; when it is false, the run is empty or ends at the board edge
or at a cell holding neither `gracz` nor `1 - gracz`, and on a board whose cells are all in
`{-1, 0, 1}` that cell is an Empty cell. -/
theorem C3_zmien_changes_exactly_the_run (plansza : Plansza) (d : Kierunek)
    (wiersz kolumna gracz : Int) (hw : 0 ≤ wiersz ∧ wiersz < 8)
    (hk : 0 ≤ kolumna ∧ kolumna < 8) (hg : gracz = 0 ∨ gracz = 1) :
    ∃ n : Nat,
      (∀ t : Nat, 1 ≤ t → t ≤ n → maNaPromieniu plansza d wiersz kolumna t (1 - gracz)) ∧
      ¬ maNaPromieniu plansza d wiersz kolumna (n + 1) (1 - gracz) ∧
      (∀ t : Nat, 1 ≤ t → t ≤ n →
        zmien d wiersz kolumna gracz plansza (py d wiersz t) (px d kolumna t) = gracz ∧
        zmien d wiersz kolumna gracz plansza (py d wiersz t) (px d kolumna t) ≠
          plansza (py d wiersz t) (px d kolumna t)) ∧
      (∀ i j : Int, (∀ t : Nat, 1 ≤ t → t ≤ n → ¬(i = py d wiersz t ∧ j = px d kolumna t)) →
        zmien d wiersz kolumna gracz plansza i j = plansza i j) ∧
      (sprawdz d wiersz kolumna gracz plansza = true →
        Flankuje plansza d wiersz kolumna gracz n ∧
        ∀ t : Nat, n + 1 ≤ t →
          zmien d wiersz kolumna gracz plansza (py d wiersz t) (px d kolumna t) =
            plansza (py d wiersz t) (px d kolumna t)) ∧
      (sprawdz d wiersz kolumna gracz plansza = false →
        n = 0 ∨ ¬ naPlanszy (py d wiersz (n + 1)) (px d kolumna (n + 1)) ∨
          (plansza (py d wiersz (n + 1)) (px d kolumna (n + 1)) ≠ gracz ∧
            plansza (py d wiersz (n + 1)) (px d kolumna (n + 1)) ≠ 1 - gracz)) ∧
      (sprawdz d wiersz kolumna gracz plansza = false → Poprawna plansza →
        n = 0 ∨ ¬ naPlanszy (py d wiersz (n + 1)) (px d kolumna (n + 1)) ∨
          plansza (py d wiersz (n + 1)) (px d kolumna (n + 1)) = -1) := by
  obtain ⟨hs1, hs2⟩ := seria_spec plansza d wiersz kolumna gracz hw hk
  obtain ⟨hz1, hz2⟩ := zmien_seria plansza d wiersz kolumna gracz hw hk
  have hgen : sprawdz d wiersz kolumna gracz plansza = false →
      seria plansza d wiersz kolumna gracz = 0 ∨
        ¬ naPlanszy (py d wiersz (seria plansza d wiersz kolumna gracz + 1))
          (px d kolumna (seria plansza d wiersz kolumna gracz + 1)) ∨
        (plansza (py d wiersz (seria plansza d wiersz kolumna gracz + 1))
            (px d kolumna (seria plansza d wiersz kolumna gracz + 1)) ≠ gracz ∧
          plansza (py d wiersz (seria plansza d wiersz kolumna gracz + 1))
            (px d kolumna (seria plansza d wiersz kolumna gracz + 1)) ≠ 1 - gracz) := by
    intro hs
    by_cases h0 : seria plansza d wiersz kolumna gracz = 0
    · exact Or.inl h0
    · by_cases hb : naPlanszy (py d wiersz (seria plansza d wiersz kolumna gracz + 1))
          (px d kolumna (seria plansza d wiersz kolumna gracz + 1))
      · right; right
        constructor
        · intro h
          have := (sprawdz_flankuje plansza d wiersz kolumna gracz hw hk).2
            ⟨_, by omega, hs1, hb, h⟩
          rw [hs] at this
          exact absurd this (by decide)
        · intro h
          exact hs2 ⟨hb, h⟩
      · exact Or.inr (Or.inl hb)
  refine ⟨seria plansza d wiersz kolumna gracz, hs1, hs2, ?_, hz2, ?_, hgen, ?_⟩
  · intro t h1 h2
    refine ⟨hz1 t h1 h2, ?_⟩
    rw [hz1 t h1 h2, (hs1 t h1 h2).2]
    omega
  · intro hs
    obtain ⟨m, hm⟩ := (sprawdz_flankuje plansza d wiersz kolumna gracz hw hk).1 hs
    have := flankuje_seria plansza d wiersz kolumna gracz hw hk m hm
    subst this
    refine ⟨hm, ?_⟩
    intro t ht
    apply hz2
    intro s _ hs2 h
    have := promien_rozny d wiersz kolumna t s h
    omega
  · intro hs hp
    rcases hgen hs with h | h | h
    · exact Or.inl h
    · exact Or.inr (Or.inl h)
    · by_cases hb : naPlanszy (py d wiersz (seria plansza d wiersz kolumna gracz + 1))
          (px d kolumna (seria plansza d wiersz kolumna gracz + 1))
      · right; right
        rcases hp _ _ hb with h1 | h1 | h1
        · exact h1
        · exfalso; have := h.1; have := h.2; omega
        · exfalso; have := h.1; have := h.2; omega
      · exact Or.inr (Or.inl hb)

/-- Witness for C3 on the opening position: `zmien_pion_w_dol` from `[2][3]` for Black. -/
theorem C3_zmien_changes_exactly_the_run_witness :
    ((0 : Int) ≤ 2 ∧ (2 : Int) < 8) ∧ ((0 : Int) ≤ 3 ∧ (3 : Int) < 8) ∧
      ((0 : Int) = 0 ∨ (0 : Int) = 1) ∧
      ∃ n : Nat,
        (∀ t : Nat, 1 ≤ t → t ≤ n → maNaPromieniu plansza_startowa .pion_w_dol 2 3 t (1 - 0)) ∧
        ¬ maNaPromieniu plansza_startowa .pion_w_dol 2 3 (n + 1) (1 - 0) ∧
        (∀ i j : Int,
          (∀ t : Nat, 1 ≤ t → t ≤ n →
            ¬(i = py .pion_w_dol 2 t ∧ j = px .pion_w_dol 3 t)) →
          zmien .pion_w_dol 2 3 0 plansza_startowa i j = plansza_startowa i j) ∧
        Flankuje plansza_startowa .pion_w_dol 2 3 0 n := by
  obtain ⟨n, h1, h2, _, h4, h5, _, _⟩ :=
    C3_zmien_changes_exactly_the_run plansza_startowa .pion_w_dol 2 3 0 (by decide)
      (by decide) (by decide)
  exact ⟨by decide, by decide, by decide, n, h1, h2, h4, (h5 (by decide)).1⟩

/-- C4: the sequence of cells printed by `pokaz_mozliwe_ruchy` contains `(i, j)` if and only if
`(i, j)` is a board cell, `plansza[i][j]` is Empty (`-1`) and at least one of the eight
`sprawdz_X` functions returns true for `(i, j, gracz, plansza)`; no cell appears twice; and
the sequence is strictly increasing in the lexicographic order on (column `j`, row `i`). -/
theorem C4_pokaz_mozliwe_ruchy_enumerates (plansza : Plansza) (gracz : Int) :
    (∀ i j : Int, (i, j) ∈ pokaz_mozliwe_ruchy plansza gracz ↔
      naPlanszy i j ∧ plansza i j = -1 ∧
        ∃ d : Kierunek, sprawdz d i j gracz plansza = true) ∧
    (pokaz_mozliwe_ruchy plansza gracz).Nodup ∧
    (pokaz_mozliwe_ruchy plansza gracz).Pairwise
      (fun a b => a.2 < b.2 ∨ (a.2 = b.2 ∧ a.1 < b.1)) := by
  refine ⟨pokaz_mem plansza gracz, ?_, pokaz_porzadek plansza gracz⟩
  apply (pokaz_porzadek plansza gracz).imp
  rintro a b (h | h) hab
  · rw [hab] at h; exact lt_irrefl _ h
  · rw [hab] at h; exact lt_irrefl _ h.2

/-- C5: for every initial content of the array, after `inicjalizuj_plansze` the cells
`[3][3]` and `[4][4]` hold `1` (White), the cells `[3][4]` and `[4][3]` hold `0` (Black),
every other board cell holds `-1` (Empty), and so 60 cells are Empty, 2 Black, 2 White. -/
theorem C5_inicjalizuj_plansze_centre (plansza : Plansza) :
    inicjalizuj_plansze plansza 3 3 = 1 ∧ inicjalizuj_plansze plansza 3 4 = 0 ∧
    inicjalizuj_plansze plansza 4 3 = 0 ∧ inicjalizuj_plansze plansza 4 4 = 1 ∧
    (∀ i j : Int, naPlanszy i j →
      ¬(i = 3 ∧ j = 3) → ¬(i = 3 ∧ j = 4) → ¬(i = 4 ∧ j = 3) → ¬(i = 4 ∧ j = 4) →
      inicjalizuj_plansze plansza i j = -1) ∧
    policz (inicjalizuj_plansze plansza) (-1) = 60 ∧
    policz (inicjalizuj_plansze plansza) 0 = 2 ∧
    policz (inicjalizuj_plansze plansza) 1 = 2 := by
  have h := inicjalizuj_plansze_spec plansza
  have hc := fun v => policz_kongr plansza_startowa (inicjalizuj_plansze plansza) v h
  refine ⟨?_, ?_, ?_, ?_, ?_, ?_, ?_, ?_⟩
  · rw [h 3 3 (by decide)]; decide
  · rw [h 3 4 (by decide)]; decide
  · rw [h 4 3 (by decide)]; decide
  · rw [h 4 4 (by decide)]; decide
  · intro i j hij a1 a2 a3 a4
    rw [h i j hij]
    simp only [plansza_startowa]
    rw [if_neg (by tauto), if_neg (by tauto)]
  · rw [hc]; decide
  · rw [hc]; decide
  · rw [hc]; decide

/-- C6 as stated fails: on the board produced by `inicjalizuj_plansze` (here from an array
of zeros), `wykonaj_ruch(2, 3, 0, plansza)` does not leave 3 Black and 1 White piece: it
leaves 4 Black pieces. -/
theorem C6_counterexample :
    ¬(wykonaj_ruch 2 3 0 (inicjalizuj_plansze (fun _ _ => 0)) 3 3 = 0 ∧
      wykonaj_ruch 2 3 0 (inicjalizuj_plansze (fun _ _ => 0)) 2 3 = 0 ∧
      policz (wykonaj_ruch 2 3 0 (inicjalizuj_plansze (fun _ _ => 0))) 0 = 3 ∧
      policz (wykonaj_ruch 2 3 0 (inicjalizuj_plansze (fun _ _ => 0))) 1 = 1) := by
  decide

/-- C6 (amended): starting from the board produced by `inicjalizuj_plansze`,
`wykonaj_ruch(2, 3, 0, plansza)` (Black to d3) turns White's piece at `[3][3]` into Black and
places Black on the Empty cell `[2][3]`, and the board then holds 4 Black pieces and 1 White
piece (59 cells stay Empty). -/
theorem C6_black_d3_from_start (plansza : Plansza) :
    inicjalizuj_plansze plansza 3 3 = 1 ∧ inicjalizuj_plansze plansza 2 3 = -1 ∧
    wykonaj_ruch 2 3 0 (inicjalizuj_plansze plansza) 3 3 = 0 ∧
    wykonaj_ruch 2 3 0 (inicjalizuj_plansze plansza) 2 3 = 0 ∧
    policz (wykonaj_ruch 2 3 0 (inicjalizuj_plansze plansza)) 0 = 4 ∧
    policz (wykonaj_ruch 2 3 0 (inicjalizuj_plansze plansza)) 1 = 1 ∧
    policz (wykonaj_ruch 2 3 0 (inicjalizuj_plansze plansza)) (-1) = 59 := by
  have h := inicjalizuj_plansze_spec plansza
  have hr := wykonaj_ruch_kongr plansza_startowa (inicjalizuj_plansze plansza) 2 3 0
    (by decide) (by decide) h
  have hc := fun v => policz_kongr (wykonaj_ruch 2 3 0 plansza_startowa)
    (wykonaj_ruch 2 3 0 (inicjalizuj_plansze plansza)) v hr
  refine ⟨?_, ?_, ?_, ?_, ?_, ?_, ?_⟩
  · rw [h 3 3 (by decide)]; decide
  · rw [h 2 3 (by decide)]; decide
  · rw [hr 3 3 (by decide)]; decide
  · rw [hr 2 3 (by decide)]; decide
  · rw [hc]; decide
  · rw [hc]; decide
  · rw [hc]; decide

/-- C7: on the board produced by `inicjalizuj_plansze`, `pokaz_mozliwe_ruchy` for `gracz = 0`
(Black) prints exactly the cells c4, d3, e6, f5, that is (row 3, col 2), (row 2, col 3),
(row 5, col 4), (row 4, col 5), in that order. -/
theorem C7_opening_moves_black (plansza : Plansza) :
    pokaz_mozliwe_ruchy (inicjalizuj_plansze plansza) 0 = [(3, 2), (2, 3), (5, 4), (4, 5)] := by
  rw [pokaz_kongr plansza_startowa (inicjalizuj_plansze plansza) 0
    (inicjalizuj_plansze_spec plansza)]
  decide

/-- C8: for in-range `(wiersz, kolumna)`, `gracz` in `{0, 1}` and each direction `d`: if the
cell next to `(wiersz, kolumna)` in direction `d` is off the board, is Empty (`-1`) or holds
`gracz`, then `sprawdz_X` for that direction returns false. -/
theorem C8_no_adjacent_opponent (plansza : Plansza) (d : Kierunek)
    (wiersz kolumna gracz : Int) (hw : 0 ≤ wiersz ∧ wiersz < 8)
    (hk : 0 ≤ kolumna ∧ kolumna < 8) (hg : gracz = 0 ∨ gracz = 1)
    (h : ¬ naPlanszy (wiersz + d.dy) (kolumna + d.dx) ∨
      plansza (wiersz + d.dy) (kolumna + d.dx) = -1 ∨
      plansza (wiersz + d.dy) (kolumna + d.dx) = gracz) :
    sprawdz d wiersz kolumna gracz plansza = false :=
  sprawdz_sasiad plansza d wiersz kolumna gracz hw hk hg h

/-- Witness for C8 on the opening position: the cell above `[2][3]` is Empty, so the upward
check fails. -/
theorem C8_no_adjacent_opponent_witness :
    ((0 : Int) ≤ 2 ∧ (2 : Int) < 8) ∧ ((0 : Int) ≤ 3 ∧ (3 : Int) < 8) ∧
      ((0 : Int) = 0 ∨ (0 : Int) = 1) ∧
      plansza_startowa (2 + Kierunek.pion_w_gore.dy) (3 + Kierunek.pion_w_gore.dx) = -1 ∧
      sprawdz .pion_w_gore 2 3 0 plansza_startowa = false :=
  ⟨by decide, by decide, by decide, by decide,
    C8_no_adjacent_opponent plansza_startowa .pion_w_gore 2 3 0 (by decide) (by decide)
      (by decide) (Or.inr (Or.inl (by decide)))⟩

/-- C9: no self-flip.  For an in-range target and `gracz` in `{0, 1}`, every cell that holds
`gracz` before `wykonaj_ruch` holds `gracz` afterwards, and a cell whose value changes held
`1 - gracz` or is the target cell. -/
theorem C9_no_self_flip (plansza : Plansza) (wiersz kolumna gracz : Int)
    (hw : 0 ≤ wiersz ∧ wiersz < 8) (hk : 0 ≤ kolumna ∧ kolumna < 8)
    (hg : gracz = 0 ∨ gracz = 1) (i j : Int) :
    (plansza i j = gracz → wykonaj_ruch wiersz kolumna gracz plansza i j = gracz) ∧
    (wykonaj_ruch wiersz kolumna gracz plansza i j ≠ plansza i j →
      plansza i j = 1 - gracz ∨ (i = wiersz ∧ j = kolumna)) := by
  have _ := hg
  rcases wykonaj_ruch_albo plansza wiersz kolumna gracz hw hk i j with h | h
  · exact ⟨fun _ => h.1, fun _ => h.2⟩
  · exact ⟨fun h1 => by rw [h, h1], fun h1 => absurd h h1⟩

/-- Witness for C9 on the opening position: Black's piece at `[4][3]` stays Black when Black
moves to `[2][3]`. -/
theorem C9_no_self_flip_witness :
    ((0 : Int) ≤ 2 ∧ (2 : Int) < 8) ∧ ((0 : Int) ≤ 3 ∧ (3 : Int) < 8) ∧
      ((0 : Int) = 0 ∨ (0 : Int) = 1) ∧ plansza_startowa 4 3 = 0 ∧
      wykonaj_ruch 2 3 0 plansza_startowa 4 3 = 0 :=
  ⟨by decide, by decide, by decide, by decide,
    (C9_no_self_flip plansza_startowa 2 3 0 (by decide) (by decide) (by decide) 4 3).1
      (by decide)⟩

/-- C10: a placed piece is never removed.  On a board with cells in `{-1, 0, 1}`, for an
in-range target and `gracz` in `{0, 1}`: every cell that is non-empty before `wykonaj_ruch`,
or before any `zmien_X`, is non-empty afterwards, and the resulting board still has its
cells in `{-1, 0, 1}`; hence along any sequence of such moves a cell that is non-empty after
some prefix of the sequence is non-empty after every longer prefix, and all boards along
the way have cells in `{-1, 0, 1}`. -/
theorem C10_piece_never_removed (plansza : Plansza) (wiersz kolumna gracz : Int)
    (hw : 0 ≤ wiersz ∧ wiersz < 8) (hk : 0 ≤ kolumna ∧ kolumna < 8)
    (hg : gracz = 0 ∨ gracz = 1) (hp : Poprawna plansza) :
    ((∀ i j : Int, plansza i j ≠ -1 → wykonaj_ruch wiersz kolumna gracz plansza i j ≠ -1) ∧
      Poprawna (wykonaj_ruch wiersz kolumna gracz plansza)) ∧
    (∀ d : Kierunek,
      (∀ i j : Int, plansza i j ≠ -1 → zmien d wiersz kolumna gracz plansza i j ≠ -1) ∧
      Poprawna (zmien d wiersz kolumna gracz plansza)) ∧
    (∀ ruchy dalsze : List (Int × Int × Int), (∀ m ∈ ruchy ++ dalsze, RuchWZakresie m) →
      Poprawna (rozegraj ruchy plansza) ∧
      ∀ i j : Int, rozegraj ruchy plansza i j ≠ -1 →
        rozegraj (ruchy ++ dalsze) plansza i j ≠ -1) := by
  refine ⟨⟨wykonaj_ruch_niepuste plansza wiersz kolumna gracz hw hk hg,
    wykonaj_ruch_poprawna plansza wiersz kolumna gracz hw hk hg hp⟩, ?_, ?_⟩
  · intro d
    constructor
    · intro i j h
      rcases zmien_albo plansza d wiersz kolumna gracz hw hk i j with h1 | h1
      · rw [h1.1]; omega
      · rw [h1]; exact h
    · intro i j hij
      rcases zmien_albo plansza d wiersz kolumna gracz hw hk i j with h1 | h1
      · rw [h1.1]; omega
      · rw [h1]; exact hp i j hij
  · intro ruchy dalsze hm
    refine ⟨rozegraj_poprawna ruchy plansza
      (fun m h => hm m (List.mem_append_left _ h)) hp, ?_⟩
    intro i j h
    rw [rozegraj_append]
    exact rozegraj_niepuste dalsze _ (fun m h => hm m (List.mem_append_right _ h)) i j h

/-- Witness for C10 on the opening position, with Black moving to `[2][3]`. -/
theorem C10_piece_never_removed_witness :
    ((0 : Int) ≤ 2 ∧ (2 : Int) < 8) ∧ ((0 : Int) ≤ 3 ∧ (3 : Int) < 8) ∧
      ((0 : Int) = 0 ∨ (0 : Int) = 1) ∧ Poprawna plansza_startowa ∧
      Poprawna (wykonaj_ruch 2 3 0 plansza_startowa) ∧
      wykonaj_ruch 2 3 0 plansza_startowa 3 3 ≠ -1 := by
  have hp : Poprawna plansza_startowa := by
    intro y x _
    simp only [plansza_startowa]
    split_ifs <;> simp
  have h := C10_piece_never_removed plansza_startowa 2 3 0 (by decide) (by decide)
    (by decide) hp
  exact ⟨by decide, by decide, by decide, hp, h.1.2, h.1.1 3 3 (by decide)⟩

/-! ## Properties of the specification, C11 to C20 -/

/-- C11: pass never mutates the board.  In any state of the loop of `main`, when the next
command starts with `-`, one iteration leaves `plansza` (every cell) and `gra_trwa` as they
are, passes the move to the opponent (`tura` becomes `1 - tura`) and reads the character
after the `-` (the end of the line). -/
theorem C11_pass_keeps_board (s : Stan) (reszta : List Char)
    (h : s.wejscie = '-' :: reszta) :
    (obieg s).plansza = s.plansza ∧ (obieg s).tura = 1 - s.tura ∧
      (obieg s).gra_trwa = s.gra_trwa ∧ (obieg s).wejscie = reszta.tail := by
  simp only [obieg, polecenie, getchar, h]
  refine ⟨?_, trivial, ?_, ?_⟩
  · rfl
  · rfl
  · cases reszta <;> rfl

/-- Witness for C11: White passes on the opening position. -/
theorem C11_pass_keeps_board_witness :
    ('-' :: "\nd3\n".toList = '-' :: "\nd3\n".toList) ∧
      (obieg ⟨true, 1, plansza_startowa, '-' :: "\nd3\n".toList, []⟩).plansza =
        plansza_startowa ∧
      (obieg ⟨true, 1, plansza_startowa, '-' :: "\nd3\n".toList, []⟩).tura = 1 - 1 :=
  have h := C11_pass_keeps_board ⟨true, 1, plansza_startowa, '-' :: "\nd3\n".toList, []⟩
    "\nd3\n".toList rfl
  ⟨rfl, h.1, h.2.1⟩

/-- C12: for `tura` in `{0, 1}` the iteration of `main` appends to the output the character
`C` when `tura = 0` or `B` when `tura = 1`, then for each cell `(i, j)` printed by
`pokaz_mozliwe_ruchy` (the legal targets, in column-major order) a space, the letter
`symbol_kolumny(j)` and the digit `i + 1`, then one newline.  The first prompt of `main`, on
the initial board, is `C c4 d3 e6 f5` followed by a newline. -/
theorem C12_prompt_line (s : Stan) (ht : s.tura = 0 ∨ s.tura = 1) :
    (obieg s).wyjscie =
      s.wyjscie ++ ([if s.tura = 0 then 'C' else 'B'] ++
        (pokaz_mozliwe_ruchy s.plansza s.tura).flatMap
          (fun c => [' ', symbol_kolumny c.2, Nat.digitChar (c.1 + 1).toNat]) ++ ['\n']) ∧
    ∀ (plansza : Plansza) (wejscie : List Char),
      (main 1 plansza wejscie).wyjscie = "C c4 d3 e6 f5\n".toList := by
  constructor
  · rw [obieg_wyjscie]
    have h1 : gracze.getD s.tura.toNat ' ' = if s.tura = 0 then 'C' else 'B' := by
      rcases ht with h | h <;> rw [h] <;> rfl
    have h2 : (pokaz_mozliwe_ruchy s.plansza s.tura).flatMap
          (fun c => printf_pole (symbol_kolumny c.2) (c.1 + 1)) =
        (pokaz_mozliwe_ruchy s.plansza s.tura).flatMap
          (fun c => [' ', symbol_kolumny c.2, Nat.digitChar (c.1 + 1).toNat]) := by
      apply List.flatMap_congr
      rintro ⟨i, j⟩ hc
      have := ((pokaz_mem s.plansza s.tura i j).1 hc).1
      exact printf_pole_cyfra _ i this.1 this.2.1
    rw [h1, h2]
  · intro plansza wejscie
    have h : (main 1 plansza wejscie) = obieg (stan_poczatkowy plansza wejscie) := rfl
    rw [h, obieg_wyjscie]
    simp only [stan_poczatkowy, pokaz_startowa]
    decide

/-- Witness for C12: the prompt for White on the opening position. -/
theorem C12_prompt_line_witness :
    ((1 : Int) = 0 ∨ (1 : Int) = 1) ∧
      (obieg ⟨true, 1, plansza_startowa, [], []⟩).wyjscie = "B c5 d6 e3 f4\n".toList :=
  ⟨by decide,
    ((C12_prompt_line ⟨true, 1, plansza_startowa, [], []⟩ (by decide)).1).trans (by decide)⟩

/-- C13: `numer_kolumny(c)` lies in `[0, 7]` if and only if `c` is one of the letters `a` to
`h`; for such a letter it is the position of `c` in `abcdefgh`; for every other character it
is the sentinel `-1`. -/
theorem C13_numer_kolumny_range (c : Char) :
    ((0 ≤ numer_kolumny c ∧ numer_kolumny c ≤ 7) ↔
      c ∈ ['a', 'b', 'c', 'd', 'e', 'f', 'g', 'h']) ∧
    (c ∈ ['a', 'b', 'c', 'd', 'e', 'f', 'g', 'h'] →
      numer_kolumny c = (("abcdefgh".toList.indexOf c : Nat) : Int)) ∧
    (c ∉ ['a', 'b', 'c', 'd', 'e', 'f', 'g', 'h'] → numer_kolumny c = -1) := by
  refine ⟨?_, ?_, ?_⟩
  · constructor
    · intro h
      unfold numer_kolumny at h
      split at h <;> simp at h ⊢
    · intro h
      simp only [List.mem_cons, List.mem_singleton, List.not_mem_nil, or_false] at h
      rcases h with h | h | h | h | h | h | h | h <;> subst h <;> decide
  · intro h
    simp only [List.mem_cons, List.mem_singleton, List.not_mem_nil, or_false] at h
    rcases h with h | h | h | h | h | h | h | h <;> subst h <;> decide
  · intro h
    unfold numer_kolumny
    split <;> simp at h ⊢

/-- C14: `symbol_kolumny` inverts `numer_kolumny`: `numer_kolumny(symbol_kolumny(i)) = i`
for `i` in `[0, 7]`, `symbol_kolumny(numer_kolumny(c)) = c` for the letters `a` to `h`, and
`symbol_kolumny(i)` is the blank character for every `i` outside `[0, 7]`. -/
theorem C14_symbol_kolumny_inverse :
    (∀ i : Int, 0 ≤ i → i ≤ 7 → numer_kolumny (symbol_kolumny i) = i) ∧
    (∀ c : Char, c ∈ ['a', 'b', 'c', 'd', 'e', 'f', 'g', 'h'] →
      symbol_kolumny (numer_kolumny c) = c) ∧
    (∀ i : Int, i < 0 ∨ 7 < i → symbol_kolumny i = ' ') := by
  refine ⟨?_, ?_, ?_⟩
  · intro i h0 h7
    interval_cases i <;> decide
  · intro c h
    simp only [List.mem_cons, List.mem_singleton, List.not_mem_nil, or_false] at h
    rcases h with h | h | h | h | h | h | h | h <;> subst h <;> decide
  · intro i h
    unfold symbol_kolumny
    split <;> first | omega | rfl

/-- C15: `numer_wiersza(c)` is the code of `c` minus the code of `0` minus 1, for every
character; for the digit character of `n`, `1 ≤ n ≤ 8`, it is `n - 1`, which lies in
`[0, 7]`; and rank `1` maps to row 0. -/
theorem C15_numer_wiersza_value :
    (∀ c : Char, numer_wiersza c = (c.toNat : Int) - ('0'.toNat : Int) - 1) ∧
    (∀ n : Nat, 1 ≤ n → n ≤ 8 →
      numer_wiersza (Nat.digitChar n) = (n : Int) - 1 ∧
      0 ≤ numer_wiersza (Nat.digitChar n) ∧ numer_wiersza (Nat.digitChar n) ≤ 7) ∧
    numer_wiersza '1' = 0 := by
  refine ⟨fun _ => rfl, ?_, by decide⟩
  intro n h1 h8
  interval_cases n <;> decide

/-- C16: for an in-range target and `gracz` in `{0, 1}`, after `gracz` is stored in the target
cell, running the eight steps `if (sprawdz_X) zmien_X` in any permutation of the eight
directions gives the board that `wykonaj_ruch` gives; every cell that `zmien_X` changes lies
on the ray of `X` at a position `t ≥ 1`; and two different directions have no ray cell in
common. -/
theorem C16_direction_order_irrelevant (plansza : Plansza) (wiersz kolumna gracz : Int)
    (hw : 0 ≤ wiersz ∧ wiersz < 8) (hk : 0 ≤ kolumna ∧ kolumna < 8)
    (hg : gracz = 0 ∨ gracz = 1) :
    (∀ ds : List Kierunek, ds.Perm kolejnosc_ruchu →
      ds.foldl (krok_ruchu wiersz kolumna gracz) (ustaw plansza wiersz kolumna gracz) =
        wykonaj_ruch wiersz kolumna gracz plansza) ∧
    (∀ (d : Kierunek) (q : Plansza) (i j : Int),
      zmien d wiersz kolumna gracz q i j ≠ q i j →
        ∃ t : Nat, 1 ≤ t ∧ i = py d wiersz t ∧ j = px d kolumna t) ∧
    (∀ (d e : Kierunek) (s t : Nat), 1 ≤ s → 1 ≤ t →
      py d wiersz s = py e wiersz t → px d kolumna s = px e kolumna t → d = e) := by
  have _ := hg
  exact ⟨fun ds hp => kolejnosc_dowolna plansza wiersz kolumna gracz hw hk ds hp,
    fun d q i j h => zmien_tylko_promien q d wiersz kolumna gracz hw hk i j h,
    fun d e s t hs _ h1 h2 => promienie_rozlaczne d e wiersz kolumna s t hs ⟨h1, h2⟩⟩

/-- Witness for C16: the reversed direction order on the opening position. -/
theorem C16_direction_order_irrelevant_witness :
    ((0 : Int) ≤ 2 ∧ (2 : Int) < 8) ∧ ((0 : Int) ≤ 3 ∧ (3 : Int) < 8) ∧
      ((0 : Int) = 0 ∨ (0 : Int) = 1) ∧
      kolejnosc_ruchu.reverse.foldl (krok_ruchu 2 3 0) (ustaw plansza_startowa 2 3 0) =
        wykonaj_ruch 2 3 0 plansza_startowa :=
  ⟨by decide, by decide, by decide,
    (C16_direction_order_irrelevant plansza_startowa 2 3 0 (by decide) (by decide)
      (by decide)).1 kolejnosc_ruchu.reverse (List.reverse_perm _)⟩

/-- C17: for an in-range target and `gracz` in `{0, 1}`, the board produced by `wykonaj_ruch`
(target written first, each check followed by its flip) equals the board produced by
evaluating all eight checks on the input board, then writing the target, then running the
flips of the directions that tested true. -/
theorem C17_check_before_placement (plansza : Plansza) (wiersz kolumna gracz : Int)
    (hw : 0 ≤ wiersz ∧ wiersz < 8) (hk : 0 ≤ kolumna ∧ kolumna < 8)
    (hg : gracz = 0 ∨ gracz = 1) :
    wykonaj_ruch wiersz kolumna gracz plansza =
      wykonaj_ruch_sprawdz_przed wiersz kolumna gracz plansza := by
  have _ := hg
  rw [wykonaj_ruch_sprawdz_przed_foldl, wykonaj_ruch_foldl]
  exact (foldl_sprawdz_przed plansza wiersz kolumna gracz hw hk kolejnosc_ruchu
    (fun _ => False) (ustaw plansza wiersz kolumna gracz) (by decide) (fun _ _ h => h)
    (po_kierunkach_poczatek plansza wiersz kolumna gracz)).symm

/-- Witness for C17 on the opening position, Black to `[2][3]`. -/
theorem C17_check_before_placement_witness :
    ((0 : Int) ≤ 2 ∧ (2 : Int) < 8) ∧ ((0 : Int) ≤ 3 ∧ (3 : Int) < 8) ∧
      ((0 : Int) = 0 ∨ (0 : Int) = 1) ∧
      wykonaj_ruch 2 3 0 plansza_startowa = wykonaj_ruch_sprawdz_przed 2 3 0 plansza_startowa :=
  ⟨by decide, by decide, by decide,
    C17_check_before_placement plansza_startowa 2 3 0 (by decide) (by decide) (by decide)⟩

/-- C18: for an in-range `(wiersz, kolumna)`, `gracz` in `{0, 1}` and a direction `d`: two
boards that agree on the board cells of the ray of `d` (positions `t ≥ 1`) give the same
`sprawdz_X`; in particular the value stored in the origin cell, and the value of any cell on
the ray of another direction, does not change the result. -/
theorem C18_legality_depends_on_own_ray (p q : Plansza) (d : Kierunek)
    (wiersz kolumna gracz : Int) (hw : 0 ≤ wiersz ∧ wiersz < 8)
    (hk : 0 ≤ kolumna ∧ kolumna < 8) (hg : gracz = 0 ∨ gracz = 1) :
    ((∀ t : Nat, 1 ≤ t → naPlanszy (py d wiersz t) (px d kolumna t) →
        q (py d wiersz t) (px d kolumna t) = p (py d wiersz t) (px d kolumna t)) →
      sprawdz d wiersz kolumna gracz q = sprawdz d wiersz kolumna gracz p) ∧
    (∀ v : Int, sprawdz d wiersz kolumna gracz (ustaw p wiersz kolumna v) =
      sprawdz d wiersz kolumna gracz p) ∧
    (∀ (e : Kierunek) (t : Nat) (v : Int), e ≠ d → 1 ≤ t →
      sprawdz d wiersz kolumna gracz (ustaw p (py e wiersz t) (px e kolumna t) v) =
        sprawdz d wiersz kolumna gracz p) := by
  have _ := hg
  refine ⟨fun h => sprawdz_kongr p q d wiersz kolumna gracz hw hk h, ?_, ?_⟩
  · intro v
    apply sprawdz_kongr p _ d wiersz kolumna gracz hw hk
    intro t ht _
    simp only [ustaw]
    rw [if_neg (promien_nie_poczatek d wiersz kolumna t ht)]
  · intro e t v hed ht
    apply sprawdz_kongr p _ d wiersz kolumna gracz hw hk
    intro s hs _
    simp only [ustaw]
    rw [if_neg]
    intro h
    exact hed (promienie_rozlaczne d e wiersz kolumna s t hs h).symm

/-- Witness for C18 on the opening position: storing a piece in the origin `[2][3]` leaves the
downward check as it is, and the downward and upward checks differ. -/
theorem C18_legality_depends_on_own_ray_witness :
    ((0 : Int) ≤ 2 ∧ (2 : Int) < 8) ∧ ((0 : Int) ≤ 3 ∧ (3 : Int) < 8) ∧
      ((0 : Int) = 0 ∨ (0 : Int) = 1) ∧
      sprawdz .pion_w_dol 2 3 0 (ustaw plansza_startowa 2 3 0) =
        sprawdz .pion_w_dol 2 3 0 plansza_startowa ∧
      sprawdz .pion_w_dol 2 3 0 plansza_startowa = true ∧
      sprawdz .pion_w_gore 2 3 0 plansza_startowa = false :=
  ⟨by decide, by decide, by decide,
    (C18_legality_depends_on_own_ray plansza_startowa plansza_startowa .pion_w_dol 2 3 0
      (by decide) (by decide) (by decide)).2.1 0, by decide, by decide⟩

/-- C19 as stated fails: after `inicjalizuj_plansze` (here on an array of zeros) the fields
c5, e4, c4, e5 do not hold Black, Black, White, White: c5 and c4 are Empty. -/
theorem C19_counterexample :
    ¬(inicjalizuj_plansze (fun _ _ => 0) (numer_wiersza '5') (numer_kolumny 'c') = 0 ∧
      inicjalizuj_plansze (fun _ _ => 0) (numer_wiersza '4') (numer_kolumny 'e') = 0 ∧
      inicjalizuj_plansze (fun _ _ => 0) (numer_wiersza '4') (numer_kolumny 'c') = 1 ∧
      inicjalizuj_plansze (fun _ _ => 0) (numer_wiersza '5') (numer_kolumny 'e') = 1) := by
  decide

/-- C19 (amended): after `inicjalizuj_plansze`, with column letter `a..h` = column `0..7` and
rank digit `d` = row `d - 1`, the fields d5 and e4 hold black pawns (`0`), the fields d4 and
e5 hold white pawns (`1`), and the fields c5 and c4 are Empty (`-1`). -/
theorem C19_centre_fields (plansza : Plansza) :
    inicjalizuj_plansze plansza (numer_wiersza '5') (numer_kolumny 'd') = 0 ∧
    inicjalizuj_plansze plansza (numer_wiersza '4') (numer_kolumny 'e') = 0 ∧
    inicjalizuj_plansze plansza (numer_wiersza '4') (numer_kolumny 'd') = 1 ∧
    inicjalizuj_plansze plansza (numer_wiersza '5') (numer_kolumny 'e') = 1 ∧
    inicjalizuj_plansze plansza (numer_wiersza '5') (numer_kolumny 'c') = -1 ∧
    inicjalizuj_plansze plansza (numer_wiersza '4') (numer_kolumny 'c') = -1 := by
  have h := inicjalizuj_plansze_spec plansza
  have e1 : numer_wiersza '5' = 4 := by decide
  have e2 : numer_wiersza '4' = 3 := by decide
  have e3 : numer_kolumny 'c' = 2 := by decide
  have e4 : numer_kolumny 'd' = 3 := by decide
  have e5 : numer_kolumny 'e' = 4 := by decide
  rw [e1, e2, e3, e4, e5]
  refine ⟨?_, ?_, ?_, ?_, ?_, ?_⟩
  · rw [h 4 3 (by decide)]; decide
  · rw [h 3 4 (by decide)]; decide
  · rw [h 3 3 (by decide)]; decide
  · rw [h 4 4 (by decide)]; decide
  · rw [h 4 2 (by decide)]; decide
  · rw [h 3 2 (by decide)]; decide

/-- C20: bounds safety.  For every board, every `gracz` and every in-range
`(wiersz, kolumna)`, the eight `sprawdz_X`, the eight `zmien_X`, `wykonaj_ruch` and
`pokaz_mozliwe_ruchy`, run with every array read and write checked against `[0, 7]` for both
indices and with every scan loop limited to 7 iterations, never fail and return the result of
the source function. -/
theorem C20_bounds_safety (plansza : Plansza) (wiersz kolumna gracz : Int)
    (hw : 0 ≤ wiersz ∧ wiersz < 8) (hk : 0 ≤ kolumna ∧ kolumna < 8) :
    (∀ d : Kierunek, sprawdz_kontr 7 d wiersz kolumna gracz plansza =
      some (sprawdz d wiersz kolumna gracz plansza)) ∧
    (∀ d : Kierunek, zmien_kontr 7 d wiersz kolumna gracz plansza =
      some (zmien d wiersz kolumna gracz plansza)) ∧
    wykonaj_ruch_kontr 7 wiersz kolumna gracz plansza =
      some (wykonaj_ruch wiersz kolumna gracz plansza) ∧
    pokaz_mozliwe_ruchy_kontr 7 plansza gracz = some (pokaz_mozliwe_ruchy plansza gracz) :=
  ⟨fun d => sprawdz_kontr_eq d wiersz kolumna gracz plansza hw hk,
    fun d => zmien_kontr_eq d wiersz kolumna gracz plansza hw hk,
    wykonaj_ruch_kontr_eq wiersz kolumna gracz plansza hw hk,
    pokaz_mozliwe_ruchy_kontr_eq plansza gracz⟩

/-- Witness for C20: White to the corner `[0][7]` on the opening position. -/
theorem C20_bounds_safety_witness :
    ((0 : Int) ≤ 0 ∧ (0 : Int) < 8) ∧ ((0 : Int) ≤ 7 ∧ (7 : Int) < 8) ∧
      wykonaj_ruch_kontr 7 0 7 1 plansza_startowa = some (wykonaj_ruch 0 7 1 plansza_startowa) ∧
      sprawdz_kontr 7 .pion_w_dol 0 7 1 plansza_startowa = some false :=
  have h := C20_bounds_safety plansza_startowa 0 7 1 (by decide) (by decide)
  ⟨by decide, by decide, h.2.2.1, (h.1 .pion_w_dol).trans (by decide)⟩

/-! ## Properties of the specification, C21 to C22 -/

/-- C21: piece accounting.  For `gracz` in `{0, 1}` and an in-range target that is Empty on
the input board, with `f` the number of board cells other than the target whose value
`wykonaj_ruch` changes: afterwards the number of cells holding `gracz` is larger by `1 + f`,
the number holding `1 - gracz` is smaller by `f`, and the number of Empty cells is smaller
by 1; and `f ≥ 1` if and only if some `sprawdz_X` is true for the target on the input board.
(The cell values being in `{-1, 0, 1}` is not needed.) -/
theorem C21_piece_accounting (plansza : Plansza) (wiersz kolumna gracz : Int)
    (hw : 0 ≤ wiersz ∧ wiersz < 8) (hk : 0 ≤ kolumna ∧ kolumna < 8)
    (hg : gracz = 0 ∨ gracz = 1) (hpuste : plansza wiersz kolumna = -1) :
    policz (wykonaj_ruch wiersz kolumna gracz plansza) gracz =
      policz plansza gracz + 1 +
        zmienione plansza (wykonaj_ruch wiersz kolumna gracz plansza) wiersz kolumna ∧
    policz (wykonaj_ruch wiersz kolumna gracz plansza) (1 - gracz) +
        zmienione plansza (wykonaj_ruch wiersz kolumna gracz plansza) wiersz kolumna =
      policz plansza (1 - gracz) ∧
    policz (wykonaj_ruch wiersz kolumna gracz plansza) (-1) + 1 = policz plansza (-1) ∧
    (1 ≤ zmienione plansza (wykonaj_ruch wiersz kolumna gracz plansza) wiersz kolumna ↔
      ∃ d : Kierunek, sprawdz d wiersz kolumna gracz plansza = true) := by
  obtain ⟨h1, h2, h3⟩ := wykonaj_ruch_bilans plansza wiersz kolumna gracz hw hk hg hpuste
  exact ⟨h1, h2, h3, zmienione_dodatnie plansza wiersz kolumna gracz hw hk⟩

/-- Witness for C21 on the opening position: Black to `[2][3]` changes one other cell. -/
theorem C21_piece_accounting_witness :
    ((0 : Int) ≤ 2 ∧ (2 : Int) < 8) ∧ ((0 : Int) ≤ 3 ∧ (3 : Int) < 8) ∧
      ((0 : Int) = 0 ∨ (0 : Int) = 1) ∧ plansza_startowa 2 3 = -1 ∧
      zmienione plansza_startowa (wykonaj_ruch 2 3 0 plansza_startowa) 2 3 = 1 ∧
      policz (wykonaj_ruch 2 3 0 plansza_startowa) 0 =
        policz plansza_startowa 0 + 1 +
          zmienione plansza_startowa (wykonaj_ruch 2 3 0 plansza_startowa) 2 3 :=
  ⟨by decide, by decide, by decide, by decide, by decide,
    (C21_piece_accounting plansza_startowa 2 3 0 (by decide) (by decide) (by decide)
      (by decide)).1⟩

/-- C22: turn alternation.  `main` enters its loop with `tura = 0` and `tura` is 0 or 1 at
every head of the loop; one iteration turns `tura` into `1 - tura`, so from a state with
`tura` in `{0, 1}` the next `tura` is again in `{0, 1}`, the prompt of the iteration starts
with `C` for `tura = 0` and `B` for `tura = 1`, and the prompt of the next iteration starts
with the other letter; and a command made of a character `f` other than `-` and `=` (the
file) and a character `r` (the rank) replaces the board by
`wykonaj_ruch(numer_wiersza(r), numer_kolumny(f), tura, plansza)` with the `tura` before the
change of turn. -/
theorem C22_turn_alternation (s : Stan) (ht : s.tura = 0 ∨ s.tura = 1) :
    (∀ (plansza : Plansza) (wejscie : List Char),
      (stan_poczatkowy plansza wejscie).tura = 0 ∧
      ∀ n : Nat, (main n plansza wejscie).tura = 0 ∨ (main n plansza wejscie).tura = 1) ∧
    (obieg s).tura = 1 - s.tura ∧
    ((obieg s).tura = 0 ∨ (obieg s).tura = 1) ∧
    (∃ dalej : List Char,
      (obieg s).wyjscie = s.wyjscie ++ (if s.tura = 0 then 'C' else 'B') :: dalej) ∧
    (∃ dalej : List Char,
      (obieg (obieg s)).wyjscie =
        (obieg s).wyjscie ++ (if s.tura = 0 then 'B' else 'C') :: dalej) ∧
    (∀ (f r : Char) (reszta : List Char), s.wejscie = f :: r :: reszta → f ≠ '-' → f ≠ '=' →
      (obieg s).plansza =
          wykonaj_ruch (numer_wiersza r) (numer_kolumny f) s.tura s.plansza ∧
        (obieg s).tura = 1 - s.tura) := by
  refine ⟨fun p we => ⟨rfl, fun n => main_tura n p we⟩, rfl, ?_, ?_, ?_, ?_⟩
  · rw [obieg_tura]; omega
  · obtain ⟨d, hd⟩ := obieg_znak s
    refine ⟨d, ?_⟩
    rw [hd]
    rcases ht with h | h <;> rw [h] <;> rfl
  · obtain ⟨d, hd⟩ := obieg_znak (obieg s)
    refine ⟨d, ?_⟩
    rw [hd, obieg_tura]
    rcases ht with h | h <;> rw [h] <;> rfl
  · intro f r reszta h h1 h2
    exact ⟨(obieg_ruch s f r reszta h h1 h2).1, rfl⟩

/-- Witness for C22: the first iteration of `main` on the command `d3`. -/
theorem C22_turn_alternation_witness :
    ((0 : Int) = 0 ∨ (0 : Int) = 1) ∧
      (obieg (stan_poczatkowy plansza_startowa "d3\nc3\n".toList)).tura = 1 ∧
      (obieg (stan_poczatkowy plansza_startowa "d3\nc3\n".toList)).plansza =
        wykonaj_ruch (numer_wiersza '3') (numer_kolumny 'd') 0
          (inicjalizuj_plansze plansza_startowa) :=
  have h := C22_turn_alternation (stan_poczatkowy plansza_startowa "d3\nc3\n".toList)
    (Or.inl rfl)
  ⟨Or.inl rfl, h.2.1, (h.2.2.2.2.2 'd' '3' "\nc3\n".toList rfl (by decide) (by decide)).1⟩

end Reversi
